import Mathlib

/-!
# Warehouse management system: stock ledger and order lifecycle

A shallow embedding of the Go backend (`backend/src`): the models, the SQLite
repositories and the services `WarehouseService` and `OrderService`.

Modelling conventions.

* A table is the list of its rows in insertion order; a repository method is
  the effect of the SQL text it sends.
* `float64` quantities and prices are idealised as exact rationals `ℚ`
  (no rounding, no NaN, no infinities).
* `time.Time` is a natural number of clock units, `0` being the zero instant
  (`IsZero`).  Every `time.Now()` is one reading of the environment clock
  `Env.clock`; the layout formatter of `Time.Format` is `Env.format`.
* A repository call that the storage engine refuses or cannot complete
  (deadline exceeded, I/O, a constraint of the schema) is a fault delivered
  by the environment, `Env.fault`: the call returns that error and, the
  statements of one call being one transaction or one statement, changes no
  table.  A call that is not faulted has exactly the effect of its SQL text.
* The Go type `error` is `Option Error` (`none` is `nil`); a nil pointer result is
  `none`.
* The foreign keys of the schema (`config/db.go`; `main.go` opens the database
  with `foreign_keys(ON)`) are the predicate `foreignKeysHold` on the store.
  The engine refuses every statement that would break it, so the running
  program only reaches stores that satisfy it; a statement about the running
  program takes it as a hypothesis on the store an operation leaves behind.
-/

namespace Warehouse

/-! ## Models -/

/-- Instants of `time.Time`; `0` is the zero instant. -/
abbrev Time := Nat

/-- The constant `models.MovementReceipt`. -/
def MovementReceipt : String := "receipt"

/-- The constant `models.MovementWriteOff`. -/
def MovementWriteOff : String := "write_off"

/-- The constant `models.MovementReserve`. -/
def MovementReserve : String := "reserve"

/-- The struct `models.StockMovement`; the field `Type` is spelled `Type_`,
and `StockMovementType` is its underlying `string`. -/
structure StockMovement where
  ID : String
  Type_ : String
  ProductID : String
  SupplierID : String
  OrderID : String
  Quantity : ℚ
  Price : ℚ
  ExpiryDate : Option Time
  CreatedAt : Time
deriving DecidableEq

/-- The struct `models.StockItem`. -/
structure StockItem where
  ProductID : String
  Quantity : ℚ
deriving DecidableEq

/-- The struct `models.Product`. -/
structure Product where
  ID : String
  SKU : String
  Name : String
  Description : String
  CategoryID : String
  SupplierID : String
  Unit : String
  CreatedAt : Time
  UpdatedAt : Time
deriving DecidableEq

/-- The constant `models.OrderStatusNew`. -/
def OrderStatusNew : String := "new"

/-- The constant `models.OrderStatusReserved`. -/
def OrderStatusReserved : String := "reserved"

/-- The constant `models.OrderStatusCompleted`. -/
def OrderStatusCompleted : String := "completed"

/-- The constant `models.OrderStatusCanceled`. -/
def OrderStatusCanceled : String := "canceled"

/-- The struct `models.OrderItem`. -/
structure OrderItem where
  ProductID : String
  Quantity : ℚ
  Price : ℚ
deriving DecidableEq

/-- The struct `models.StatusEntry`. -/
structure StatusEntry where
  Status : String
  ChangedAt : Time
deriving DecidableEq

/-- The struct `models.Order`; `OrderStatus` is its underlying `string`. -/
structure Order where
  ID : String
  Customer : String
  Status : String
  Items : List OrderItem
  CreatedAt : Time
  UpdatedAt : Time
  StatusHist : List StatusEntry
deriving DecidableEq

/-- `models.NewOrder`, given the reading `now` of `time.Now().UTC()`. -/
def NewOrder (customer : String) (items : List OrderItem) (now : Time) : Order :=
  { ID := ""
    Customer := customer
    Status := OrderStatusNew
    Items := items
    CreatedAt := now
    UpdatedAt := now
    StatusHist := [{ Status := OrderStatusNew, ChangedAt := now }] }

/-! ## Errors -/

/-- The error values the services and repositories return. -/
inductive Error where
  /-- `services.ErrInvalidOperation` -/
  | ErrInvalidOperation
  /-- `services.ErrInsufficientStock` -/
  | ErrInsufficientStock
  /-- `services.ErrOrderNotFound` -/
  | ErrOrderNotFound
  /-- `services.ErrInvalidOrder` -/
  | ErrInvalidOrder
  /-- `services.ErrOrderBadStatus` -/
  | ErrOrderBadStatus
  /-- `fmt.Errorf("order with id %s not found", id)` of `OrderRepositorySQLite.Update` -/
  | orderRowNotFound (id : String)
  /-- An error of the storage engine, passed on as it is. -/
  | backend (msg : String)
deriving DecidableEq

deriving instance DecidableEq for Except

/-! ## The store and its environment -/

/-- A row of table `orders`. -/
structure OrderRow where
  id : String
  customer : String
  status : String
  created_at : Time
  updated_at : Time
deriving DecidableEq

/-- A row of table `order_items` (the autoincrement key is the position). -/
structure OrderItemRow where
  order_id : String
  product_id : String
  quantity : ℚ
  price : ℚ
deriving DecidableEq

/-- A row of table `order_status_history` (the autoincrement key is the position). -/
structure StatusRow where
  order_id : String
  status : String
  changed_at : Time
deriving DecidableEq

/-- What the program reads from outside: the clock, the time formatter and
the outcome of each call to the storage engine. -/
structure Env where
  /-- The `n`-th reading of `time.Now()`. -/
  clock : Nat → Time
  /-- `Time.Format("20060102T150405.000000000")`. -/
  format : Time → String
  /-- The `n`-th repository call: `none` completes, `some e` fails with `e`. -/
  fault : Nat → Option String

/-- The database tables, with the number of clock readings and of repository
calls made so far. -/
structure World where
  products : List Product
  orders : List OrderRow
  order_items : List OrderItemRow
  order_status_history : List StatusRow
  stock_movements : List StockMovement
  ticks : Nat
  calls : Nat
deriving DecidableEq

/-- One reading of `time.Now().UTC()`. -/
def timeNow (env : Env) (w : World) : Time × World :=
  (env.clock w.ticks, { w with ticks := w.ticks + 1 })

/-- One repository call reaching the storage engine: its fault, if any. -/
def storeCall (env : Env) (w : World) : Option String × World :=
  (env.fault w.calls, { w with calls := w.calls + 1 })

/-! ## Go standard library -/

/-- `unicode.IsSpace`: the Latin-1 spaces `\t \n \v \f \r`, space, U+0085, U+00A0,
and the characters of the Unicode property White_Space beyond Latin-1. -/
def isSpace (c : Char) : Bool :=
  decide (c.toNat ∈ [9, 10, 11, 12, 13, 32, 0x85, 0xA0, 0x1680, 0x2028, 0x2029, 0x202F,
    0x205F, 0x3000]) || (decide (0x2000 ≤ c.toNat) && decide (c.toNat ≤ 0x200A))

/-- `strings.TrimSpace`: the string without its leading and trailing white space. -/
def TrimSpace (s : String) : String :=
  String.mk (((s.data.dropWhile isSpace).reverse.dropWhile isSpace).reverse)

/-! ## `repositories.WarehouseRepositorySQLite` -/

/-- The SQL expression
`CASE type WHEN receipt THEN quantity WHEN write_off THEN -quantity
WHEN reserve THEN -quantity END` over the three type literals; a type that
matches none of them gives NULL, which is `none`. -/
def signedQuantity (m : StockMovement) : Option ℚ :=
  if m.Type_ = "receipt" then some m.Quantity
  else if m.Type_ = "write_off" then some (-m.Quantity)
  else if m.Type_ = "reserve" then some (-m.Quantity)
  else none

/-- The SQL aggregate `SUM`: NULLs are skipped, and the sum of no value is NULL. -/
def sqlSum (xs : List (Option ℚ)) : Option ℚ :=
  match xs.filterMap id with
  | [] => none
  | y :: ys => some (y :: ys).sum

/-- The query of `GetStockByProduct` on the table `stock_movements`:
`SELECT COALESCE(SUM(CASE ...), 0) FROM stock_movements WHERE product_id = ?`. -/
def stockQuery (ledger : List StockMovement) (productID : String) : ℚ :=
  (sqlSum ((ledger.filter (fun m => m.ProductID = productID)).map signedQuantity)).getD 0

/-- `WarehouseRepositorySQLite.GetStockByProduct`. -/
def WarehouseRepositorySQLite.GetStockByProduct (env : Env) (w : World) (productID : String) :
    Except Error ℚ × World :=
  match storeCall env w with
  | (some e, w1) => (Except.error (Error.backend e), w1)
  | (none, w1) => (Except.ok (stockQuery w1.stock_movements productID), w1)

/-- `WarehouseRepositorySQLite.AddMovement`: the id and the creation time are
filled in when absent, then the row is inserted. -/
def WarehouseRepositorySQLite.AddMovement (env : Env) (w : World) (m : StockMovement) :
    Option Error × World :=
  let r1 : StockMovement × World :=
    if m.ID = "" then
      ({ m with ID := "w-" ++ env.format (timeNow env w).1 }, (timeNow env w).2)
    else (m, w)
  let now := (timeNow env r1.2).1
  let w2 := (timeNow env r1.2).2
  let m2 : StockMovement := if r1.1.CreatedAt = 0 then { r1.1 with CreatedAt := now } else r1.1
  match storeCall env w2 with
  | (some e, w3) => (some (Error.backend e), w3)
  | (none, w3) => (none, { w3 with stock_movements := w3.stock_movements ++ [m2] })

/-- The query of `GetInventory` on the table `stock_movements`:
`SELECT product_id, SUM(CASE ...) FROM stock_movements GROUP BY product_id`,
one row per product id that occurs; SQL leaves the order of the groups open,
here it is the order of `List.dedup`. -/
def inventoryQuery (ledger : List StockMovement) : List (String × Option ℚ) :=
  ((ledger.map (fun m => m.ProductID)).dedup).map (fun p =>
    (p, sqlSum ((ledger.filter (fun m => m.ProductID = p)).map signedQuantity)))

/-- The loop `for rows.Next()` of `GetInventory`: each row is scanned into a
`StockItem`; scanning a NULL sum into a `float64` fails and ends the call. -/
def scanStockItems : List (String × Option ℚ) → Except Error (List StockItem)
  | [] => Except.ok []
  | (p, some q) :: rest =>
    match scanStockItems rest with
    | Except.ok l => Except.ok (StockItem.mk p q :: l)
    | Except.error e => Except.error e
  | (_, none) :: _ => Except.error (Error.backend "converting NULL to float64 is unsupported")

/-- `WarehouseRepositorySQLite.GetInventory`. -/
def WarehouseRepositorySQLite.GetInventory (env : Env) (w : World) :
    Except Error (List StockItem) × World :=
  match storeCall env w with
  | (some e, w1) => (Except.error (Error.backend e), w1)
  | (none, w1) => (scanStockItems (inventoryQuery w1.stock_movements), w1)

/-! ## `repositories.ProductRepositorySQLite` -/

/-- `ProductRepositorySQLite.GetByID`: `SELECT ... FROM products WHERE id = ? LIMIT 1`;
`sql.ErrNoRows` is turned into the result `(nil, nil)`. -/
def ProductRepositorySQLite.GetByID (env : Env) (w : World) (id : String) :
    Except Error (Option Product) × World :=
  match storeCall env w with
  | (some e, w1) => (Except.error (Error.backend e), w1)
  | (none, w1) => (Except.ok (w1.products.find? (fun p => p.ID = id)), w1)

/-! ## `repositories.OrderRepositorySQLite` -/

/-- `OrderRepositorySQLite.loadItemsAndHistory`: the items of the order in
insertion order, its history `ORDER BY changed_at` (rows with the same
`changed_at` keep their insertion order). -/
def OrderRepositorySQLite.loadItemsAndHistory (w : World) (o : Order) : Order :=
  { o with
    Items := (w.order_items.filter (fun r => r.order_id = o.ID)).map
      (fun r => OrderItem.mk r.product_id r.quantity r.price)
    StatusHist := List.insertionSort (fun a b : StatusEntry => a.ChangedAt ≤ b.ChangedAt)
      ((w.order_status_history.filter (fun r => r.order_id = o.ID)).map
        (fun r => StatusEntry.mk r.status r.changed_at)) }

/-- `OrderRepositorySQLite.GetByID`: `SELECT ... FROM orders WHERE id = ? LIMIT 1`;
`sql.ErrNoRows` is turned into the result `(nil, nil)`. -/
def OrderRepositorySQLite.GetByID (env : Env) (w : World) (id : String) :
    Except Error (Option Order) × World :=
  match storeCall env w with
  | (some e, w1) => (Except.error (Error.backend e), w1)
  | (none, w1) =>
    match w1.orders.find? (fun r => r.id = id) with
    | none => (Except.ok none, w1)
    | some r =>
      (Except.ok (some (OrderRepositorySQLite.loadItemsAndHistory w1
        { ID := r.id, Customer := r.customer, Status := r.status, Items := [],
          CreatedAt := r.created_at, UpdatedAt := r.updated_at, StatusHist := [] })), w1)

/-- `OrderRepositorySQLite.Create`: returns the error, the order as the method
leaves it behind the pointer, and the store. -/
def OrderRepositorySQLite.Create (env : Env) (w : World) (order : Order) :
    Option Error × Order × World :=
  let r1 : Order × World :=
    if order.ID = "" then
      ({ order with ID := "o-" ++ env.format (timeNow env w).1 }, (timeNow env w).2)
    else (order, w)
  let now := (timeNow env r1.2).1
  let w2 := (timeNow env r1.2).2
  let o2 : Order :=
    { r1.1 with
      CreatedAt := (if r1.1.CreatedAt = 0 then now else r1.1.CreatedAt)
      UpdatedAt := now }
  match storeCall env w2 with
  | (some e, w3) => (some (Error.backend e), o2, w3)
  | (none, w3) =>
    (none, o2,
      { w3 with
        orders := w3.orders ++ [OrderRow.mk o2.ID o2.Customer o2.Status o2.CreatedAt o2.UpdatedAt]
        order_items := w3.order_items ++
          o2.Items.map (fun it => OrderItemRow.mk o2.ID it.ProductID it.Quantity it.Price)
        order_status_history := w3.order_status_history ++
          o2.StatusHist.map (fun h => StatusRow.mk o2.ID h.Status h.ChangedAt) })

/-- `OrderRepositorySQLite.Update`: `UPDATE orders SET customer, status, updated_at
WHERE id = ?`, an error when no row is affected, then the last history entry
is inserted. -/
def OrderRepositorySQLite.Update (env : Env) (w : World) (order : Order) :
    Option Error × Order × World :=
  let now := (timeNow env w).1
  let w1 := (timeNow env w).2
  let o1 : Order := { order with UpdatedAt := now }
  match storeCall env w1 with
  | (some e, w2) => (some (Error.backend e), o1, w2)
  | (none, w2) =>
    if w2.orders.any (fun r => decide (r.id = o1.ID)) then
      (none, o1,
        { w2 with
          orders := w2.orders.map (fun r =>
            if r.id = o1.ID then OrderRow.mk r.id o1.Customer o1.Status r.created_at o1.UpdatedAt
            else r)
          order_status_history := w2.order_status_history ++
            (match o1.StatusHist.getLast? with
             | some last => [StatusRow.mk o1.ID last.Status last.ChangedAt]
             | none => []) })
    else (some (Error.orderRowNotFound o1.ID), o1, w2)

/-- `OrderRepositorySQLite.GetAll`: `SELECT ... FROM orders ORDER BY created_at DESC`
(rows with the same `created_at` keep their insertion order), each row hydrated
with its items and history. -/
def OrderRepositorySQLite.GetAll (env : Env) (w : World) : Except Error (List Order) × World :=
  match storeCall env w with
  | (some e, w1) => (Except.error (Error.backend e), w1)
  | (none, w1) =>
    (Except.ok ((List.insertionSort (fun a b : OrderRow => b.created_at ≤ a.created_at)
        w1.orders).map (fun r =>
      OrderRepositorySQLite.loadItemsAndHistory w1
        { ID := r.id, Customer := r.customer, Status := r.status, Items := [],
          CreatedAt := r.created_at, UpdatedAt := r.updated_at, StatusHist := [] })), w1)

/-! ## `services.WarehouseService` -/

/-- `WarehouseService.Receipt`. -/
def WarehouseService.Receipt (env : Env) (w : World) (productID supplierID : String)
    (quantity price : ℚ) (expiry : Option Time) : Option Error × World :=
  if productID = "" ∨ quantity ≤ 0 then (some Error.ErrInvalidOperation, w)
  else
    match ProductRepositorySQLite.GetByID env w productID with
    | (Except.error err, w1) => (some err, w1)
    | (Except.ok _, w1) =>
      WarehouseRepositorySQLite.AddMovement env (timeNow env w1).2
        { ID := ""
          Type_ := MovementReceipt
          ProductID := productID
          SupplierID := supplierID
          OrderID := ""
          Quantity := quantity
          Price := price
          ExpiryDate := expiry
          CreatedAt := (timeNow env w1).1 }

/-- `WarehouseService.WriteOff`. -/
def WarehouseService.WriteOff (env : Env) (w : World) (productID : String) (quantity : ℚ) :
    Option Error × World :=
  if productID = "" ∨ quantity ≤ 0 then (some Error.ErrInvalidOperation, w)
  else
    match WarehouseRepositorySQLite.GetStockByProduct env w productID with
    | (Except.error err, w1) => (some err, w1)
    | (Except.ok current, w1) =>
      if current < quantity then (some Error.ErrInsufficientStock, w1)
      else
        WarehouseRepositorySQLite.AddMovement env (timeNow env w1).2
          { ID := ""
            Type_ := MovementWriteOff
            ProductID := productID
            SupplierID := ""
            OrderID := ""
            Quantity := quantity
            Price := 0
            ExpiryDate := none
            CreatedAt := (timeNow env w1).1 }

/-- `WarehouseService.Reserve`. -/
def WarehouseService.Reserve (env : Env) (w : World) (productID orderID : String)
    (quantity : ℚ) : Option Error × World :=
  if productID = "" ∨ orderID = "" ∨ quantity ≤ 0 then (some Error.ErrInvalidOperation, w)
  else
    match WarehouseRepositorySQLite.GetStockByProduct env w productID with
    | (Except.error err, w1) => (some err, w1)
    | (Except.ok current, w1) =>
      if current < quantity then (some Error.ErrInsufficientStock, w1)
      else
        WarehouseRepositorySQLite.AddMovement env (timeNow env w1).2
          { ID := ""
            Type_ := MovementReserve
            ProductID := productID
            SupplierID := ""
            OrderID := orderID
            Quantity := quantity
            Price := 0
            ExpiryDate := none
            CreatedAt := (timeNow env w1).1 }

/-- `WarehouseService.GetInventory`. -/
def WarehouseService.GetInventory (env : Env) (w : World) :
    Except Error (List StockItem) × World :=
  WarehouseRepositorySQLite.GetInventory env w

/-! ## `services.OrderService` -/

/-- `OrderService.GetOrder`. -/
def OrderService.GetOrder (env : Env) (w : World) (id : String) : Except Error Order × World :=
  if TrimSpace id = "" then (Except.error Error.ErrInvalidOrder, w)
  else
    match OrderRepositorySQLite.GetByID env w (TrimSpace id) with
    | (Except.error err, w1) => (Except.error err, w1)
    | (Except.ok none, w1) => (Except.error Error.ErrOrderNotFound, w1)
    | (Except.ok (some order), w1) => (Except.ok order, w1)

/-- The first loop of `OrderService.CreateOrder`: each item in turn is
validated and its product looked up; the first error ends the loop. -/
def OrderService.CreateOrder.checkItems (env : Env) (w : World) :
    List OrderItem → Option Error × World
  | [] => (none, w)
  | it :: rest =>
    if it.ProductID = "" ∨ it.Quantity ≤ 0 then (some Error.ErrInvalidOrder, w)
    else
      match ProductRepositorySQLite.GetByID env w it.ProductID with
      | (Except.error err, w1) => (some err, w1)
      | (Except.ok _, w1) => OrderService.CreateOrder.checkItems env w1 rest

/-- The second loop of `OrderService.CreateOrder`: one `reserve` movement is
added per item; the first error ends the loop. -/
def OrderService.CreateOrder.reserveItems (env : Env) (orderID : String) (w : World) :
    List OrderItem → Option Error × World
  | [] => (none, w)
  | it :: rest =>
    match WarehouseRepositorySQLite.AddMovement env (timeNow env w).2
        { ID := ""
          Type_ := MovementReserve
          ProductID := it.ProductID
          SupplierID := ""
          OrderID := orderID
          Quantity := it.Quantity
          Price := 0
          ExpiryDate := none
          CreatedAt := (timeNow env w).1 } with
    | (some err, w1) => (some err, w1)
    | (none, w1) => OrderService.CreateOrder.reserveItems env orderID w1 rest

/-- `OrderService.CreateOrder`. -/
def OrderService.CreateOrder (env : Env) (w : World) (customer : String)
    (items : List OrderItem) : Except Error Order × World :=
  if TrimSpace customer = "" ∨ items.length = 0 then (Except.error Error.ErrInvalidOrder, w)
  else
    match OrderService.CreateOrder.checkItems env w items with
    | (some err, w1) => (Except.error err, w1)
    | (none, w1) =>
      match OrderRepositorySQLite.Create env (timeNow env w1).2
          (NewOrder (TrimSpace customer) items (timeNow env w1).1) with
      | (some err, _, w2) => (Except.error err, w2)
      | (none, order, w2) =>
        match OrderService.CreateOrder.reserveItems env order.ID w2 order.Items with
        | (some err, w3) => (Except.error err, w3)
        | (none, w3) => (Except.ok order, w3)

/-- `OrderService.UpdateOrderStatus`. -/
def OrderService.UpdateOrderStatus (env : Env) (w : World) (id newStatus : String) :
    Except Error Order × World :=
  if TrimSpace id = "" then (Except.error Error.ErrInvalidOrder, w)
  else
    match OrderRepositorySQLite.GetByID env w (TrimSpace id) with
    | (Except.error err, w1) => (Except.error err, w1)
    | (Except.ok none, w1) => (Except.error Error.ErrOrderNotFound, w1)
    | (Except.ok (some order), w1) =>
      if order.Status = OrderStatusNew ∨ order.Status = OrderStatusReserved then
        match OrderRepositorySQLite.Update env (timeNow env w1).2
            { order with
              Status := newStatus
              UpdatedAt := (timeNow env w1).1
              StatusHist := order.StatusHist ++
                [{ Status := newStatus, ChangedAt := (timeNow env w1).1 }] } with
        | (some err, _, w2) => (Except.error err, w2)
        | (none, order1, w2) => (Except.ok order1, w2)
      else (Except.error Error.ErrOrderBadStatus, w1)

/-- `OrderService.ListOrders`. -/
def OrderService.ListOrders (env : Env) (w : World) : Except Error (List Order) × World :=
  OrderRepositorySQLite.GetAll env w

/-! ## `middleware.RoleMiddleware` -/

/-- What `r.Context().Value(contextRoleKey)` can hold: nothing, a string, or a
value of another type. -/
inductive CtxValue where
  | absent
  | str (s : String)
  | other
deriving DecidableEq

/-- The part of `*http.Request` that `RoleMiddleware` reads: the method and the
context value under the key `role`. -/
structure Request where
  Method : String
  Role : CtxValue
deriving DecidableEq

/-- What a handler does with its `http.ResponseWriter` and with the handler it
wraps, in order. -/
inductive Effect where
  /-- `next(w, r)`: the wrapped handler is called with the request. -/
  | callNext (r : Request)
  /-- `w.Header().Set(key, value)` -/
  | setHeader (key value : String)
  /-- `w.WriteHeader(code)` -/
  | writeHeader (code : Nat)
  /-- `json.NewEncoder(w).Encode(errorResponse{Error: msg})` -/
  | encodeError (msg : String)
deriving DecidableEq

/-- `http.MethodOptions`. -/
def MethodOptions : String := "OPTIONS"

/-- `http.StatusForbidden`. -/
def StatusForbidden : Nat := 403

/-- `middleware.forbidden`. -/
def forbidden (msg : String) : List Effect :=
  [Effect.setHeader "Content-Type" "application/json", Effect.writeHeader StatusForbidden,
    Effect.encodeError msg]

/-- The loop `for _, allowed := range allowedRoles` of `RoleMiddleware`, with
the denial that follows it. -/
def RoleMiddleware.checkRoles (r : Request) (role : String) : List String → List Effect
  | [] => forbidden "access denied"
  | allowed :: rest =>
    if role = allowed then [Effect.callNext r] else RoleMiddleware.checkRoles r role rest

/-- `middleware.RoleMiddleware`: the effects of the returned handler on a
request. -/
def RoleMiddleware (allowedRoles : List String) (r : Request) : List Effect :=
  if r.Method = MethodOptions then [Effect.callNext r]
  else
    match r.Role with
    | CtxValue.str role =>
      if role = "" then forbidden "access denied"
      else RoleMiddleware.checkRoles r role allowedRoles
    | _ => forbidden "access denied"

/-! ## Sequences of operations -/

/-- A call of the service API that can write to the store. -/
inductive Op where
  | receipt (productID supplierID : String) (quantity price : ℚ) (expiry : Option Time)
  | writeOff (productID : String) (quantity : ℚ)
  | reserve (productID orderID : String) (quantity : ℚ)
  | createOrder (customer : String) (items : List OrderItem)
  | updateOrderStatus (id newStatus : String)

/-- The store after one call (whatever the call returned). -/
def step (env : Env) (w : World) : Op → World
  | Op.receipt p s q price expiry => (WarehouseService.Receipt env w p s q price expiry).2
  | Op.writeOff p q => (WarehouseService.WriteOff env w p q).2
  | Op.reserve p o q => (WarehouseService.Reserve env w p o q).2
  | Op.createOrder c items => (OrderService.CreateOrder env w c items).2
  | Op.updateOrderStatus id s => (OrderService.UpdateOrderStatus env w id s).2

/-- The store after a sequence of calls made one after the other. -/
def run (env : Env) (w : World) (ops : List Op) : World :=
  ops.foldl (step env) w

/-! ## Concrete environments and stores used in examples -/

/-- An environment that never faults: a clock starting at `1`, a formatter
that writes one `x` per clock unit.  Its store accepts every statement, also
one that breaks a foreign key: it is a store without `foreign_keys(ON)`. -/
def quietEnv : Env :=
  { clock := fun n => n + 1
    format := fun t => String.mk (List.replicate t (Char.ofNat 120))
    fault := fun _ => none }

/-- The environment `quietEnv` whose first repository call fails. -/
def faultyEnv : Env :=
  { quietEnv with fault := fun n => if n = 0 then some "context deadline exceeded" else none }

/-- The empty database. -/
def emptyWorld : World :=
  { products := [], orders := [], order_items := [], order_status_history := [],
    stock_movements := [], ticks := 0, calls := 0 }

/-- The product `P1`. -/
def productP1 : Product :=
  { ID := "P1", SKU := "sku-1", Name := "bolt", Description := "", CategoryID := "c-1",
    SupplierID := "", Unit := "pcs", CreatedAt := 1, UpdatedAt := 1 }

/-- A database holding the product `P1` and nothing else. -/
def worldP1 : World := { emptyWorld with products := [productP1] }

/-! ## The inventory formula of the specification -/

/-- The sum of the quantities of the movements of product `productID` whose
type is `ty`. -/
def sumQuantities (ledger : List StockMovement) (productID ty : String) : ℚ :=
  ((ledger.filter (fun m => decide (m.ProductID = productID) && decide (m.Type_ = ty))).map
    (fun m => m.Quantity)).sum

/-- The inventory as the specification words it:
`Σ(receipt.quantity) − Σ(write_off.quantity) − Σ(reserve.quantity)` over the
movements of the product. -/
def inventoryOf (ledger : List StockMovement) (productID : String) : ℚ :=
  sumQuantities ledger productID "receipt" - sumQuantities ledger productID "write_off"
    - sumQuantities ledger productID "reserve"

/-- The signed quantity of a movement, NULL read as zero. -/
def signedOrZero (m : StockMovement) : ℚ := (signedQuantity m).getD 0

/-- The movement as `AddMovement` stores it: id and creation time filled in. -/
def stamped (env : Env) (w : World) (m : StockMovement) : StockMovement :=
  let m1 : StockMovement :=
    if m.ID = "" then { m with ID := "w-" ++ env.format (env.clock w.ticks) } else m
  let now := env.clock (if m.ID = "" then w.ticks + 1 else w.ticks)
  if m1.CreatedAt = 0 then { m1 with CreatedAt := now } else m1

/-- A ledger with three products and the three movement types. -/
def sampleLedger : List StockMovement :=
  [ { ID := "w-1", Type_ := "receipt", ProductID := "P1", SupplierID := "S1", OrderID := "",
      Quantity := 100, Price := 2, ExpiryDate := none, CreatedAt := 1 },
    { ID := "w-2", Type_ := "receipt", ProductID := "P2", SupplierID := "S1", OrderID := "",
      Quantity := 7, Price := 2, ExpiryDate := none, CreatedAt := 2 },
    { ID := "w-3", Type_ := "write_off", ProductID := "P1", SupplierID := "", OrderID := "",
      Quantity := 40, Price := 0, ExpiryDate := none, CreatedAt := 3 },
    { ID := "w-4", Type_ := "reserve", ProductID := "P1", SupplierID := "", OrderID := "o-1",
      Quantity := 5 / 2, Price := 0, ExpiryDate := none, CreatedAt := 4 } ]

/-! ## Rows written by `OrderRepositorySQLite.Create` -/

/-- The order as `Create` leaves it when it arrives without an id: the id is
`o-` followed by the formatted first clock reading, the second reading is the
update time and, for a zero creation time, the creation time. -/
def createdOrder (env : Env) (w : World) (order : Order) : Order :=
  { order with
    ID := "o-" ++ env.format (env.clock w.ticks)
    CreatedAt := (if order.CreatedAt = 0 then env.clock (w.ticks + 1) else order.CreatedAt)
    UpdatedAt := env.clock (w.ticks + 1) }

/-- The row of table `orders` that `Create` inserts for an order. -/
def orderRowOf (o : Order) : OrderRow :=
  OrderRow.mk o.ID o.Customer o.Status o.CreatedAt o.UpdatedAt

/-- The rows of table `order_items` that `Create` inserts for an order. -/
def itemRowsOf (o : Order) : List OrderItemRow :=
  o.Items.map (fun it => OrderItemRow.mk o.ID it.ProductID it.Quantity it.Price)

/-- The rows of table `order_status_history` that `Create` inserts for an order. -/
def statusRowsOf (o : Order) : List StatusRow :=
  o.StatusHist.map (fun h => StatusRow.mk o.ID h.Status h.ChangedAt)

/-- The movement `m` is the reservation of the order item `it` for the order
`orderID`: type `reserve`, product and quantity of the item, tagged with the
order id. -/
def isReserveFor (orderID : String) (it : OrderItem) (m : StockMovement) : Prop :=
  m.Type_ = MovementReserve ∧ m.ProductID = it.ProductID ∧ m.Quantity = it.Quantity
    ∧ m.OrderID = orderID

/-- The sum of the quantities of the order items for product `productID`. -/
def orderedQuantity (items : List OrderItem) (productID : String) : ℚ :=
  ((items.filter (fun it => it.ProductID = productID)).map (fun it => it.Quantity)).sum

/-- The answer of `OrderRepositorySQLite.GetByID` when its store call is not
faulted: the first row of `orders` with the id, hydrated with its items and
history. -/
def lookupOrder (w : World) (id : String) : Option Order :=
  (w.orders.find? (fun r => r.id = id)).map (fun r =>
    OrderRepositorySQLite.loadItemsAndHistory w
      { ID := r.id, Customer := r.customer, Status := r.status, Items := [],
        CreatedAt := r.created_at, UpdatedAt := r.updated_at, StatusHist := [] })

/-- The order created by the sample request on `worldP1` under `quietEnv`. -/
def sampleOrder : Order :=
  { ID := "o-xx", Customer := "Acme", Status := "new", Items := [⟨"P1", 10, 5⟩],
    CreatedAt := 1, UpdatedAt := 3, StatusHist := [⟨"new", 1⟩] }

/-- The store after the sample request `CreateOrder("Acme", [{P1, 10, 5}])` on
`worldP1` under `quietEnv`. -/
def worldOrdered : World :=
  (OrderService.CreateOrder quietEnv worldP1 "Acme" [⟨"P1", 10, 5⟩]).2

/-- The order that `CreateOrder` builds and `Create` completes, when the
request passes validation: `NewOrder` at the first clock reading, then the id
and the update time from the next two readings. -/
def newOrderOf (env : Env) (w : World) (customer : String) (items : List OrderItem) : Order :=
  createdOrder env { w with ticks := w.ticks + 1 }
    (NewOrder (TrimSpace customer) items (env.clock w.ticks))

/-- The store once `CreateOrder` has looked up every item and `Create` has
committed the order, before the reservation loop. -/
def afterCreate (env : Env) (w : World) (customer : String) (items : List OrderItem) : World :=
  { w with
    ticks := w.ticks + 3
    calls := w.calls + items.length + 1
    orders := w.orders ++ [orderRowOf (newOrderOf env w customer items)]
    order_items := w.order_items ++ itemRowsOf (newOrderOf env w customer items)
    order_status_history := w.order_status_history
      ++ statusRowsOf (newOrderOf env w customer items) }

/-- The environment `quietEnv` whose repository call number `k` (from `0`) fails. -/
def faultAtEnv (k : Nat) : Env :=
  { quietEnv with fault := fun n => if n = k then some "context deadline exceeded" else none }

/-- The order that a successful `UpdateOrderStatus` returns for the loaded
order `order`: the new status, the new history entry at the first clock
reading, the update time at the second. -/
def updatedOrder (env : Env) (w : World) (order : Order) (newStatus : String) : Order :=
  { order with
    Status := newStatus
    UpdatedAt := env.clock (w.ticks + 1)
    StatusHist := order.StatusHist ++ [StatusEntry.mk newStatus (env.clock w.ticks)] }

/-- The store after a successful `UpdateOrderStatus` on the loaded order
`order`: the rows of `orders` with its id carry the new status and update
time, and one row is appended to `order_status_history`. -/
def afterUpdate (env : Env) (w : World) (order : Order) (newStatus : String) : World :=
  { w with
    ticks := w.ticks + 2
    calls := w.calls + 2
    orders := w.orders.map (fun r =>
      if r.id = order.ID then
        OrderRow.mk r.id order.Customer newStatus r.created_at (env.clock (w.ticks + 1))
      else r)
    order_status_history := w.order_status_history
      ++ [StatusRow.mk order.ID newStatus (env.clock w.ticks)] }

/-- The two stores hold the same rows in every table. -/
def sameTables (w w2 : World) : Prop :=
  w2.products = w.products ∧ w2.orders = w.orders ∧ w2.order_items = w.order_items
    ∧ w2.order_status_history = w.order_status_history
    ∧ w2.stock_movements = w.stock_movements

/-- An environment that never faults and whose clock runs backwards from `100`. -/
def backClockEnv : Env :=
  { clock := fun n => 100 - n, format := fun _ => "a", fault := fun _ => none }

/-- The store `worldOrdered` after `UpdateOrderStatus("o-xx", "completed")`
under `quietEnv`. -/
def worldCompleted : World :=
  (OrderService.UpdateOrderStatus quietEnv worldOrdered "o-xx" "completed").2

/-- The store after the sample request `CreateOrder("Acme", [{P1, 10, 5}])` on
`worldP1` under `backClockEnv`; the id of the order is `o-a`. -/
def worldBackClock : World :=
  (OrderService.CreateOrder backClockEnv worldP1 "Acme" [⟨"P1", 10, 5⟩]).2

/-- The operation is one of the warehouse facade: `Receipt`, `WriteOff` or
`Reserve`. -/
def Op.isFacade : Op → Bool
  | Op.receipt _ _ _ _ _ => true
  | Op.writeOff _ _ => true
  | Op.reserve _ _ _ => true
  | _ => false

/-- A sequence of `UpdateOrderStatus` calls with the same id, one per requested
status: the number of calls that returned an order, and the store at the end. -/
def updateAll (env : Env) (id : String) (w : World) : List String → Nat × World
  | [] => (0, w)
  | s :: rest =>
    ((match (OrderService.UpdateOrderStatus env w id s).1 with
        | Except.ok _ => 1
        | Except.error _ => 0)
      + (updateAll env id (OrderService.UpdateOrderStatus env w id s).2 rest).1,
     (updateAll env id (OrderService.UpdateOrderStatus env w id s).2 rest).2)

/-- A ledger holding a movement whose type is none of the three. -/
def oddLedger : List StockMovement :=
  [ { ID := "w-1", Type_ := "receipt", ProductID := "P1", SupplierID := "S1", OrderID := "",
      Quantity := 100, Price := 2, ExpiryDate := none, CreatedAt := 1 },
    { ID := "w-2", Type_ := "transfer", ProductID := "P2", SupplierID := "", OrderID := "",
      Quantity := 7, Price := 0, ExpiryDate := none, CreatedAt := 2 } ]

/-- The shape of the history of the order `oid` in the store `w` after `k`
successful updates, with entries not later than the next clock reading. -/
def historyShape (env : Env) (oid : String) (w : World) (k : Nat) : Prop :=
  ∃ o : Order, lookupOrder w oid = some o
    ∧ o.StatusHist.head?.map (fun h => h.Status) = some OrderStatusNew
    ∧ o.StatusHist.getLast?.map (fun h => h.Status) = some o.Status
    ∧ o.StatusHist.length = 1 + k
    ∧ ∀ h ∈ o.StatusHist, h.ChangedAt ≤ env.clock w.ticks

/-- The history of the order `oid` in the store `w` after `k` successful
updates, whatever the clock: its length, an entry `new` and an entry with the
current status. -/
def historyCount (oid : String) (w : World) (k : Nat) : Prop :=
  ∃ o : Order, lookupOrder w oid = some o
    ∧ o.StatusHist.length = 1 + k
    ∧ (∃ h ∈ o.StatusHist, h.Status = OrderStatusNew)
    ∧ ∃ h ∈ o.StatusHist, h.Status = o.Status

/-! ## The foreign keys of the schema -/

/-- The foreign keys of table `stock_movements` (`config/db.go`) on one row:
`product_id` references `products(id)`, `supplier_id` references
`suppliers(id)`, `order_id` references `orders(id)`.  `AddMovement` binds the
three ids as Go strings, so an empty id reaches the engine as the text `''`,
not as NULL, and needs a parent row as any other id does.  `suppliers` is the
list of the ids in table `suppliers`, which none of the operations modelled
here writes. -/
def movementKeysHold (suppliers : List String) (w : World) (m : StockMovement) : Bool :=
  w.products.any (fun p => decide (p.ID = m.ProductID))
    && (suppliers.any (fun s => decide (s = m.SupplierID))
      && w.orders.any (fun r => decide (r.id = m.OrderID)))

/-- The foreign keys of table `order_items` on one row: `order_id` references
`orders(id)`, `product_id` references `products(id)`. -/
def orderItemKeysHold (w : World) (r : OrderItemRow) : Bool :=
  w.orders.any (fun o => decide (o.id = r.order_id))
    && w.products.any (fun p => decide (p.ID = r.product_id))

/-- The store satisfies the foreign keys of the tables that the services
write: `stock_movements`, `order_items` and `order_status_history` (whose
`order_id` references `orders(id)`). -/
def foreignKeysHold (suppliers : List String) (w : World) : Bool :=
  w.stock_movements.all (movementKeysHold suppliers w)
    && (w.order_items.all (orderItemKeysHold w)
      && w.order_status_history.all (fun h => w.orders.any (fun o => decide (o.id = h.order_id))))

/-- The environment `quietEnv` whose repository calls with a number in `ks` are
refused by the engine with its foreign-key error. -/
def keyRefusingEnv (ks : List Nat) : Env :=
  { quietEnv with
    fault := fun n => if n ∈ ks then some "FOREIGN KEY constraint failed" else none }

/-- A store whose rows all have their parents: the product `P1`, the order
`o-1` with one item and its first history entry, and an empty ledger. -/
def worldKeyed : World :=
  { emptyWorld with
    products := [productP1]
    orders := [OrderRow.mk "o-1" "Acme" "new" 1 3]
    order_items := [OrderItemRow.mk "o-1" "P1" 10 5]
    order_status_history := [StatusRow.mk "o-1" "new" 1] }

/-- A movement of quantity `-5` whose product, supplier and order exist in
`worldKeyed` with the supplier `S1`. -/
def negativeMovement : StockMovement :=
  { ID := "", Type_ := "reserve", ProductID := "P1", SupplierID := "S1", OrderID := "o-1",
    Quantity := -5, Price := 0, ExpiryDate := none, CreatedAt := 0 }

/-! ## Lemmas on the stock query -/

theorem filterMap_id_sum (xs : List (Option ℚ)) :
    (xs.filterMap id).sum = (xs.map (fun x => x.getD 0)).sum := by
  induction xs with
  | nil => simp
  | cons x xs ih => cases x <;> simp [List.filterMap_cons, ih]

theorem sqlSum_getD (xs : List (Option ℚ)) :
    (sqlSum xs).getD 0 = (xs.map (fun x => x.getD 0)).sum := by
  rw [← filterMap_id_sum]
  unfold sqlSum
  cases h : xs.filterMap id <;> simp

theorem stockQuery_eq_sum (ledger : List StockMovement) (p : String) :
    stockQuery ledger p
      = ((ledger.filter (fun m => m.ProductID = p)).map signedOrZero).sum := by
  unfold stockQuery
  rw [sqlSum_getD, List.map_map]
  rfl

theorem stockQuery_nil (p : String) : stockQuery [] p = 0 := by
  simp [stockQuery_eq_sum]

theorem stockQuery_cons (m : StockMovement) (ledger : List StockMovement) (p : String) :
    stockQuery (m :: ledger) p
      = (if m.ProductID = p then signedOrZero m else 0) + stockQuery ledger p := by
  simp only [stockQuery_eq_sum, List.filter_cons]
  by_cases h : m.ProductID = p <;> simp [h]

theorem stockQuery_append (l1 l2 : List StockMovement) (p : String) :
    stockQuery (l1 ++ l2) p = stockQuery l1 p + stockQuery l2 p := by
  simp [stockQuery_eq_sum, List.filter_append]

theorem stockQuery_snoc (ledger : List StockMovement) (m : StockMovement) (p : String) :
    stockQuery (ledger ++ [m]) p
      = stockQuery ledger p + (if m.ProductID = p then signedOrZero m else 0) := by
  rw [stockQuery_append, stockQuery_cons, stockQuery_nil, add_zero]

theorem sumQuantities_cons (m : StockMovement) (ledger : List StockMovement) (p ty : String) :
    sumQuantities (m :: ledger) p ty
      = (if m.ProductID = p ∧ m.Type_ = ty then m.Quantity else 0)
        + sumQuantities ledger p ty := by
  unfold sumQuantities
  by_cases h1 : m.ProductID = p <;> by_cases h2 : m.Type_ = ty <;>
    simp [List.filter_cons, h1, h2]

theorem stockQuery_eq_inventoryOf (ledger : List StockMovement) (p : String) :
    stockQuery ledger p = inventoryOf ledger p := by
  induction ledger with
  | nil => simp [stockQuery_nil, inventoryOf, sumQuantities]
  | cons m l ih =>
    rw [stockQuery_cons, ih]
    unfold inventoryOf
    simp only [sumQuantities_cons]
    by_cases hp : m.ProductID = p
    · by_cases h1 : m.Type_ = "receipt"
      · simp [hp, h1, signedOrZero, signedQuantity]; ring
      · by_cases h2 : m.Type_ = "write_off"
        · simp [hp, h2, signedOrZero, signedQuantity]; ring
        · by_cases h3 : m.Type_ = "reserve"
          · simp [hp, h3, signedOrZero, signedQuantity]; ring
          · simp [hp, h1, h2, h3, signedOrZero, signedQuantity]
    · simp [hp]

/-! ## Lemmas on the repositories -/

theorem stamped_fields (env : Env) (w : World) (m : StockMovement) :
    (stamped env w m).Type_ = m.Type_ ∧ (stamped env w m).ProductID = m.ProductID
      ∧ (stamped env w m).SupplierID = m.SupplierID ∧ (stamped env w m).OrderID = m.OrderID
      ∧ (stamped env w m).Quantity = m.Quantity ∧ (stamped env w m).Price = m.Price
      ∧ (stamped env w m).ExpiryDate = m.ExpiryDate := by
  unfold stamped
  by_cases h1 : m.ID = "" <;> by_cases h2 : m.CreatedAt = 0 <;> simp [h1, h2]

theorem AddMovement_ok (env : Env) (w : World) (m : StockMovement)
    (h : env.fault w.calls = none) :
    (WarehouseRepositorySQLite.AddMovement env w m).1 = none
      ∧ (WarehouseRepositorySQLite.AddMovement env w m).2.stock_movements
          = w.stock_movements ++ [stamped env w m] := by
  unfold WarehouseRepositorySQLite.AddMovement stamped
  by_cases h1 : m.ID = "" <;> by_cases h2 : m.CreatedAt = 0 <;>
    simp [h1, h2, timeNow, storeCall, h]

theorem AddMovement_fault (env : Env) (w : World) (m : StockMovement) (e : String)
    (h : env.fault w.calls = some e) :
    (WarehouseRepositorySQLite.AddMovement env w m).1 = some (Error.backend e)
      ∧ (WarehouseRepositorySQLite.AddMovement env w m).2.stock_movements
          = w.stock_movements := by
  unfold WarehouseRepositorySQLite.AddMovement
  by_cases h1 : m.ID = "" <;> by_cases h2 : m.CreatedAt = 0 <;>
    simp [h1, h2, timeNow, storeCall, h]

theorem AddMovement_frame (env : Env) (w : World) (m : StockMovement) :
    (WarehouseRepositorySQLite.AddMovement env w m).2.products = w.products
      ∧ (WarehouseRepositorySQLite.AddMovement env w m).2.orders = w.orders
      ∧ (WarehouseRepositorySQLite.AddMovement env w m).2.order_items = w.order_items
      ∧ (WarehouseRepositorySQLite.AddMovement env w m).2.order_status_history
          = w.order_status_history
      ∧ (WarehouseRepositorySQLite.AddMovement env w m).2.calls = w.calls + 1 := by
  unfold WarehouseRepositorySQLite.AddMovement
  by_cases h1 : m.ID = "" <;> by_cases h2 : m.CreatedAt = 0 <;>
    cases h : env.fault w.calls <;> simp [h1, h2, timeNow, storeCall, h]

theorem timeNow_snd (env : Env) (w : World) :
    (timeNow env w).2.products = w.products ∧ (timeNow env w).2.orders = w.orders
      ∧ (timeNow env w).2.order_items = w.order_items
      ∧ (timeNow env w).2.order_status_history = w.order_status_history
      ∧ (timeNow env w).2.stock_movements = w.stock_movements
      ∧ (timeNow env w).2.calls = w.calls := by
  simp [timeNow]

theorem GetStockByProduct_ok (env : Env) (w : World) (p : String)
    (h : env.fault w.calls = none) :
    WarehouseRepositorySQLite.GetStockByProduct env w p
      = (Except.ok (stockQuery w.stock_movements p), { w with calls := w.calls + 1 }) := by
  simp [WarehouseRepositorySQLite.GetStockByProduct, storeCall, h]

theorem GetStockByProduct_fault (env : Env) (w : World) (p : String) (e : String)
    (h : env.fault w.calls = some e) :
    WarehouseRepositorySQLite.GetStockByProduct env w p
      = (Except.error (Error.backend e), { w with calls := w.calls + 1 }) := by
  simp [WarehouseRepositorySQLite.GetStockByProduct, storeCall, h]

theorem ProductGetByID_ok (env : Env) (w : World) (id : String)
    (h : env.fault w.calls = none) :
    ProductRepositorySQLite.GetByID env w id
      = (Except.ok (w.products.find? (fun p => p.ID = id)), { w with calls := w.calls + 1 }) := by
  simp [ProductRepositorySQLite.GetByID, storeCall, h]

theorem ProductGetByID_fault (env : Env) (w : World) (id : String) (e : String)
    (h : env.fault w.calls = some e) :
    ProductRepositorySQLite.GetByID env w id
      = (Except.error (Error.backend e), { w with calls := w.calls + 1 }) := by
  simp [ProductRepositorySQLite.GetByID, storeCall, h]

/-! ## The stock ledger: inventory query, write-off, reservation -/

/-- C1: when the store answers, `GetStockByProduct(p)` is the sum of the
quantities of the receipts of `p` minus that of its write-offs minus that of its
reservations, and a movement of another product, wherever it stands in the
ledger, does not change the result. -/
theorem C1_GetStockByProduct_formula (env : Env) (w : World) (p : String)
    (h : env.fault w.calls = none) :
    (WarehouseRepositorySQLite.GetStockByProduct env w p).1
        = Except.ok (inventoryOf w.stock_movements p)
      ∧ ∀ (l1 l2 : List StockMovement) (m : StockMovement), m.ProductID ≠ p →
          stockQuery (l1 ++ m :: l2) p = stockQuery (l1 ++ l2) p := by
  refine ⟨?_, ?_⟩
  · rw [GetStockByProduct_ok env w p h, stockQuery_eq_inventoryOf]
  · intro l1 l2 m hm
    rw [stockQuery_append, stockQuery_append, stockQuery_cons]
    simp [hm]

/-- C1 at a sample ledger: the stock of `P1` is `100 - 40 - 5/2`. -/
theorem C1_GetStockByProduct_formula_witness :
    quietEnv.fault ({ emptyWorld with stock_movements := sampleLedger }).calls = none
      ∧ (WarehouseRepositorySQLite.GetStockByProduct quietEnv
          { emptyWorld with stock_movements := sampleLedger } "P1").1
        = Except.ok (inventoryOf sampleLedger "P1")
      ∧ inventoryOf sampleLedger "P1" = 115 / 2 :=
  ⟨rfl, (C1_GetStockByProduct_formula quietEnv
    { emptyWorld with stock_movements := sampleLedger } "P1" rfl).1, by decide!⟩

/-- C2 as stated fails: with an empty product id, with a stock read that the
store fails, and with a non-positive quantity above a negative inventory,
`WriteOff` does not return `ErrInsufficientStock` although the quantity exceeds
the inventory. -/
theorem C2_WriteOff_not_always_insufficient :
    (stockQuery emptyWorld.stock_movements "" < 5
        ∧ (WarehouseService.WriteOff quietEnv emptyWorld "" 5).1
            = some Error.ErrInvalidOperation)
      ∧ (stockQuery emptyWorld.stock_movements "P1" < 5
        ∧ (WarehouseService.WriteOff faultyEnv emptyWorld "P1" 5).1
            = some (Error.backend "context deadline exceeded"))
      ∧ (stockQuery
            (OrderService.CreateOrder quietEnv worldP1 "Acme" [⟨"P1", 10, 5⟩]).2.stock_movements
            "P1" < -1
        ∧ (WarehouseService.WriteOff quietEnv
            (OrderService.CreateOrder quietEnv worldP1 "Acme" [⟨"P1", 10, 5⟩]).2 "P1" (-1)).1
            = some Error.ErrInvalidOperation) := by
  decide!

/-- C2, amended: whenever the quantity exceeds the inventory, `WriteOff` fails
and the ledger is left as it was; the error is `ErrInsufficientStock` when the
product id is non-empty, the quantity positive and the stock read succeeds. -/
theorem C2_WriteOff_insufficient (env : Env) (w : World) (p : String) (q : ℚ)
    (hq : inventoryOf w.stock_movements p < q) :
    (WarehouseService.WriteOff env w p q).1 ≠ none
      ∧ (WarehouseService.WriteOff env w p q).2.stock_movements = w.stock_movements
      ∧ (p ≠ "" → 0 < q → env.fault w.calls = none →
          (WarehouseService.WriteOff env w p q).1 = some Error.ErrInsufficientStock) := by
  rw [← stockQuery_eq_inventoryOf] at hq
  unfold WarehouseService.WriteOff
  by_cases hv : p = "" ∨ q ≤ 0
  · rw [if_pos hv]
    refine ⟨by simp, rfl, ?_⟩
    intro hp hq0
    rcases hv with hv | hv
    · exact absurd hv hp
    · exact absurd hq0 (not_lt.mpr hv)
  · rw [if_neg hv]
    cases hf : env.fault w.calls with
    | some e =>
      rw [GetStockByProduct_fault env w p e hf]
      simp
    | none =>
      rw [GetStockByProduct_ok env w p hf]
      simp [hq]

/-- C2, amended, at the scenario of the specification: after a receipt of 100
and a write-off of 40, a write-off of 100 fails with `ErrInsufficientStock`. -/
theorem C2_WriteOff_insufficient_witness :
    inventoryOf
        (run quietEnv worldP1 [Op.receipt "P1" "S1" 100 1 none, Op.writeOff "P1" 40]).stock_movements
        "P1" < 100
      ∧ (WarehouseService.WriteOff quietEnv
          (run quietEnv worldP1 [Op.receipt "P1" "S1" 100 1 none, Op.writeOff "P1" 40])
          "P1" 100).1 = some Error.ErrInsufficientStock :=
  ⟨by decide!,
    (C2_WriteOff_insufficient quietEnv
      (run quietEnv worldP1 [Op.receipt "P1" "S1" 100 1 none, Op.writeOff "P1" 40])
      "P1" 100 (by decide!)).2.2 (by decide) (by norm_num) rfl⟩

/-- C3 as stated fails: with an empty order id, with a stock read that the
store fails, and with a non-positive quantity above a negative inventory,
`Reserve` does not return `ErrInsufficientStock` although the quantity exceeds
the inventory. -/
theorem C3_Reserve_not_always_insufficient :
    (stockQuery emptyWorld.stock_movements "P1" < 5
        ∧ (WarehouseService.Reserve quietEnv emptyWorld "P1" "" 5).1
            = some Error.ErrInvalidOperation)
      ∧ (stockQuery emptyWorld.stock_movements "P1" < 5
        ∧ (WarehouseService.Reserve faultyEnv emptyWorld "P1" "o-1" 5).1
            = some (Error.backend "context deadline exceeded"))
      ∧ (stockQuery
            (OrderService.CreateOrder quietEnv worldP1 "Acme" [⟨"P1", 10, 5⟩]).2.stock_movements
            "P1" < -1
        ∧ (WarehouseService.Reserve quietEnv
            (OrderService.CreateOrder quietEnv worldP1 "Acme" [⟨"P1", 10, 5⟩]).2
            "P1" "o-1" (-1)).1
            = some Error.ErrInvalidOperation) := by
  decide!

/-- C3, amended: whenever the quantity exceeds the inventory, `Reserve` fails
and the ledger is left as it was; the error is `ErrInsufficientStock` when the
product id and the order id are non-empty, the quantity positive and the stock
read succeeds. -/
theorem C3_Reserve_insufficient (env : Env) (w : World) (p o : String) (q : ℚ)
    (hq : inventoryOf w.stock_movements p < q) :
    (WarehouseService.Reserve env w p o q).1 ≠ none
      ∧ (WarehouseService.Reserve env w p o q).2.stock_movements = w.stock_movements
      ∧ (p ≠ "" → o ≠ "" → 0 < q → env.fault w.calls = none →
          (WarehouseService.Reserve env w p o q).1 = some Error.ErrInsufficientStock) := by
  rw [← stockQuery_eq_inventoryOf] at hq
  unfold WarehouseService.Reserve
  by_cases hv : p = "" ∨ o = "" ∨ q ≤ 0
  · rw [if_pos hv]
    refine ⟨by simp, rfl, ?_⟩
    intro hp ho hq0
    rcases hv with hv | hv | hv
    · exact absurd hv hp
    · exact absurd hv ho
    · exact absurd hq0 (not_lt.mpr hv)
  · rw [if_neg hv]
    cases hf : env.fault w.calls with
    | some e =>
      rw [GetStockByProduct_fault env w p e hf]
      simp
    | none =>
      rw [GetStockByProduct_ok env w p hf]
      simp [hq]

/-- C3, amended, at a sample store: with 100 units received, a reservation of
150 for order `o-1` fails with `ErrInsufficientStock`. -/
theorem C3_Reserve_insufficient_witness :
    inventoryOf (run quietEnv worldP1 [Op.receipt "P1" "S1" 100 1 none]).stock_movements "P1"
        < 150
      ∧ (WarehouseService.Reserve quietEnv
          (run quietEnv worldP1 [Op.receipt "P1" "S1" 100 1 none]) "P1" "o-1" 150).1
          = some Error.ErrInsufficientStock :=
  ⟨by decide!,
    (C3_Reserve_insufficient quietEnv (run quietEnv worldP1 [Op.receipt "P1" "S1" 100 1 none])
      "P1" "o-1" 150 (by decide!)).2.2 (by decide) (by decide) (by norm_num) rfl⟩

/-! ## Successful write-off and receipt -/

theorem AddMovement_append (env : Env) (w : World) (m : StockMovement)
    (h : env.fault w.calls = none) :
    (WarehouseRepositorySQLite.AddMovement env w m).1 = none
      ∧ ∃ m2 : StockMovement,
          (WarehouseRepositorySQLite.AddMovement env w m).2.stock_movements
              = w.stock_movements ++ [m2]
            ∧ m2.Type_ = m.Type_ ∧ m2.ProductID = m.ProductID ∧ m2.SupplierID = m.SupplierID
            ∧ m2.OrderID = m.OrderID ∧ m2.Quantity = m.Quantity ∧ m2.Price = m.Price
            ∧ m2.ExpiryDate = m.ExpiryDate :=
  ⟨(AddMovement_ok env w m h).1, stamped env w m, (AddMovement_ok env w m h).2,
    stamped_fields env w m⟩

theorem WriteOff_run (env : Env) (w : World) (p : String) (q : ℚ) (hp : p ≠ "") (hq : 0 < q)
    (hs : q ≤ stockQuery w.stock_movements p) (hf : env.fault w.calls = none) :
    ∃ (w1 : World) (t : Time), w1.stock_movements = w.stock_movements
      ∧ w1.calls = w.calls + 1
      ∧ WarehouseService.WriteOff env w p q
        = WarehouseRepositorySQLite.AddMovement env w1
          { ID := "", Type_ := MovementWriteOff, ProductID := p, SupplierID := "", OrderID := "",
            Quantity := q, Price := 0, ExpiryDate := none, CreatedAt := t } := by
  refine ⟨(timeNow env { w with calls := w.calls + 1 }).2,
    (timeNow env { w with calls := w.calls + 1 }).1, rfl, rfl, ?_⟩
  unfold WarehouseService.WriteOff
  have hv : ¬ (p = "" ∨ q ≤ 0) := by
    rintro (h | h)
    · exact hp h
    · exact absurd hq (not_lt.mpr h)
  rw [if_neg hv, GetStockByProduct_ok env w p hf]
  simp only [not_lt.mpr hs, if_false]

/-- C5: for a non-empty product id, a positive quantity not above the
inventory (equality included) and a store that does not fail, `WriteOff`
succeeds and appends exactly one movement, of type `write_off`, product `p` and
quantity `q`; the inventory of `p` drops by `q` and that of every other
product is unchanged. -/
theorem C5_WriteOff_success (env : Env) (w : World) (p : String) (q : ℚ)
    (hp : p ≠ "") (hq : 0 < q) (hs : q ≤ inventoryOf w.stock_movements p)
    (hf : ∀ n, env.fault n = none) :
    (WarehouseService.WriteOff env w p q).1 = none
      ∧ (∃ m : StockMovement,
          (WarehouseService.WriteOff env w p q).2.stock_movements = w.stock_movements ++ [m]
            ∧ m.Type_ = MovementWriteOff ∧ m.ProductID = p ∧ m.Quantity = q)
      ∧ inventoryOf (WarehouseService.WriteOff env w p q).2.stock_movements p
          = inventoryOf w.stock_movements p - q
      ∧ ∀ p2 : String, p2 ≠ p →
          inventoryOf (WarehouseService.WriteOff env w p q).2.stock_movements p2
            = inventoryOf w.stock_movements p2 := by
  rw [← stockQuery_eq_inventoryOf] at hs
  obtain ⟨w1, t, hl, -, hrun⟩ := WriteOff_run env w p q hp hq hs (hf _)
  rw [hrun]
  obtain ⟨h1, m2, h2, f1, f2, -, -, f5, -, -⟩ := AddMovement_append env w1
    { ID := "", Type_ := MovementWriteOff, ProductID := p, SupplierID := "", OrderID := "",
      Quantity := q, Price := 0, ExpiryDate := none, CreatedAt := t } (hf _)
  rw [hl] at h2
  simp only at f1 f2 f5
  have hsig : signedOrZero m2 = -q := by
    simp [signedOrZero, signedQuantity, f1, f5, MovementWriteOff]
  refine ⟨h1, ⟨m2, h2, f1, f2, f5⟩, ?_, ?_⟩
  · rw [← stockQuery_eq_inventoryOf, ← stockQuery_eq_inventoryOf, h2, stockQuery_snoc, f2,
      if_pos rfl, hsig]
    ring
  · intro p2 hp2
    rw [← stockQuery_eq_inventoryOf, ← stockQuery_eq_inventoryOf, h2, stockQuery_snoc, f2,
      if_neg (Ne.symm hp2), add_zero]

/-- C5 at the boundary: with exactly 40 units in stock, a write-off of 40
succeeds. -/
theorem C5_WriteOff_success_witness :
    inventoryOf (run quietEnv worldP1 [Op.receipt "P1" "S1" 40 1 none]).stock_movements "P1" = 40
      ∧ (WarehouseService.WriteOff quietEnv
          (run quietEnv worldP1 [Op.receipt "P1" "S1" 40 1 none]) "P1" 40).1 = none
      ∧ inventoryOf (WarehouseService.WriteOff quietEnv
          (run quietEnv worldP1 [Op.receipt "P1" "S1" 40 1 none]) "P1" 40).2.stock_movements "P1"
          = 40 - 40 :=
  ⟨by decide!,
    (C5_WriteOff_success quietEnv (run quietEnv worldP1 [Op.receipt "P1" "S1" 40 1 none]) "P1" 40
      (by decide) (by norm_num) (by decide!) (fun _ => rfl)).1,
    by
      have h := (C5_WriteOff_success quietEnv
        (run quietEnv worldP1 [Op.receipt "P1" "S1" 40 1 none]) "P1" 40
        (by decide) (by norm_num) (by decide!) (fun _ => rfl)).2.2.1
      rw [h]
      decide!⟩

theorem Receipt_run (env : Env) (w : World) (p s : String) (q price : ℚ)
    (expiry : Option Time) (hp : p ≠ "") (hq : 0 < q) (hf : env.fault w.calls = none) :
    ∃ (w1 : World) (t : Time), w1.stock_movements = w.stock_movements
      ∧ w1.calls = w.calls + 1
      ∧ WarehouseService.Receipt env w p s q price expiry
        = WarehouseRepositorySQLite.AddMovement env w1
          { ID := "", Type_ := MovementReceipt, ProductID := p, SupplierID := s, OrderID := "",
            Quantity := q, Price := price, ExpiryDate := expiry, CreatedAt := t } := by
  refine ⟨(timeNow env { w with calls := w.calls + 1 }).2,
    (timeNow env { w with calls := w.calls + 1 }).1, rfl, rfl, ?_⟩
  unfold WarehouseService.Receipt
  have hv : ¬ (p = "" ∨ q ≤ 0) := by
    rintro (h | h)
    · exact hp h
    · exact absurd hq (not_lt.mpr h)
  rw [if_neg hv, ProductGetByID_ok env w p hf]

/-- C7: for a non-empty product id (in particular that of an existing
product), a positive quantity and a store that does not fail, `Receipt`
succeeds whatever the inventory is and appends exactly one movement, of type
`receipt`, carrying the product, supplier, quantity, price and expiry date; the
inventory of the product rises by the quantity. -/
theorem C7_Receipt_success (env : Env) (w : World) (p s : String) (q price : ℚ)
    (expiry : Option Time) (hp : p ≠ "") (hq : 0 < q) (hf : ∀ n, env.fault n = none) :
    (WarehouseService.Receipt env w p s q price expiry).1 = none
      ∧ (∃ m : StockMovement,
          (WarehouseService.Receipt env w p s q price expiry).2.stock_movements
              = w.stock_movements ++ [m]
            ∧ m.Type_ = MovementReceipt ∧ m.ProductID = p ∧ m.SupplierID = s ∧ m.Quantity = q
            ∧ m.Price = price ∧ m.ExpiryDate = expiry)
      ∧ inventoryOf (WarehouseService.Receipt env w p s q price expiry).2.stock_movements p
          = inventoryOf w.stock_movements p + q := by
  obtain ⟨w1, t, hl, -, hrun⟩ := Receipt_run env w p s q price expiry hp hq (hf _)
  rw [hrun]
  obtain ⟨h1, m2, h2, f1, f2, f3, -, f5, f6, f7⟩ := AddMovement_append env w1
    { ID := "", Type_ := MovementReceipt, ProductID := p, SupplierID := s, OrderID := "",
      Quantity := q, Price := price, ExpiryDate := expiry, CreatedAt := t } (hf _)
  rw [hl] at h2
  simp only at f1 f2 f3 f5 f6 f7
  have hsig : signedOrZero m2 = q := by
    simp [signedOrZero, signedQuantity, f1, f5, MovementReceipt]
  refine ⟨h1, ⟨m2, h2, f1, f2, f3, f5, f6, f7⟩, ?_⟩
  rw [← stockQuery_eq_inventoryOf, ← stockQuery_eq_inventoryOf, h2, stockQuery_snoc, f2,
    if_pos rfl, hsig]

/-- C7 at a sample store: a receipt of 100 units of the existing product `P1`
succeeds on an empty ledger and brings its inventory to `0 + 100`. -/
theorem C7_Receipt_success_witness :
    (∃ prod ∈ worldP1.products, prod.ID = "P1")
      ∧ (WarehouseService.Receipt quietEnv worldP1 "P1" "S1" 100 (3 / 2) (some 9)).1 = none
      ∧ inventoryOf
          (WarehouseService.Receipt quietEnv worldP1 "P1" "S1" 100 (3 / 2) (some 9)).2.stock_movements
          "P1" = inventoryOf worldP1.stock_movements "P1" + 100 :=
  ⟨⟨productP1, by decide, rfl⟩,
    (C7_Receipt_success quietEnv worldP1 "P1" "S1" 100 (3 / 2) (some 9)
      (by decide) (by norm_num) (fun _ => rfl)).1,
    (C7_Receipt_success quietEnv worldP1 "P1" "S1" 100 (3 / 2) (some 9)
      (by decide) (by norm_num) (fun _ => rfl)).2.2⟩

/-! ## Validation of the input -/

/-- C8: `Receipt` and `WriteOff` with an empty product id or a quantity that is
not positive, and `Reserve` with an empty product id, an empty order id or a
quantity that is not positive, return `ErrInvalidOperation` and leave the whole
store as it was, counters of store calls and clock readings included, whatever
the store holds and whatever the environment does. -/
theorem C8_invalid_input_rejected (env : Env) (w : World) (p s o : String) (q price : ℚ)
    (expiry : Option Time) :
    (p = "" ∨ q ≤ 0 →
        WarehouseService.Receipt env w p s q price expiry = (some Error.ErrInvalidOperation, w)
          ∧ WarehouseService.WriteOff env w p q = (some Error.ErrInvalidOperation, w))
      ∧ (p = "" ∨ o = "" ∨ q ≤ 0 →
        WarehouseService.Reserve env w p o q = (some Error.ErrInvalidOperation, w)) := by
  refine ⟨fun h => ⟨?_, ?_⟩, fun h => ?_⟩
  · unfold WarehouseService.Receipt
    rw [if_pos h]
  · unfold WarehouseService.WriteOff
    rw [if_pos h]
  · unfold WarehouseService.Reserve
    rw [if_pos h]

/-- C8 at sample calls: an empty product id, a zero quantity and an empty
order id are each rejected with the store untouched. -/
theorem C8_invalid_input_rejected_witness :
    WarehouseService.Receipt faultyEnv worldP1 "" "S1" 5 1 none
        = (some Error.ErrInvalidOperation, worldP1)
      ∧ WarehouseService.WriteOff faultyEnv worldP1 "" 5 = (some Error.ErrInvalidOperation, worldP1)
      ∧ WarehouseService.Reserve quietEnv worldP1 "P1" "" 5
        = (some Error.ErrInvalidOperation, worldP1) :=
  ⟨((C8_invalid_input_rejected faultyEnv worldP1 "" "S1" "o-1" 5 1 none).1 (Or.inl rfl)).1,
    ((C8_invalid_input_rejected faultyEnv worldP1 "" "S1" "o-1" 5 1 none).1 (Or.inl rfl)).2,
    (C8_invalid_input_rejected quietEnv worldP1 "P1" "S1" "" 5 1 none).2 (Or.inr (Or.inl rfl))⟩

/-! ## Order creation -/

theorem checkItems_frame (env : Env) (items : List OrderItem) (w : World) :
    (OrderService.CreateOrder.checkItems env w items).2.products = w.products
      ∧ (OrderService.CreateOrder.checkItems env w items).2.orders = w.orders
      ∧ (OrderService.CreateOrder.checkItems env w items).2.order_items = w.order_items
      ∧ (OrderService.CreateOrder.checkItems env w items).2.order_status_history
          = w.order_status_history
      ∧ (OrderService.CreateOrder.checkItems env w items).2.stock_movements
          = w.stock_movements := by
  induction items generalizing w with
  | nil => simp [OrderService.CreateOrder.checkItems]
  | cons it rest ih =>
    unfold OrderService.CreateOrder.checkItems
    by_cases hv : it.ProductID = "" ∨ it.Quantity ≤ 0
    · rw [if_pos hv]
      simp
    · rw [if_neg hv]
      cases hf : env.fault w.calls with
      | some e =>
        rw [ProductGetByID_fault env w it.ProductID e hf]
        simp
      | none =>
        rw [ProductGetByID_ok env w it.ProductID hf]
        exact ih _

theorem checkItems_invalid (env : Env) (items : List OrderItem) (w : World)
    (h : ∃ it ∈ items, it.Quantity ≤ 0) :
    (OrderService.CreateOrder.checkItems env w items).1 ≠ none
      ∧ ((∀ n, env.fault n = none) →
          (OrderService.CreateOrder.checkItems env w items).1 = some Error.ErrInvalidOrder) := by
  induction items generalizing w with
  | nil => simp at h
  | cons it rest ih =>
    unfold OrderService.CreateOrder.checkItems
    by_cases hv : it.ProductID = "" ∨ it.Quantity ≤ 0
    · rw [if_pos hv]
      simp
    · rw [if_neg hv]
      have hrest : ∃ it2 ∈ rest, it2.Quantity ≤ 0 := by
        obtain ⟨it2, hmem, hq⟩ := h
        rcases List.mem_cons.mp hmem with heq | hmem2
        · subst heq
          exact absurd (Or.inr hq) hv
        · exact ⟨it2, hmem2, hq⟩
      cases hf : env.fault w.calls with
      | some e =>
        rw [ProductGetByID_fault env w it.ProductID e hf]
        refine ⟨by simp, fun hall => ?_⟩
        rw [hall] at hf
        exact absurd hf (by simp)
      | none =>
        rw [ProductGetByID_ok env w it.ProductID hf]
        exact ih _ hrest

/-- C9 as stated fails: when the store fails the product lookup of a valid
first item, `CreateOrder` returns the error of the store and not
`ErrInvalidOrder`, although the second item has quantity `0`. -/
theorem C9_CreateOrder_store_error_first :
    (∃ it ∈ [(⟨"P1", 1, 1⟩ : OrderItem), ⟨"P2", 0, 1⟩], it.Quantity ≤ 0)
      ∧ (OrderService.CreateOrder faultyEnv worldP1 "Acme" [⟨"P1", 1, 1⟩, ⟨"P2", 0, 1⟩]).1
          = Except.error (Error.backend "context deadline exceeded")
      ∧ (OrderService.CreateOrder faultyEnv worldP1 "Acme" [⟨"P1", 1, 1⟩, ⟨"P2", 0, 1⟩]).1
          ≠ Except.error Error.ErrInvalidOrder :=
  ⟨⟨⟨"P2", 0, 1⟩, by simp, le_refl _⟩, by decide!, by decide!⟩

/-- C9, amended: `CreateOrder` with a blank customer, an empty item list, or an
item of quantity `<= 0` at any position fails and persists nothing (no order,
no item, no history entry, no movement); the error is `ErrInvalidOrder` for a
blank customer or an empty list, and for a non-positive quantity whenever no
product lookup fails in the store. -/
theorem C9_CreateOrder_invalid (env : Env) (w : World) (customer : String)
    (items : List OrderItem)
    (h : TrimSpace customer = "" ∨ items = [] ∨ ∃ it ∈ items, it.Quantity ≤ 0) :
    (∃ e, (OrderService.CreateOrder env w customer items).1 = Except.error e)
      ∧ (OrderService.CreateOrder env w customer items).2.orders = w.orders
      ∧ (OrderService.CreateOrder env w customer items).2.order_items = w.order_items
      ∧ (OrderService.CreateOrder env w customer items).2.order_status_history
          = w.order_status_history
      ∧ (OrderService.CreateOrder env w customer items).2.stock_movements = w.stock_movements
      ∧ ((TrimSpace customer = "" ∨ items = [] ∨ ∀ n, env.fault n = none) →
          (OrderService.CreateOrder env w customer items).1
            = Except.error Error.ErrInvalidOrder) := by
  unfold OrderService.CreateOrder
  by_cases hv : TrimSpace customer = "" ∨ items.length = 0
  · rw [if_pos hv]
    simp
  · rw [if_neg hv]
    have h3 : ∃ it ∈ items, it.Quantity ≤ 0 := by
      rcases h with h | h | h
      · exact absurd (Or.inl h) hv
      · exact absurd (Or.inr (by simp [h])) hv
      · exact h
    obtain ⟨hne, hinv⟩ := checkItems_invalid env items w h3
    obtain ⟨-, g2, g3, g4, g5⟩ := checkItems_frame env items w
    cases hc : OrderService.CreateOrder.checkItems env w items with
    | mk r w1 =>
      rw [hc] at hne hinv g2 g3 g4 g5
      cases r with
      | none => exact absurd rfl hne
      | some e =>
        refine ⟨⟨e, rfl⟩, g2, g3, g4, g5, ?_⟩
        intro hcase
        rcases hcase with h | h | h
        · exact absurd (Or.inl h) hv
        · exact absurd (Or.inr (by simp [h])) hv
        · have := hinv h
          simp only [Option.some.injEq] at this
          simp [this]

/-- C9, amended, at a sample request: a valid first item and a second item of
quantity `0`, on a store that does not fail, give `ErrInvalidOrder`. -/
theorem C9_CreateOrder_invalid_witness :
    (OrderService.CreateOrder quietEnv worldP1 "Acme" [⟨"P1", 1, 1⟩, ⟨"P2", 0, 1⟩]).1
        = Except.error Error.ErrInvalidOrder
      ∧ (OrderService.CreateOrder quietEnv worldP1 "Acme"
          [⟨"P1", 1, 1⟩, ⟨"P2", 0, 1⟩]).2.orders = worldP1.orders :=
  ⟨(C9_CreateOrder_invalid quietEnv worldP1 "Acme" [⟨"P1", 1, 1⟩, ⟨"P2", 0, 1⟩]
      (Or.inr (Or.inr ⟨⟨"P2", 0, 1⟩, by simp, le_refl _⟩))).2.2.2.2.2
      (Or.inr (Or.inr (fun _ => rfl))),
    (C9_CreateOrder_invalid quietEnv worldP1 "Acme" [⟨"P1", 1, 1⟩, ⟨"P2", 0, 1⟩]
      (Or.inr (Or.inr ⟨⟨"P2", 0, 1⟩, by simp, le_refl _⟩))).2.1⟩

/-! ## Lemmas on order creation -/

theorem checkItems_ticks (env : Env) (items : List OrderItem) (w : World) :
    (OrderService.CreateOrder.checkItems env w items).2.ticks = w.ticks := by
  induction items generalizing w with
  | nil => simp [OrderService.CreateOrder.checkItems]
  | cons it rest ih =>
    unfold OrderService.CreateOrder.checkItems
    by_cases hv : it.ProductID = "" ∨ it.Quantity ≤ 0
    · rw [if_pos hv]
    · rw [if_neg hv]
      cases hf : env.fault w.calls with
      | some e =>
        rw [ProductGetByID_fault env w it.ProductID e hf]
      | none =>
        rw [ProductGetByID_ok env w it.ProductID hf]
        exact ih _

theorem checkItems_ok (env : Env) (items : List OrderItem) (w : World)
    (hvalid : ∀ it ∈ items, it.ProductID ≠ "" ∧ 0 < it.Quantity)
    (hf : ∀ i, i < items.length → env.fault (w.calls + i) = none) :
    OrderService.CreateOrder.checkItems env w items
      = (none, { w with calls := w.calls + items.length }) := by
  induction items generalizing w with
  | nil => simp [OrderService.CreateOrder.checkItems]
  | cons it rest ih =>
    unfold OrderService.CreateOrder.checkItems
    have hv : ¬ (it.ProductID = "" ∨ it.Quantity ≤ 0) := by
      obtain ⟨h1, h2⟩ := hvalid it (List.mem_cons_self _ _)
      rintro (h | h)
      · exact h1 h
      · exact absurd h2 (not_lt.mpr h)
    have h0 : env.fault w.calls = none := by simpa using hf 0 (by simp)
    rw [if_neg hv, ProductGetByID_ok env w it.ProductID h0]
    simp only
    rw [ih { w with calls := w.calls + 1 }
      (fun it2 h2 => hvalid it2 (List.mem_cons_of_mem _ h2))
      (fun i hi => by
        have := hf (i + 1) (by simpa using hi)
        simpa [Nat.add_assoc, Nat.add_comm 1 i] using this)]
    simp [Nat.add_assoc, Nat.add_comm 1 rest.length]

/-- The order as `OrderRepositorySQLite.Create` leaves it behind the pointer:
id and creation time filled in when absent, update time set. -/
theorem Create_ok (env : Env) (w : World) (order : Order) (hid : order.ID = "")
    (hf : env.fault w.calls = none) :
    OrderRepositorySQLite.Create env w order
      = (none, createdOrder env w order,
          { w with
            ticks := w.ticks + 2
            calls := w.calls + 1
            orders := w.orders ++ [orderRowOf (createdOrder env w order)]
            order_items := w.order_items ++ itemRowsOf (createdOrder env w order)
            order_status_history := w.order_status_history
              ++ statusRowsOf (createdOrder env w order) }) := by
  unfold OrderRepositorySQLite.Create createdOrder orderRowOf itemRowsOf statusRowsOf
  simp [hid, timeNow, storeCall, hf]

theorem Create_fault (env : Env) (w : World) (order : Order) (hid : order.ID = "") (e : String)
    (hf : env.fault w.calls = some e) :
    OrderRepositorySQLite.Create env w order
      = (some (Error.backend e), createdOrder env w order,
          { w with ticks := w.ticks + 2, calls := w.calls + 1 }) := by
  unfold OrderRepositorySQLite.Create createdOrder
  simp [hid, timeNow, storeCall, hf]

theorem reserveItems_frame (env : Env) (oid : String) (items : List OrderItem) (w : World) :
    (OrderService.CreateOrder.reserveItems env oid w items).2.products = w.products
      ∧ (OrderService.CreateOrder.reserveItems env oid w items).2.orders = w.orders
      ∧ (OrderService.CreateOrder.reserveItems env oid w items).2.order_items = w.order_items
      ∧ (OrderService.CreateOrder.reserveItems env oid w items).2.order_status_history
          = w.order_status_history := by
  induction items generalizing w with
  | nil => simp [OrderService.CreateOrder.reserveItems]
  | cons it rest ih =>
    unfold OrderService.CreateOrder.reserveItems
    obtain ⟨f1, f2, f3, f4, -⟩ := AddMovement_frame env (timeNow env w).2
      { ID := "", Type_ := MovementReserve, ProductID := it.ProductID, SupplierID := "",
        OrderID := oid, Quantity := it.Quantity, Price := 0, ExpiryDate := none,
        CreatedAt := (timeNow env w).1 }
    rcases hadd : WarehouseRepositorySQLite.AddMovement env (timeNow env w).2
      { ID := "", Type_ := MovementReserve, ProductID := it.ProductID, SupplierID := "",
        OrderID := oid, Quantity := it.Quantity, Price := 0, ExpiryDate := none,
        CreatedAt := (timeNow env w).1 } with ⟨r, w1⟩
    rw [hadd] at f1 f2 f3 f4
    simp only at f1 f2 f3 f4
    cases r with
    | some e => exact ⟨f1, f2, f3, f4⟩
    | none =>
      obtain ⟨g1, g2, g3, g4⟩ := ih w1
      exact ⟨g1.trans f1, g2.trans f2, g3.trans f3, g4.trans f4⟩

/-- What one round of the reservation loop does, by the fault of its store call. -/
theorem reserveItems_step (env : Env) (oid : String) (it : OrderItem) (w : World) :
    (∀ e, env.fault w.calls = some e →
        ∃ w1, WarehouseRepositorySQLite.AddMovement env (timeNow env w).2
            { ID := "", Type_ := MovementReserve, ProductID := it.ProductID, SupplierID := "",
              OrderID := oid, Quantity := it.Quantity, Price := 0, ExpiryDate := none,
              CreatedAt := (timeNow env w).1 } = (some (Error.backend e), w1)
          ∧ w1.stock_movements = w.stock_movements ∧ w1.calls = w.calls + 1)
      ∧ (env.fault w.calls = none →
        ∃ w1 m, WarehouseRepositorySQLite.AddMovement env (timeNow env w).2
            { ID := "", Type_ := MovementReserve, ProductID := it.ProductID, SupplierID := "",
              OrderID := oid, Quantity := it.Quantity, Price := 0, ExpiryDate := none,
              CreatedAt := (timeNow env w).1 } = (none, w1)
          ∧ w1.stock_movements = w.stock_movements ++ [m] ∧ isReserveFor oid it m
          ∧ w1.calls = w.calls + 1) := by
  obtain ⟨-, -, -, -, fc⟩ := AddMovement_frame env (timeNow env w).2
    { ID := "", Type_ := MovementReserve, ProductID := it.ProductID, SupplierID := "",
      OrderID := oid, Quantity := it.Quantity, Price := 0, ExpiryDate := none,
      CreatedAt := (timeNow env w).1 }
  refine ⟨fun e he => ?_, fun he => ?_⟩
  · obtain ⟨h1, h2⟩ := AddMovement_fault env (timeNow env w).2
      { ID := "", Type_ := MovementReserve, ProductID := it.ProductID, SupplierID := "",
        OrderID := oid, Quantity := it.Quantity, Price := 0, ExpiryDate := none,
        CreatedAt := (timeNow env w).1 } e he
    exact ⟨_, Prod.ext h1 rfl, h2, fc⟩
  · obtain ⟨h1, m, h2, f1, f2, -, f4, f5, -, -⟩ := AddMovement_append env (timeNow env w).2
      { ID := "", Type_ := MovementReserve, ProductID := it.ProductID, SupplierID := "",
        OrderID := oid, Quantity := it.Quantity, Price := 0, ExpiryDate := none,
        CreatedAt := (timeNow env w).1 } he
    exact ⟨_, m, Prod.ext h1 rfl, h2, ⟨f1, f2, f5, f4⟩, fc⟩

theorem reserveItems_none (env : Env) (oid : String) (items : List OrderItem) (w : World)
    (h : (OrderService.CreateOrder.reserveItems env oid w items).1 = none) :
    ∃ ms, (OrderService.CreateOrder.reserveItems env oid w items).2.stock_movements
        = w.stock_movements ++ ms
      ∧ List.Forall₂ (isReserveFor oid) items ms := by
  induction items generalizing w with
  | nil => exact ⟨[], by simp [OrderService.CreateOrder.reserveItems], List.Forall₂.nil⟩
  | cons it rest ih =>
    unfold OrderService.CreateOrder.reserveItems at h ⊢
    obtain ⟨hfault, hok⟩ := reserveItems_step env oid it w
    cases hf : env.fault w.calls with
    | some e =>
      obtain ⟨w1, hadd, -, -⟩ := hfault e hf
      rw [hadd] at h
      simp at h
    | none =>
      obtain ⟨w1, m, hadd, hl, hm, -⟩ := hok hf
      rw [hadd] at h ⊢
      simp only at h ⊢
      obtain ⟨ms, hms, hall⟩ := ih w1 h
      exact ⟨m :: ms, by rw [hms, hl]; simp, List.Forall₂.cons hm hall⟩

theorem reserveItems_ok (env : Env) (oid : String) (items : List OrderItem) (w : World)
    (hf : ∀ i, i < items.length → env.fault (w.calls + i) = none) :
    (OrderService.CreateOrder.reserveItems env oid w items).1 = none
      ∧ (OrderService.CreateOrder.reserveItems env oid w items).2.calls
          = w.calls + items.length := by
  induction items generalizing w with
  | nil => simp [OrderService.CreateOrder.reserveItems]
  | cons it rest ih =>
    unfold OrderService.CreateOrder.reserveItems
    have h0 : env.fault w.calls = none := by simpa using hf 0 (by simp)
    obtain ⟨w1, m, hadd, -, -, hc⟩ := (reserveItems_step env oid it w).2 h0
    rw [hadd]
    simp only
    obtain ⟨g1, g2⟩ := ih w1 (fun i hi => by
      have := hf (i + 1) (by simpa using hi)
      rw [hc]
      simpa [Nat.add_assoc, Nat.add_comm 1 i] using this)
    refine ⟨g1, ?_⟩
    rw [g2, hc]
    simp [Nat.add_assoc, Nat.add_comm 1 rest.length]

theorem reserveItems_fault_at (env : Env) (oid : String) (items : List OrderItem) (w : World)
    (k : Nat) (e : String) (hk : k < items.length)
    (hbefore : ∀ j, j < k → env.fault (w.calls + j) = none)
    (hat : env.fault (w.calls + k) = some e) :
    (OrderService.CreateOrder.reserveItems env oid w items).1 = some (Error.backend e)
      ∧ (OrderService.CreateOrder.reserveItems env oid w items).2.calls = w.calls + k + 1
      ∧ ∃ ms, (OrderService.CreateOrder.reserveItems env oid w items).2.stock_movements
          = w.stock_movements ++ ms
        ∧ List.Forall₂ (isReserveFor oid) (items.take k) ms := by
  induction items generalizing w k with
  | nil => simp at hk
  | cons it rest ih =>
    unfold OrderService.CreateOrder.reserveItems
    cases k with
    | zero =>
      obtain ⟨w1, hadd, hl, hc⟩ := (reserveItems_step env oid it w).1 e (by simpa using hat)
      rw [hadd]
      exact ⟨rfl, by simpa using hc, [], by simpa using hl, by simp⟩
    | succ k =>
      have h0 : env.fault w.calls = none := by simpa using hbefore 0 (by simp)
      obtain ⟨w1, m, hadd, hl, hm, hc⟩ := (reserveItems_step env oid it w).2 h0
      rw [hadd]
      simp only
      obtain ⟨g1, g2, ms, g3, g4⟩ := ih w1 k (by simpa using hk)
        (fun j hj => by
          have := hbefore (j + 1) (by omega)
          rw [hc]
          simpa [Nat.add_assoc, Nat.add_comm 1 j] using this)
        (by
          rw [hc]
          simpa [Nat.add_assoc, Nat.add_comm 1 k] using hat)
      refine ⟨g1, by rw [g2, hc]; omega, m :: ms, by rw [g3, hl]; simp, ?_⟩
      simpa using List.Forall₂.cons hm g4

theorem stockQuery_reserved (oid : String) (items : List OrderItem) (ms : List StockMovement)
    (h : List.Forall₂ (isReserveFor oid) items ms) (p : String) :
    stockQuery ms p = - orderedQuantity items p := by
  induction h with
  | nil => simp [stockQuery_nil, orderedQuantity]
  | @cons it m its ms2 hm _ ih =>
    obtain ⟨h1, h2, h3, -⟩ := hm
    rw [stockQuery_cons, ih]
    unfold orderedQuantity
    by_cases hp : it.ProductID = p
    · have hp2 : m.ProductID = p := h2.trans hp
      simp [List.filter_cons, hp, hp2, signedOrZero, signedQuantity, h1, h3, MovementReserve]
      ring
    · have hp2 : ¬ m.ProductID = p := fun hc => hp (h2.symm.trans hc)
      simp [List.filter_cons, hp, hp2]

theorem CreateOrder_ok_inv (env : Env) (w : World) (c : String) (items : List OrderItem)
    (order : Order) (h : (OrderService.CreateOrder env w c items).1 = Except.ok order) :
    ∃ w1 w2, ¬ (TrimSpace c = "" ∨ items.length = 0)
      ∧ OrderService.CreateOrder.checkItems env w items = (none, w1)
      ∧ OrderRepositorySQLite.Create env (timeNow env w1).2
          (NewOrder (TrimSpace c) items (timeNow env w1).1) = (none, order, w2)
      ∧ (OrderService.CreateOrder.reserveItems env order.ID w2 order.Items).1 = none
      ∧ (OrderService.CreateOrder env w c items).2
          = (OrderService.CreateOrder.reserveItems env order.ID w2 order.Items).2 := by
  unfold OrderService.CreateOrder at h ⊢
  by_cases hv : TrimSpace c = "" ∨ items.length = 0
  · rw [if_pos hv] at h
    simp at h
  · rw [if_neg hv] at h ⊢
    rcases hc : OrderService.CreateOrder.checkItems env w items with ⟨r, w1⟩
    rw [hc] at h
    cases r with
    | some e => simp at h
    | none =>
      simp only at h ⊢
      rcases hcr : OrderRepositorySQLite.Create env (timeNow env w1).2
        (NewOrder (TrimSpace c) items (timeNow env w1).1) with ⟨r2, o, w2⟩
      rw [hcr] at h
      cases r2 with
      | some e => simp at h
      | none =>
        simp only at h ⊢
        rcases hr : OrderService.CreateOrder.reserveItems env o.ID w2 o.Items with ⟨r3, w3⟩
        rw [hr] at h
        cases r3 with
        | some e => simp at h
        | none =>
          simp only [Except.ok.injEq] at h
          subst h
          exact ⟨w1, w2, hv, rfl, hcr, by first | rfl | rw [hr], by first | rfl | rw [hr]⟩

theorem GetByID_ok (env : Env) (w : World) (id : String) (hf : env.fault w.calls = none) :
    OrderRepositorySQLite.GetByID env w id
      = (Except.ok (lookupOrder w id), { w with calls := w.calls + 1 }) := by
  unfold OrderRepositorySQLite.GetByID lookupOrder
  simp only [storeCall, hf]
  cases w.orders.find? (fun r => r.id = id) <;> rfl

theorem GetByID_fault (env : Env) (w : World) (id : String) (e : String)
    (hf : env.fault w.calls = some e) :
    OrderRepositorySQLite.GetByID env w id
      = (Except.error (Error.backend e), { w with calls := w.calls + 1 }) := by
  unfold OrderRepositorySQLite.GetByID
  simp only [storeCall, hf]

theorem Create_inv (env : Env) (w : World) (o order : Order) (w2 : World) (hid : o.ID = "")
    (h : OrderRepositorySQLite.Create env w o = (none, order, w2)) :
    order = createdOrder env w o
      ∧ w2.products = w.products
      ∧ w2.orders = w.orders ++ [orderRowOf order]
      ∧ w2.order_items = w.order_items ++ itemRowsOf order
      ∧ w2.order_status_history = w.order_status_history ++ statusRowsOf order
      ∧ w2.stock_movements = w.stock_movements := by
  cases hf : env.fault w.calls with
  | some e =>
    rw [Create_fault env w o hid e hf] at h
    simp at h
  | none =>
    rw [Create_ok env w o hid hf] at h
    simp only [Prod.mk.injEq, true_and] at h
    obtain ⟨h1, h2⟩ := h
    subst h1
    subst h2
    exact ⟨rfl, rfl, rfl, rfl, rfl, rfl⟩

/-- The facts about a successful `CreateOrder`: the returned order and the
tables of the resulting store. -/
theorem CreateOrder_ok_facts (env : Env) (w : World) (c : String) (items : List OrderItem)
    (order : Order) (h : (OrderService.CreateOrder env w c items).1 = Except.ok order) :
    order = createdOrder env { w with ticks := w.ticks + 1 }
        (NewOrder (TrimSpace c) items (env.clock w.ticks))
      ∧ (OrderService.CreateOrder env w c items).2.products = w.products
      ∧ (OrderService.CreateOrder env w c items).2.orders = w.orders ++ [orderRowOf order]
      ∧ (OrderService.CreateOrder env w c items).2.order_items
          = w.order_items ++ itemRowsOf order
      ∧ (OrderService.CreateOrder env w c items).2.order_status_history
          = w.order_status_history ++ statusRowsOf order
      ∧ ∃ ms, (OrderService.CreateOrder env w c items).2.stock_movements
          = w.stock_movements ++ ms
        ∧ List.Forall₂ (isReserveFor order.ID) items ms := by
  obtain ⟨w1, w2, -, hc, hcr, hres, hw⟩ := CreateOrder_ok_inv env w c items order h
  obtain ⟨c1, c2, c3, c4, c5⟩ := checkItems_frame env items w
  have ct := checkItems_ticks env items w
  rw [hc] at c1 c2 c3 c4 c5 ct
  simp only at c1 c2 c3 c4 c5 ct
  obtain ⟨e1, e2, e3, e4, e5, e6⟩ := Create_inv env (timeNow env w1).2
    (NewOrder (TrimSpace c) items (timeNow env w1).1) order w2 rfl hcr
  obtain ⟨r1, r2, r3, r4⟩ := reserveItems_frame env order.ID order.Items w2
  obtain ⟨ms, hms, hall⟩ := reserveItems_none env order.ID order.Items w2 hres
  have hitems : order.Items = items := by
    rw [e1]
    rfl
  rw [hw]
  refine ⟨?_, ?_, ?_, ?_, ?_, ms, ?_, ?_⟩
  · rw [e1]
    simp only [timeNow, ct, createdOrder]
  · rw [r1, e2]
    exact c1
  · rw [r2, e3]
    simp only [timeNow, c2]
  · rw [r3, e4]
    simp only [timeNow, c3]
  · rw [r4, e5]
    simp only [timeNow, c4]
  · rw [hms, e6]
    simp only [timeNow, c5]
  · rw [← hitems]
    exact hall

theorem filter_itemRowsOf (o : Order) :
    ((itemRowsOf o).filter (fun r => r.order_id = o.ID)).map
        (fun r => OrderItem.mk r.product_id r.quantity r.price) = o.Items := by
  unfold itemRowsOf
  induction o.Items with
  | nil => rfl
  | cons it rest ih => simp [List.filter_cons, ih]

theorem filter_statusRowsOf (o : Order) :
    ((statusRowsOf o).filter (fun r => r.order_id = o.ID)).map
        (fun r => StatusEntry.mk r.status r.changed_at) = o.StatusHist := by
  unfold statusRowsOf
  induction o.StatusHist with
  | nil => rfl
  | cons it rest ih => simp [List.filter_cons, ih]

/-! ## The created order -/

/-- C11: for every successful `CreateOrder`, with a clock that never reads the
zero instant and an order id not yet used in the store (the primary key), the
returned order has status `new`, the input items in their order and a history
of exactly one entry, `new` at the creation time of the order; the order read
back from the store by its id is the returned order. -/
theorem C11_CreateOrder_initial_order (env : Env) (w : World) (c : String)
    (items : List OrderItem) (order : Order)
    (hclock : ∀ n, env.clock n ≠ 0)
    (hok : (OrderService.CreateOrder env w c items).1 = Except.ok order)
    (hfresh1 : ∀ r ∈ w.orders, r.id ≠ order.ID)
    (hfresh2 : ∀ r ∈ w.order_items, r.order_id ≠ order.ID)
    (hfresh3 : ∀ r ∈ w.order_status_history, r.order_id ≠ order.ID)
    (hread : env.fault (OrderService.CreateOrder env w c items).2.calls = none) :
    order.Status = OrderStatusNew
      ∧ order.Items = items
      ∧ order.StatusHist = [StatusEntry.mk OrderStatusNew order.CreatedAt]
      ∧ (OrderRepositorySQLite.GetByID env (OrderService.CreateOrder env w c items).2
          order.ID).1 = Except.ok (some order) := by
  obtain ⟨e1, -, e3, e4, e5, -⟩ := CreateOrder_ok_facts env w c items order hok
  have hst : order.Status = OrderStatusNew := by rw [e1]; rfl
  have hit : order.Items = items := by rw [e1]; rfl
  have hcr : order.CreatedAt = env.clock w.ticks := by
    rw [e1]
    simp [createdOrder, NewOrder, hclock]
  have hh : order.StatusHist = [StatusEntry.mk OrderStatusNew order.CreatedAt] := by
    rw [hcr, e1]
    rfl
  refine ⟨hst, hit, hh, ?_⟩
  rw [GetByID_ok env _ order.ID hread]
  simp only
  congr 1
  unfold lookupOrder
  have hfind : (OrderService.CreateOrder env w c items).2.orders.find?
      (fun r => r.id = order.ID) = some (orderRowOf order) := by
    rw [e3, List.find?_append]
    have hnone : w.orders.find? (fun r => r.id = order.ID) = none := by
      rw [List.find?_eq_none]
      intro r hr
      simpa using hfresh1 r hr
    rw [hnone]
    simp [orderRowOf]
  rw [hfind]
  simp only [Option.map_some', OrderRepositorySQLite.loadItemsAndHistory, orderRowOf]
  have hitems : ((OrderService.CreateOrder env w c items).2.order_items.filter
      (fun r => r.order_id = order.ID)).map
        (fun r => OrderItem.mk r.product_id r.quantity r.price) = order.Items := by
    rw [e4, List.filter_append]
    have hnil : w.order_items.filter (fun r => r.order_id = order.ID) = [] := by
      rw [List.filter_eq_nil_iff]
      intro r hr
      simpa using hfresh2 r hr
    rw [hnil, List.nil_append]
    exact filter_itemRowsOf order
  have hhist : ((OrderService.CreateOrder env w c items).2.order_status_history.filter
      (fun r => r.order_id = order.ID)).map
        (fun r => StatusEntry.mk r.status r.changed_at) = order.StatusHist := by
    rw [e5, List.filter_append]
    have hnil : w.order_status_history.filter (fun r => r.order_id = order.ID) = [] := by
      rw [List.filter_eq_nil_iff]
      intro r hr
      simpa using hfresh3 r hr
    rw [hnil, List.nil_append]
    exact filter_statusRowsOf order
  rw [hitems, hhist, hh]
  simp only [List.insertionSort, List.orderedInsert]
  rw [← hh]

/-- C11 at the sample request: the order created for `Acme` on a store with no
order is read back from the store as it was returned. -/
theorem C11_CreateOrder_initial_order_witness :
    (OrderService.CreateOrder quietEnv worldP1 "Acme" [⟨"P1", 10, 5⟩]).1 = Except.ok sampleOrder
      ∧ sampleOrder.StatusHist = [StatusEntry.mk OrderStatusNew sampleOrder.CreatedAt]
      ∧ (OrderRepositorySQLite.GetByID quietEnv
          (OrderService.CreateOrder quietEnv worldP1 "Acme" [⟨"P1", 10, 5⟩]).2
          sampleOrder.ID).1 = Except.ok (some sampleOrder) :=
  ⟨by decide!,
    (C11_CreateOrder_initial_order quietEnv worldP1 "Acme" [⟨"P1", 10, 5⟩] sampleOrder
      (fun n => Nat.succ_ne_zero n) (by decide!) (fun r hr => by cases hr)
      (fun r hr => by cases hr) (fun r hr => by cases hr) rfl).2.2.1,
    (C11_CreateOrder_initial_order quietEnv worldP1 "Acme" [⟨"P1", 10, 5⟩] sampleOrder
      (fun n => Nat.succ_ne_zero n) (by decide!) (fun r hr => by cases hr)
      (fun r hr => by cases hr) (fun r hr => by cases hr) rfl).2.2.2⟩

/-- C12: for every successful `CreateOrder`, the ledger is the old ledger
followed by one movement per order item, in item order, each of type `reserve`
with the product id and quantity of its item and the id of the new order; for
every product the inventory drops by the sum of the quantities of the items of
that product. -/
theorem C12_CreateOrder_reserves_each_item (env : Env) (w : World) (c : String)
    (items : List OrderItem) (order : Order)
    (hok : (OrderService.CreateOrder env w c items).1 = Except.ok order) :
    ∃ ms : List StockMovement,
      (OrderService.CreateOrder env w c items).2.stock_movements = w.stock_movements ++ ms
        ∧ ms.length = items.length
        ∧ List.Forall₂ (isReserveFor order.ID) items ms
        ∧ ∀ p : String,
            inventoryOf (OrderService.CreateOrder env w c items).2.stock_movements p
              = inventoryOf w.stock_movements p - orderedQuantity items p := by
  obtain ⟨-, -, -, -, -, ms, hms, hall⟩ := CreateOrder_ok_facts env w c items order hok
  refine ⟨ms, hms, hall.length_eq.symm, hall, fun p => ?_⟩
  rw [← stockQuery_eq_inventoryOf, ← stockQuery_eq_inventoryOf, hms, stockQuery_append,
    stockQuery_reserved order.ID items ms hall p]
  ring

/-- C12 at the scenario of the specification: the order of 10 units of `P1`
lowers the inventory of `P1` by 10 through one movement tagged `o-xx`. -/
theorem C12_CreateOrder_reserves_each_item_witness :
    ∃ ms : List StockMovement,
      (OrderService.CreateOrder quietEnv worldP1 "Acme" [⟨"P1", 10, 5⟩]).2.stock_movements
          = worldP1.stock_movements ++ ms
        ∧ ms.length = 1
        ∧ List.Forall₂ (isReserveFor "o-xx") [(⟨"P1", 10, 5⟩ : OrderItem)] ms
        ∧ ∀ p : String,
            inventoryOf
                (OrderService.CreateOrder quietEnv worldP1 "Acme"
                  [⟨"P1", 10, 5⟩]).2.stock_movements p
              = inventoryOf worldP1.stock_movements p
                - orderedQuantity [(⟨"P1", 10, 5⟩ : OrderItem)] p :=
  C12_CreateOrder_reserves_each_item quietEnv worldP1 "Acme" [⟨"P1", 10, 5⟩] sampleOrder
    (by decide!)

/-- C13: when the store fails the second reservation of a two-item order,
`CreateOrder` returns the error, yet the order, its items and its history entry
stay in the order tables and the first reservation stays in the ledger: the
order is committed by `Create` on its own and nothing undoes it. -/
theorem C13_CreateOrder_not_atomic :
    (OrderService.CreateOrder (faultAtEnv 4) worldP1 "Acme" [⟨"P1", 1, 1⟩, ⟨"P1", 2, 1⟩]).1
        = Except.error (Error.backend "context deadline exceeded")
      ∧ worldP1.orders = [] ∧ worldP1.stock_movements = []
      ∧ (OrderService.CreateOrder (faultAtEnv 4) worldP1 "Acme"
          [⟨"P1", 1, 1⟩, ⟨"P1", 2, 1⟩]).2.orders = [⟨"o-xx", "Acme", "new", 1, 3⟩]
      ∧ (OrderService.CreateOrder (faultAtEnv 4) worldP1 "Acme"
          [⟨"P1", 1, 1⟩, ⟨"P1", 2, 1⟩]).2.order_items
          = [⟨"o-xx", "P1", 1, 1⟩, ⟨"o-xx", "P1", 2, 1⟩]
      ∧ (OrderService.CreateOrder (faultAtEnv 4) worldP1 "Acme"
          [⟨"P1", 1, 1⟩, ⟨"P1", 2, 1⟩]).2.stock_movements
          = [{ ID := "w-xxxxx", Type_ := "reserve", ProductID := "P1", SupplierID := "",
               OrderID := "o-xx", Quantity := 1, Price := 0, ExpiryDate := none,
               CreatedAt := 4 }] := by
  decide!

theorem CreateOrder_run (env : Env) (w : World) (c : String) (items : List OrderItem)
    (hc : TrimSpace c ≠ "") (hne : items ≠ [])
    (hvalid : ∀ it ∈ items, it.ProductID ≠ "" ∧ 0 < it.Quantity)
    (hlook : ∀ i, i < items.length → env.fault (w.calls + i) = none)
    (hcreate : env.fault (w.calls + items.length) = none) :
    OrderService.CreateOrder env w c items
      = (match OrderService.CreateOrder.reserveItems env (newOrderOf env w c items).ID
            (afterCreate env w c items) items with
         | (some err, w3) => (Except.error err, w3)
         | (none, w3) => (Except.ok (newOrderOf env w c items), w3)) := by
  unfold OrderService.CreateOrder
  have hv : ¬ (TrimSpace c = "" ∨ items.length = 0) := by
    rintro (h | h)
    · exact hc h
    · exact hne (List.length_eq_zero.mp h)
  rw [if_neg hv, checkItems_ok env items w hvalid hlook]
  simp only
  rw [Create_ok env _ _ rfl (by simpa [timeNow] using hcreate)]
  rfl

theorem CreateOrder_create_fault (env : Env) (w : World) (c : String) (items : List OrderItem)
    (e : String) (hc : TrimSpace c ≠ "") (hne : items ≠ [])
    (hvalid : ∀ it ∈ items, it.ProductID ≠ "" ∧ 0 < it.Quantity)
    (hlook : ∀ i, i < items.length → env.fault (w.calls + i) = none)
    (hcreate : env.fault (w.calls + items.length) = some e) :
    OrderService.CreateOrder env w c items
      = (Except.error (Error.backend e),
          { w with ticks := w.ticks + 3, calls := w.calls + items.length + 1 }) := by
  unfold OrderService.CreateOrder
  have hv : ¬ (TrimSpace c = "" ∨ items.length = 0) := by
    rintro (h | h)
    · exact hc h
    · exact hne (List.length_eq_zero.mp h)
  rw [if_neg hv, checkItems_ok env items w hvalid hlook]
  simp only
  rw [Create_fault env _ _ rfl e (by simpa [timeNow] using hcreate)]
  rfl

/-- C14: for a request that passes validation and whose product lookups are
answered: if the store fails `Create`, `CreateOrder` returns that error, the
ledger is untouched and no further store call is made; if the store fails the
reservation of item `k` (counted from `0`) after answering the earlier ones,
`CreateOrder` returns that error and no order, the ledger has gained the
reservations of the items before `k` only, and no store call follows the
failed one. -/
theorem C14_CreateOrder_first_failure (env : Env) (w : World) (c : String)
    (items : List OrderItem) (hc : TrimSpace c ≠ "") (hne : items ≠ [])
    (hvalid : ∀ it ∈ items, it.ProductID ≠ "" ∧ 0 < it.Quantity)
    (hlook : ∀ i, i < items.length → env.fault (w.calls + i) = none) :
    (∀ e, env.fault (w.calls + items.length) = some e →
        (OrderService.CreateOrder env w c items).1 = Except.error (Error.backend e)
          ∧ (OrderService.CreateOrder env w c items).2.stock_movements = w.stock_movements
          ∧ (OrderService.CreateOrder env w c items).2.calls = w.calls + items.length + 1)
      ∧ (∀ k e, k < items.length → env.fault (w.calls + items.length) = none →
          (∀ j, j < k → env.fault (w.calls + items.length + 1 + j) = none) →
          env.fault (w.calls + items.length + 1 + k) = some e →
          (OrderService.CreateOrder env w c items).1 = Except.error (Error.backend e)
            ∧ (OrderService.CreateOrder env w c items).2.calls
                = w.calls + items.length + 1 + k + 1
            ∧ ∃ ms : List StockMovement,
                (OrderService.CreateOrder env w c items).2.stock_movements
                    = w.stock_movements ++ ms
                  ∧ ms.length = k
                  ∧ List.Forall₂ (isReserveFor (newOrderOf env w c items).ID)
                      (items.take k) ms) := by
  refine ⟨fun e he => ?_, fun k e hk hcreate hbefore hat => ?_⟩
  · rw [CreateOrder_create_fault env w c items e hc hne hvalid hlook he]
    exact ⟨rfl, rfl, rfl⟩
  · rw [CreateOrder_run env w c items hc hne hvalid hlook hcreate]
    obtain ⟨g1, g2, ms, g3, g4⟩ := reserveItems_fault_at env (newOrderOf env w c items).ID
      items (afterCreate env w c items) k e hk hbefore hat
    rcases hr : OrderService.CreateOrder.reserveItems env (newOrderOf env w c items).ID
      (afterCreate env w c items) items with ⟨r, w3⟩
    rw [hr] at g1 g2 g3
    simp only at g1 g2 g3
    subst g1
    refine ⟨rfl, g2, ms, g3, ?_, g4⟩
    have := g4.length_eq
    rw [List.length_take] at this
    omega

/-- C14 at a sample request of three items: when the store fails the second
reservation, the error comes back, one movement has been appended and the
third item costs no store call. -/
theorem C14_CreateOrder_first_failure_witness :
    (OrderService.CreateOrder (faultAtEnv 5) worldP1 "Acme"
        [⟨"P1", 1, 1⟩, ⟨"P1", 2, 1⟩, ⟨"P1", 3, 1⟩]).1
        = Except.error (Error.backend "context deadline exceeded")
      ∧ (OrderService.CreateOrder (faultAtEnv 5) worldP1 "Acme"
          [⟨"P1", 1, 1⟩, ⟨"P1", 2, 1⟩, ⟨"P1", 3, 1⟩]).2.calls = 0 + 3 + 1 + 1 + 1 :=
  ⟨(((C14_CreateOrder_first_failure (faultAtEnv 5) worldP1 "Acme"
        [⟨"P1", 1, 1⟩, ⟨"P1", 2, 1⟩, ⟨"P1", 3, 1⟩] (by decide) (by simp)
        (by decide!) (by decide)).2 1 "context deadline exceeded" (by decide) (by decide)
        (by decide) (by decide)).1),
    (((C14_CreateOrder_first_failure (faultAtEnv 5) worldP1 "Acme"
        [⟨"P1", 1, 1⟩, ⟨"P1", 2, 1⟩, ⟨"P1", 3, 1⟩] (by decide) (by simp)
        (by decide!) (by decide)).2 1 "context deadline exceeded" (by decide) (by decide)
        (by decide) (by decide)).2.1)⟩

theorem orderedQuantity_ge (items : List OrderItem) (it : OrderItem) (hmem : it ∈ items)
    (hpos : ∀ it2 ∈ items, 0 < it2.Quantity) :
    it.Quantity ≤ orderedQuantity items it.ProductID := by
  have hnonneg : ∀ (l : List OrderItem), (∀ it2 ∈ l, 0 < it2.Quantity) →
      ∀ p, 0 ≤ orderedQuantity l p := by
    intro l
    induction l with
    | nil => intro _ p; simp [orderedQuantity]
    | cons a l ih =>
      intro hl p
      have h1 := ih (fun it2 h2 => hl it2 (List.mem_cons_of_mem _ h2)) p
      have h2 := hl a (List.mem_cons_self _ _)
      unfold orderedQuantity at h1 ⊢
      by_cases hp : a.ProductID = p
      · simp only [List.filter_cons, hp, decide_True, if_true, List.map_cons, List.sum_cons]
        linarith
      · simpa [List.filter_cons, hp] using h1
  induction items with
  | nil => simp at hmem
  | cons a l ih =>
    have hl : ∀ it2 ∈ l, 0 < it2.Quantity := fun it2 h2 => hpos it2 (List.mem_cons_of_mem _ h2)
    have hcons : orderedQuantity (a :: l) it.ProductID
        = (if a.ProductID = it.ProductID then a.Quantity else 0)
          + orderedQuantity l it.ProductID := by
      unfold orderedQuantity
      by_cases hp : a.ProductID = it.ProductID <;> simp [List.filter_cons, hp]
    rw [hcons]
    rcases List.mem_cons.mp hmem with heq | hin
    · subst heq
      have := hnonneg l hl it.ProductID
      simp only [if_true]
      linarith
    · have h1 := ih hin hl
      have h2 := hpos a (List.mem_cons_self _ _)
      by_cases hp : a.ProductID = it.ProductID
      · simp only [hp, if_true]
        linarith
      · simp only [hp, if_false]
        linarith

/-- C15: for a non-blank customer, a non-empty list of items with non-empty
product ids (in particular those of existing products) and positive
quantities, and a store that does not fail, `CreateOrder` succeeds whatever the
inventory is; for every item whose quantity exceeds the inventory of its
product, the inventory of that product is negative afterwards. -/
theorem C15_CreateOrder_no_sufficiency_check (env : Env) (w : World) (c : String)
    (items : List OrderItem) (hc : TrimSpace c ≠ "") (hne : items ≠ [])
    (hvalid : ∀ it ∈ items, it.ProductID ≠ "" ∧ 0 < it.Quantity)
    (hf : ∀ n, env.fault n = none) :
    (∃ order, (OrderService.CreateOrder env w c items).1 = Except.ok order)
      ∧ ∀ it ∈ items, inventoryOf w.stock_movements it.ProductID < it.Quantity →
          inventoryOf (OrderService.CreateOrder env w c items).2.stock_movements it.ProductID
            < 0 := by
  have hok : (OrderService.CreateOrder env w c items).1
      = Except.ok (newOrderOf env w c items) := by
    rw [CreateOrder_run env w c items hc hne hvalid (fun i _ => hf _) (hf _)]
    obtain ⟨g1, -⟩ := reserveItems_ok env (newOrderOf env w c items).ID items
      (afterCreate env w c items) (fun i _ => hf _)
    rcases hr : OrderService.CreateOrder.reserveItems env (newOrderOf env w c items).ID
      (afterCreate env w c items) items with ⟨r, w3⟩
    rw [hr] at g1
    simp only at g1
    subst g1
    rfl
  refine ⟨⟨_, hok⟩, fun it hmem hlt => ?_⟩
  obtain ⟨-, -, -, -, -, ms, hms, hall⟩ :=
    CreateOrder_ok_facts env w c items (newOrderOf env w c items) hok
  rw [← stockQuery_eq_inventoryOf] at hlt ⊢
  rw [hms, stockQuery_append, stockQuery_reserved _ items ms hall it.ProductID]
  have := orderedQuantity_ge items it hmem (fun it2 h2 => (hvalid it2 h2).2)
  linarith

/-- C15 at the scenario of the specification on an empty ledger: the order of
10 units of the existing product `P1` succeeds with nothing in stock and leaves
its inventory negative. -/
theorem C15_CreateOrder_no_sufficiency_check_witness :
    (∃ prod ∈ worldP1.products, prod.ID = "P1")
      ∧ inventoryOf worldP1.stock_movements "P1" < 10
      ∧ (∃ order, (OrderService.CreateOrder quietEnv worldP1 "Acme" [⟨"P1", 10, 5⟩]).1
          = Except.ok order)
      ∧ inventoryOf
          (OrderService.CreateOrder quietEnv worldP1 "Acme" [⟨"P1", 10, 5⟩]).2.stock_movements
          "P1" < 0 :=
  ⟨⟨productP1, by decide, rfl⟩, by decide!,
    (C15_CreateOrder_no_sufficiency_check quietEnv worldP1 "Acme" [⟨"P1", 10, 5⟩]
      (by decide) (by simp) (by decide!) (fun _ => rfl)).1,
    (C15_CreateOrder_no_sufficiency_check quietEnv worldP1 "Acme" [⟨"P1", 10, 5⟩]
      (by decide) (by simp) (by decide!) (fun _ => rfl)).2 ⟨"P1", 10, 5⟩ (by simp)
      (by decide!)⟩

/-! ## Lemmas on status updates -/

theorem sameTables_refl (w : World) : sameTables w w := ⟨rfl, rfl, rfl, rfl, rfl⟩

theorem sameTables_trans (w w1 w2 : World) (h1 : sameTables w w1) (h2 : sameTables w1 w2) :
    sameTables w w2 :=
  ⟨h2.1.trans h1.1, h2.2.1.trans h1.2.1, h2.2.2.1.trans h1.2.2.1,
    h2.2.2.2.1.trans h1.2.2.2.1, h2.2.2.2.2.trans h1.2.2.2.2⟩

theorem lookupOrder_some (w : World) (id : String) (order : Order)
    (h : lookupOrder w id = some order) :
    ∃ r, w.orders.find? (fun x => x.id = id) = some r ∧ r.id = id ∧ r ∈ w.orders
      ∧ order = OrderRepositorySQLite.loadItemsAndHistory w
          { ID := r.id, Customer := r.customer, Status := r.status, Items := [],
            CreatedAt := r.created_at, UpdatedAt := r.updated_at, StatusHist := [] } := by
  unfold lookupOrder at h
  cases hfind : w.orders.find? (fun x => x.id = id) with
  | none => rw [hfind] at h; simp at h
  | some r =>
    rw [hfind] at h
    simp only [Option.map_some', Option.some.injEq] at h
    have hid : r.id = id := by simpa using List.find?_some hfind
    exact ⟨r, rfl, hid, List.mem_of_find?_eq_some hfind, h.symm⟩

theorem Update_fault (env : Env) (w : World) (order : Order) (e : String)
    (hf : env.fault w.calls = some e) :
    (OrderRepositorySQLite.Update env w order).1 = some (Error.backend e)
      ∧ sameTables w (OrderRepositorySQLite.Update env w order).2.2 := by
  unfold OrderRepositorySQLite.Update
  simp [timeNow, storeCall, hf, sameTables]

theorem Update_ok (env : Env) (w : World) (order : Order) (last : StatusEntry)
    (hf : env.fault w.calls = none) (hmem : ∃ r ∈ w.orders, r.id = order.ID)
    (hlast : order.StatusHist.getLast? = some last) :
    OrderRepositorySQLite.Update env w order
      = (none, { order with UpdatedAt := env.clock w.ticks },
          { w with
            ticks := w.ticks + 1
            calls := w.calls + 1
            orders := w.orders.map (fun r =>
              if r.id = order.ID then
                OrderRow.mk r.id order.Customer order.Status r.created_at (env.clock w.ticks)
              else r)
            order_status_history := w.order_status_history
              ++ [StatusRow.mk order.ID last.Status last.ChangedAt] }) := by
  unfold OrderRepositorySQLite.Update
  have hany : w.orders.any (fun r => decide (r.id = order.ID)) = true := by
    obtain ⟨r, hr, hid⟩ := hmem
    exact List.any_eq_true.mpr ⟨r, hr, by simpa using hid⟩
  simp only [timeNow, storeCall, hf, hany, if_true, hlast]

/-- The outcomes of `UpdateOrderStatus`: either it returns an error and every
table is as before, or it returns the updated order and the store is the one
described by `afterUpdate`. -/
theorem UpdateOrderStatus_cases (env : Env) (w : World) (id s : String) :
    ((∃ e, (OrderService.UpdateOrderStatus env w id s).1 = Except.error e)
        ∧ sameTables w (OrderService.UpdateOrderStatus env w id s).2)
      ∨ ∃ order, TrimSpace id ≠ "" ∧ env.fault w.calls = none
          ∧ env.fault (w.calls + 1) = none
          ∧ lookupOrder w (TrimSpace id) = some order
          ∧ (order.Status = OrderStatusNew ∨ order.Status = OrderStatusReserved)
          ∧ OrderService.UpdateOrderStatus env w id s
              = (Except.ok (updatedOrder env w order s), afterUpdate env w order s) := by
  unfold OrderService.UpdateOrderStatus
  by_cases hid : TrimSpace id = ""
  · rw [if_pos hid]
    exact Or.inl ⟨⟨_, rfl⟩, sameTables_refl w⟩
  · rw [if_neg hid]
    cases hf : env.fault w.calls with
    | some e =>
      rw [GetByID_fault env w _ e hf]
      exact Or.inl ⟨⟨_, rfl⟩, rfl, rfl, rfl, rfl, rfl⟩
    | none =>
      rw [GetByID_ok env w _ hf]
      cases hl : lookupOrder w (TrimSpace id) with
      | none => exact Or.inl ⟨⟨_, rfl⟩, rfl, rfl, rfl, rfl, rfl⟩
      | some order =>
        simp only
        by_cases hst : order.Status = OrderStatusNew ∨ order.Status = OrderStatusReserved
        · rw [if_pos hst]
          obtain ⟨r, -, hrid, hrmem, hord⟩ := lookupOrder_some w (TrimSpace id) order hl
          have hoid : order.ID = r.id := by rw [hord]; rfl
          cases hf2 : env.fault (w.calls + 1) with
          | some e =>
            obtain ⟨u1, u2⟩ := Update_fault env (timeNow env { w with calls := w.calls + 1 }).2
              { order with
                Status := s
                UpdatedAt := (timeNow env { w with calls := w.calls + 1 }).1
                StatusHist := order.StatusHist ++
                  [{ Status := s, ChangedAt := (timeNow env { w with calls := w.calls + 1 }).1 }] }
              e hf2
            rcases hu : OrderRepositorySQLite.Update env
              (timeNow env { w with calls := w.calls + 1 }).2
              { order with
                Status := s
                UpdatedAt := (timeNow env { w with calls := w.calls + 1 }).1
                StatusHist := order.StatusHist ++
                  [{ Status := s, ChangedAt := (timeNow env { w with calls := w.calls + 1 }).1 }] }
              with ⟨r1, o1, w2⟩
            rw [hu] at u1 u2
            simp only at u1 u2
            subst u1
            exact Or.inl ⟨⟨_, rfl⟩, u2⟩
          | none =>
            refine Or.inr ⟨order, hid, ?_, ?_, ?_, hst, ?_⟩
            · first | rfl | trivial
            · rfl
            · rfl
            rw [Update_ok env (timeNow env { w with calls := w.calls + 1 }).2
              { order with
                Status := s
                UpdatedAt := (timeNow env { w with calls := w.calls + 1 }).1
                StatusHist := order.StatusHist ++
                  [{ Status := s, ChangedAt := (timeNow env { w with calls := w.calls + 1 }).1 }] }
              (StatusEntry.mk s (env.clock w.ticks)) hf2
              ⟨r, hrmem, hoid.symm⟩ (by simp [timeNow])]
            rfl
        · rw [if_neg hst]
          exact Or.inl ⟨⟨_, rfl⟩, rfl, rfl, rfl, rfl, rfl⟩

theorem orderedInsert_snoc {α : Type} (r : α → α → Prop) [DecidableRel r] (a e : α)
    (l : List α) (h : r a e) :
    List.orderedInsert r a (l ++ [e]) = List.orderedInsert r a l ++ [e] := by
  induction l with
  | nil => simp [List.orderedInsert, h]
  | cons c l ih =>
    by_cases hc : r a c
    · simp [List.orderedInsert, hc]
    · simp [List.orderedInsert, hc, ih]

theorem insertionSort_snoc {α : Type} (r : α → α → Prop) [DecidableRel r] (e : α)
    (l : List α) (h : ∀ x ∈ l, r x e) :
    List.insertionSort r (l ++ [e]) = List.insertionSort r l ++ [e] := by
  induction l with
  | nil => simp
  | cons a l ih =>
    have h1 : List.insertionSort r (l ++ [e]) = List.insertionSort r l ++ [e] :=
      ih (fun x hx => h x (List.mem_cons_of_mem _ hx))
    show List.orderedInsert r a (List.insertionSort r (l ++ [e]))
      = List.orderedInsert r a (List.insertionSort r l) ++ [e]
    rw [h1]
    exact orderedInsert_snoc r a e _ (h a (List.mem_cons_self _ _))

theorem find?_map_same {α : Type} (p : α → Bool) (f : α → α) (hf : ∀ a, p (f a) = p a)
    (l : List α) : (l.map f).find? p = (l.find? p).map f := by
  induction l with
  | nil => rfl
  | cons a l ih =>
    simp only [List.map_cons, List.find?_cons, hf]
    cases p a <;> simp [ih]

theorem find?_afterUpdate (env : Env) (w : World) (order : Order) (s id : String) :
    (afterUpdate env w order s).orders.find? (fun x => x.id = id)
      = (w.orders.find? (fun x => x.id = id)).map (fun r =>
          if r.id = order.ID then
            OrderRow.mk r.id order.Customer s r.created_at (env.clock (w.ticks + 1))
          else r) := by
  unfold afterUpdate
  simp only
  apply find?_map_same
  intro a
  by_cases hb : a.id = order.ID <;> simp [hb]

/-- The order read back after a successful status update is the order the
update returned, when the clock reading of the update is not earlier than the
entries already recorded. -/
theorem lookupOrder_afterUpdate (env : Env) (w : World) (id s : String) (order : Order)
    (hl : lookupOrder w id = some order)
    (hmono : ∀ h ∈ order.StatusHist, h.ChangedAt ≤ env.clock w.ticks) :
    lookupOrder (afterUpdate env w order s) id = some (updatedOrder env w order s) := by
  obtain ⟨r, hfind, hrid, -, hord⟩ := lookupOrder_some w id order hl
  have hoid : order.ID = r.id := by rw [hord]; rfl
  have hcust : order.Customer = r.customer := by rw [hord]; rfl
  have hcre : order.CreatedAt = r.created_at := by rw [hord]; rfl
  have hitems : order.Items = (w.order_items.filter (fun x => x.order_id = r.id)).map
      (fun x => OrderItem.mk x.product_id x.quantity x.price) := by rw [hord]; rfl
  have hhist : order.StatusHist
      = List.insertionSort (fun a b : StatusEntry => a.ChangedAt ≤ b.ChangedAt)
          ((w.order_status_history.filter (fun x => x.order_id = r.id)).map
            (fun x => StatusEntry.mk x.status x.changed_at)) := by rw [hord]; rfl
  have hmono2 : ∀ x ∈ (w.order_status_history.filter (fun x => x.order_id = r.id)).map
      (fun x => StatusEntry.mk x.status x.changed_at),
      x.ChangedAt ≤ (StatusEntry.mk s (env.clock w.ticks)).ChangedAt := by
    intro x hx
    apply hmono
    rw [hhist]
    exact (List.perm_insertionSort _ _).mem_iff.mpr hx
  unfold lookupOrder
  rw [find?_afterUpdate, hfind]
  simp only [Option.map_some', hoid, if_true, OrderRepositorySQLite.loadItemsAndHistory]
  have hf1 : (afterUpdate env w order s).order_items = w.order_items := rfl
  have hf2 : (afterUpdate env w order s).order_status_history
      = w.order_status_history ++ [StatusRow.mk r.id s (env.clock w.ticks)] := by
    unfold afterUpdate
    rw [hoid]
  rw [hf1, hf2, List.filter_append]
  have hsing : [StatusRow.mk r.id s (env.clock w.ticks)].filter (fun x => x.order_id = r.id)
      = [StatusRow.mk r.id s (env.clock w.ticks)] := by simp
  rw [hsing, List.map_append, List.map_singleton,
    insertionSort_snoc _ _ _ hmono2, ← hhist, ← hitems]
  unfold updatedOrder
  simp only [hcre, hoid]

/-! ## Status updates -/

/-- C16: for an order whose row carries the status `completed` or `canceled`,
after any sequence of earlier `UpdateOrderStatus` calls on it, a call whose
load is answered by the store fails with `ErrOrderBadStatus` for every
requested status, and every table, the row of the order and its history among
them, is as it was at the start. -/
theorem C16_terminal_status_rejected (env : Env) (w : World) (id : String) (r : OrderRow)
    (ss : List String) (s : String)
    (hid : TrimSpace id ≠ "")
    (hfind : w.orders.find? (fun x => x.id = TrimSpace id) = some r)
    (hst : r.status = OrderStatusCompleted ∨ r.status = OrderStatusCanceled)
    (hload : env.fault (run env w (ss.map (fun x => Op.updateOrderStatus id x))).calls = none) :
    (OrderService.UpdateOrderStatus env
        (run env w (ss.map (fun x => Op.updateOrderStatus id x))) id s).1
        = Except.error Error.ErrOrderBadStatus
      ∧ sameTables w (OrderService.UpdateOrderStatus env
          (run env w (ss.map (fun x => Op.updateOrderStatus id x))) id s).2 := by
  have hterm : ∀ w1 : World, sameTables w w1 → ∀ s1 : String,
      sameTables w (OrderService.UpdateOrderStatus env w1 id s1).2
        ∧ (env.fault w1.calls = none →
            (OrderService.UpdateOrderStatus env w1 id s1).1
              = Except.error Error.ErrOrderBadStatus) := by
    intro w1 hsame s1
    have hfind1 : w1.orders.find? (fun x => x.id = TrimSpace id) = some r := by
      rw [hsame.2.1]
      exact hfind
    have hlook : ∃ o, lookupOrder w1 (TrimSpace id) = some o ∧ o.Status = r.status := by
      unfold lookupOrder
      rw [hfind1]
      exact ⟨_, rfl, rfl⟩
    obtain ⟨o, hlo, hos⟩ := hlook
    have hnot : ¬ (o.Status = OrderStatusNew ∨ o.Status = OrderStatusReserved) := by
      rw [hos]
      rcases hst with h | h <;> rw [h] <;> decide
    refine ⟨?_, fun hf => ?_⟩
    · rcases UpdateOrderStatus_cases env w1 id s1 with ⟨-, h⟩ | ⟨o2, -, -, -, h4, h5, -⟩
      · exact sameTables_trans w w1 _ hsame h
      · rw [hlo] at h4
        simp only [Option.some.injEq] at h4
        subst h4
        exact absurd h5 hnot
    · unfold OrderService.UpdateOrderStatus
      rw [if_neg hid, GetByID_ok env w1 _ hf, hlo]
      simp only
      rw [if_neg hnot]
  have hrun : ∀ (l : List String) (w1 : World), sameTables w w1 →
      sameTables w (run env w1 (l.map (fun x => Op.updateOrderStatus id x))) := by
    intro l
    induction l with
    | nil => intro w1 h; exact h
    | cons a l ih =>
      intro w1 h
      simp only [List.map_cons, run, List.foldl_cons, step]
      exact ih _ (hterm w1 h a).1
  have hs := hrun ss w (sameTables_refl w)
  exact ⟨(hterm _ hs s).2 hload, (hterm _ hs s).1⟩

/-- C16 at the scenario of the specification: the order `o-xx` has been set to
`completed`; after one more rejected call, the call that asks for `canceled`
fails with `ErrOrderBadStatus`. -/
theorem C16_terminal_status_rejected_witness :
    worldCompleted.orders.find? (fun x => x.id = TrimSpace "o-xx")
        = some ⟨"o-xx", "Acme", "completed", 1, 8⟩
      ∧ (OrderService.UpdateOrderStatus quietEnv
          (run quietEnv worldCompleted
            (["new"].map (fun x => Op.updateOrderStatus "o-xx" x))) "o-xx" "canceled").1
        = Except.error Error.ErrOrderBadStatus :=
  ⟨by decide!,
    (C16_terminal_status_rejected quietEnv worldCompleted "o-xx"
      ⟨"o-xx", "Acme", "completed", 1, 8⟩ ["new"] "canceled" (by decide) (by decide!)
      (Or.inl rfl) rfl).1⟩

/-- C17 as stated fails: when the clock reading of the update is earlier than
the creation entry, `UpdateOrderStatus` succeeds, but the order read afterwards
has the new entry before the old one, because the history is read
`ORDER BY changed_at`. -/
theorem C17_history_reordered_by_clock :
    (OrderService.GetOrder backClockEnv worldBackClock "o-a").1
        = Except.ok { ID := "o-a", Customer := "Acme", Status := "new",
                      Items := [⟨"P1", 10, 5⟩], CreatedAt := 100, UpdatedAt := 98,
                      StatusHist := [⟨"new", 100⟩] }
      ∧ (OrderService.UpdateOrderStatus backClockEnv worldBackClock "o-a" "completed").1
        = Except.ok { ID := "o-a", Customer := "Acme", Status := "completed",
                      Items := [⟨"P1", 10, 5⟩], CreatedAt := 100, UpdatedAt := 93,
                      StatusHist := [⟨"new", 100⟩, ⟨"completed", 94⟩] }
      ∧ (OrderService.GetOrder backClockEnv
          (OrderService.UpdateOrderStatus backClockEnv worldBackClock "o-a" "completed").2
          "o-a").1
        = Except.ok { ID := "o-a", Customer := "Acme", Status := "completed",
                      Items := [⟨"P1", 10, 5⟩], CreatedAt := 100, UpdatedAt := 93,
                      StatusHist := [⟨"completed", 94⟩, ⟨"new", 100⟩] } := by
  decide!

/-- C18: `UpdateOrderStatus` with the requested status `shipped` on the `new`
order `o-xx` succeeds; the stored order then has the status `shipped`, which is
none of `new`, `reserved`, `completed`, `canceled`, and every later update of
it is refused with `ErrOrderBadStatus`. -/
theorem C18_status_outside_enumeration :
    (OrderService.UpdateOrderStatus quietEnv worldOrdered "o-xx" "shipped").1
        = Except.ok { ID := "o-xx", Customer := "Acme", Status := "shipped",
                      Items := [⟨"P1", 10, 5⟩], CreatedAt := 1, UpdatedAt := 8,
                      StatusHist := [⟨"new", 1⟩, ⟨"shipped", 7⟩] }
      ∧ (OrderService.GetOrder quietEnv
          (OrderService.UpdateOrderStatus quietEnv worldOrdered "o-xx" "shipped").2 "o-xx").1
        = Except.ok { ID := "o-xx", Customer := "Acme", Status := "shipped",
                      Items := [⟨"P1", 10, 5⟩], CreatedAt := 1, UpdatedAt := 8,
                      StatusHist := [⟨"new", 1⟩, ⟨"shipped", 7⟩] }
      ∧ "shipped" ∉ [OrderStatusNew, OrderStatusReserved, OrderStatusCompleted,
          OrderStatusCanceled]
      ∧ (OrderService.UpdateOrderStatus quietEnv
          (OrderService.UpdateOrderStatus quietEnv worldOrdered "o-xx" "shipped").2
          "o-xx" "completed").1 = Except.error Error.ErrOrderBadStatus := by
  decide!

/-- C19: `UpdateOrderStatus` with an id that is empty or only white space
returns `ErrInvalidOrder` and the store untouched; with an id whose trimmed
form is the id of no order, and a lookup that the store answers, it returns
`ErrOrderNotFound`, and no table has changed. -/
theorem C19_UpdateOrderStatus_not_found (env : Env) (w : World) (id s : String) :
    (TrimSpace id = "" →
        OrderService.UpdateOrderStatus env w id s = (Except.error Error.ErrInvalidOrder, w))
      ∧ (TrimSpace id ≠ "" → (∀ r ∈ w.orders, r.id ≠ TrimSpace id) →
          env.fault w.calls = none →
          (OrderService.UpdateOrderStatus env w id s).1 = Except.error Error.ErrOrderNotFound
            ∧ sameTables w (OrderService.UpdateOrderStatus env w id s).2) := by
  refine ⟨fun h => ?_, fun hid hnone hf => ?_⟩
  · unfold OrderService.UpdateOrderStatus
    rw [if_pos h]
  · have hl : lookupOrder w (TrimSpace id) = none := by
      unfold lookupOrder
      have : w.orders.find? (fun x => x.id = TrimSpace id) = none := by
        rw [List.find?_eq_none]
        intro r hr
        simpa using hnone r hr
      rw [this]
      rfl
    unfold OrderService.UpdateOrderStatus
    rw [if_neg hid, GetByID_ok env w _ hf, hl]
    exact ⟨rfl, rfl, rfl, rfl, rfl, rfl⟩

/-- C19 at sample calls on the store holding the order `o-xx`: a blank id and
the unknown id `o-zz`. -/
theorem C19_UpdateOrderStatus_not_found_witness :
    OrderService.UpdateOrderStatus quietEnv worldOrdered " \t " "completed"
        = (Except.error Error.ErrInvalidOrder, worldOrdered)
      ∧ (OrderService.UpdateOrderStatus quietEnv worldOrdered " o-zz " "completed").1
        = Except.error Error.ErrOrderNotFound
      ∧ sameTables worldOrdered
          (OrderService.UpdateOrderStatus quietEnv worldOrdered " o-zz " "completed").2 :=
  ⟨(C19_UpdateOrderStatus_not_found quietEnv worldOrdered " \t " "completed").1 (by decide),
    ((C19_UpdateOrderStatus_not_found quietEnv worldOrdered " o-zz " "completed").2
      (by decide) (by decide!) rfl).1,
    ((C19_UpdateOrderStatus_not_found quietEnv worldOrdered " o-zz " "completed").2
      (by decide) (by decide!) rfl).2⟩

/-- C20: every `UpdateOrderStatus` call, whatever it returns, leaves the ledger
and the table of order items as they were, only appends to the history table
(at most one row, of the order addressed), and keeps the id and the creation
time of every row of `orders`, rows of other orders being unchanged
altogether; with distinct order ids (the primary key) the customer of every
row is kept as well. -/
theorem C20_UpdateOrderStatus_frame (env : Env) (w : World) (id s : String) :
    (OrderService.UpdateOrderStatus env w id s).2.stock_movements = w.stock_movements
      ∧ (OrderService.UpdateOrderStatus env w id s).2.order_items = w.order_items
      ∧ (∃ extra : List StatusRow,
          (OrderService.UpdateOrderStatus env w id s).2.order_status_history
              = w.order_status_history ++ extra
            ∧ extra.length ≤ 1 ∧ ∀ x ∈ extra, x.order_id = TrimSpace id)
      ∧ List.Forall₂
          (fun r r2 : OrderRow =>
            r2.id = r.id ∧ r2.created_at = r.created_at ∧ (r.id ≠ TrimSpace id → r2 = r))
          w.orders (OrderService.UpdateOrderStatus env w id s).2.orders
      ∧ ((w.orders.map (fun r => r.id)).Nodup →
          (OrderService.UpdateOrderStatus env w id s).2.orders.map (fun r => r.customer)
            = w.orders.map (fun r => r.customer)) := by
  rcases UpdateOrderStatus_cases env w id s with ⟨-, -, h2, h3, h4, h5⟩ | ⟨order, -, -, -, hl, -, h6⟩
  · refine ⟨h5, h3, ⟨[], by rw [h4]; simp, by simp, by simp⟩, ?_, fun _ => by rw [h2]⟩
    rw [h2]
    exact List.forall₂_same.mpr (fun r _ => ⟨rfl, rfl, fun _ => rfl⟩)
  · obtain ⟨r0, -, hrid, hr0mem, hord⟩ := lookupOrder_some w (TrimSpace id) order hl
    have hoid : order.ID = TrimSpace id := by rw [hord]; exact hrid
    have hcust : order.Customer = r0.customer := by rw [hord]; rfl
    rw [h6]
    refine ⟨rfl, rfl, ⟨[StatusRow.mk order.ID s (env.clock w.ticks)], rfl, by simp,
      by simp [hoid]⟩, ?_, fun hnodup => ?_⟩
    · unfold afterUpdate
      simp only
      rw [List.forall₂_map_right_iff]
      refine List.forall₂_same.mpr (fun r _ => ?_)
      by_cases hr : r.id = order.ID
      · simp [hr, hoid]
      · simp [hr]
    · unfold afterUpdate
      simp only [List.map_map]
      apply List.map_congr_left
      intro r hr
      by_cases hrid2 : r.id = order.ID
      · have hsame : r = r0 :=
          List.inj_on_of_nodup_map hnodup hr hr0mem (by rw [hrid2, hoid, hrid])
        subst hsame
        simp [hrid2, hcust]
      · simp [hrid2]

/-- C20 at the sample store: the successful update of `o-xx` to `completed`
leaves the ledger and the items as they were and extends the history table. -/
theorem C20_UpdateOrderStatus_frame_witness :
    (worldOrdered.orders.map (fun r => r.id)).Nodup
      ∧ (OrderService.UpdateOrderStatus quietEnv worldOrdered "o-xx" "completed").2.stock_movements
          = worldOrdered.stock_movements
      ∧ (OrderService.UpdateOrderStatus quietEnv worldOrdered "o-xx" "completed").2.order_items
          = worldOrdered.order_items
      ∧ (OrderService.UpdateOrderStatus quietEnv worldOrdered "o-xx"
          "completed").2.orders.map (fun r => r.customer)
          = worldOrdered.orders.map (fun r => r.customer) :=
  ⟨by decide!,
    (C20_UpdateOrderStatus_frame quietEnv worldOrdered "o-xx" "completed").1,
    (C20_UpdateOrderStatus_frame quietEnv worldOrdered "o-xx" "completed").2.1,
    (C20_UpdateOrderStatus_frame quietEnv worldOrdered "o-xx" "completed").2.2.2.2
      (by decide!)⟩

/-! ## Lemmas on what each operation appends to the ledger -/

theorem Receipt_cases (env : Env) (w : World) (p s : String) (q price : ℚ)
    (expiry : Option Time) :
    (WarehouseService.Receipt env w p s q price expiry).2.stock_movements = w.stock_movements
      ∨ (p ≠ "" ∧ 0 < q ∧ ∃ m : StockMovement,
          (WarehouseService.Receipt env w p s q price expiry).2.stock_movements
              = w.stock_movements ++ [m]
            ∧ m.Type_ = MovementReceipt ∧ m.ProductID = p ∧ m.Quantity = q) := by
  by_cases hv : p = "" ∨ q ≤ 0
  · left
    unfold WarehouseService.Receipt
    rw [if_pos hv]
  · have hp : p ≠ "" := fun h => hv (Or.inl h)
    have hq : 0 < q := lt_of_not_le (fun h => hv (Or.inr h))
    cases hf : env.fault w.calls with
    | some e =>
      left
      unfold WarehouseService.Receipt
      rw [if_neg hv, ProductGetByID_fault env w p e hf]
    | none =>
      obtain ⟨w1, t, hl, hc, hrun⟩ := Receipt_run env w p s q price expiry hp hq hf
      rw [hrun]
      cases hf2 : env.fault w1.calls with
      | some e =>
        left
        rw [(AddMovement_fault env w1 _ e hf2).2, hl]
      | none =>
        right
        obtain ⟨-, m2, h2, f1, f2, -, -, f5, -, -⟩ := AddMovement_append env w1
          { ID := "", Type_ := MovementReceipt, ProductID := p, SupplierID := s, OrderID := "",
            Quantity := q, Price := price, ExpiryDate := expiry, CreatedAt := t } hf2
        exact ⟨hp, hq, m2, by rw [h2, hl], f1, f2, f5⟩

theorem WriteOff_cases (env : Env) (w : World) (p : String) (q : ℚ) :
    (WarehouseService.WriteOff env w p q).2.stock_movements = w.stock_movements
      ∨ (p ≠ "" ∧ 0 < q ∧ q ≤ stockQuery w.stock_movements p ∧ ∃ m : StockMovement,
          (WarehouseService.WriteOff env w p q).2.stock_movements = w.stock_movements ++ [m]
            ∧ m.Type_ = MovementWriteOff ∧ m.ProductID = p ∧ m.Quantity = q) := by
  by_cases hv : p = "" ∨ q ≤ 0
  · left
    unfold WarehouseService.WriteOff
    rw [if_pos hv]
  · have hp : p ≠ "" := fun h => hv (Or.inl h)
    have hq : 0 < q := lt_of_not_le (fun h => hv (Or.inr h))
    cases hf : env.fault w.calls with
    | some e =>
      left
      unfold WarehouseService.WriteOff
      rw [if_neg hv, GetStockByProduct_fault env w p e hf]
    | none =>
      by_cases hs : stockQuery w.stock_movements p < q
      · left
        unfold WarehouseService.WriteOff
        rw [if_neg hv, GetStockByProduct_ok env w p hf]
        simp only [hs, if_true]
      · have hs2 : q ≤ stockQuery w.stock_movements p := not_lt.mp hs
        obtain ⟨w1, t, hl, hc, hrun⟩ := WriteOff_run env w p q hp hq hs2 hf
        rw [hrun]
        cases hf2 : env.fault w1.calls with
        | some e =>
          left
          rw [(AddMovement_fault env w1 _ e hf2).2, hl]
        | none =>
          right
          obtain ⟨-, m2, h2, f1, f2, -, -, f5, -, -⟩ := AddMovement_append env w1
            { ID := "", Type_ := MovementWriteOff, ProductID := p, SupplierID := "",
              OrderID := "", Quantity := q, Price := 0, ExpiryDate := none, CreatedAt := t } hf2
          exact ⟨hp, hq, hs2, m2, by rw [h2, hl], f1, f2, f5⟩

theorem Reserve_run (env : Env) (w : World) (p o : String) (q : ℚ) (hp : p ≠ "") (ho : o ≠ "")
    (hq : 0 < q) (hs : q ≤ stockQuery w.stock_movements p) (hf : env.fault w.calls = none) :
    ∃ (w1 : World) (t : Time), w1.stock_movements = w.stock_movements
      ∧ w1.calls = w.calls + 1
      ∧ WarehouseService.Reserve env w p o q
        = WarehouseRepositorySQLite.AddMovement env w1
          { ID := "", Type_ := MovementReserve, ProductID := p, SupplierID := "", OrderID := o,
            Quantity := q, Price := 0, ExpiryDate := none, CreatedAt := t } := by
  refine ⟨(timeNow env { w with calls := w.calls + 1 }).2,
    (timeNow env { w with calls := w.calls + 1 }).1, rfl, rfl, ?_⟩
  unfold WarehouseService.Reserve
  have hv : ¬ (p = "" ∨ o = "" ∨ q ≤ 0) := by
    rintro (h | h | h)
    · exact hp h
    · exact ho h
    · exact absurd hq (not_lt.mpr h)
  rw [if_neg hv, GetStockByProduct_ok env w p hf]
  simp only [not_lt.mpr hs, if_false]

theorem Reserve_cases (env : Env) (w : World) (p o : String) (q : ℚ) :
    (WarehouseService.Reserve env w p o q).2.stock_movements = w.stock_movements
      ∨ (p ≠ "" ∧ 0 < q ∧ q ≤ stockQuery w.stock_movements p ∧ ∃ m : StockMovement,
          (WarehouseService.Reserve env w p o q).2.stock_movements = w.stock_movements ++ [m]
            ∧ m.Type_ = MovementReserve ∧ m.ProductID = p ∧ m.Quantity = q) := by
  by_cases hv : p = "" ∨ o = "" ∨ q ≤ 0
  · left
    unfold WarehouseService.Reserve
    rw [if_pos hv]
  · have hp : p ≠ "" := fun h => hv (Or.inl h)
    have ho : o ≠ "" := fun h => hv (Or.inr (Or.inl h))
    have hq : 0 < q := lt_of_not_le (fun h => hv (Or.inr (Or.inr h)))
    cases hf : env.fault w.calls with
    | some e =>
      left
      unfold WarehouseService.Reserve
      rw [if_neg hv, GetStockByProduct_fault env w p e hf]
    | none =>
      by_cases hs : stockQuery w.stock_movements p < q
      · left
        unfold WarehouseService.Reserve
        rw [if_neg hv, GetStockByProduct_ok env w p hf]
        simp only [hs, if_true]
      · have hs2 : q ≤ stockQuery w.stock_movements p := not_lt.mp hs
        obtain ⟨w1, t, hl, hc, hrun⟩ := Reserve_run env w p o q hp ho hq hs2 hf
        rw [hrun]
        cases hf2 : env.fault w1.calls with
        | some e =>
          left
          rw [(AddMovement_fault env w1 _ e hf2).2, hl]
        | none =>
          right
          obtain ⟨-, m2, h2, f1, f2, -, -, f5, -, -⟩ := AddMovement_append env w1
            { ID := "", Type_ := MovementReserve, ProductID := p, SupplierID := "",
              OrderID := o, Quantity := q, Price := 0, ExpiryDate := none, CreatedAt := t } hf2
          exact ⟨hp, hq, hs2, m2, by rw [h2, hl], f1, f2, f5⟩

theorem checkItems_none_valid (env : Env) (items : List OrderItem) (w : World)
    (h : (OrderService.CreateOrder.checkItems env w items).1 = none) :
    ∀ it ∈ items, it.ProductID ≠ "" ∧ 0 < it.Quantity := by
  induction items generalizing w with
  | nil => intro it hit; simp at hit
  | cons a rest ih =>
    unfold OrderService.CreateOrder.checkItems at h
    by_cases hv : a.ProductID = "" ∨ a.Quantity ≤ 0
    · rw [if_pos hv] at h
      simp at h
    · rw [if_neg hv] at h
      have ha : a.ProductID ≠ "" ∧ 0 < a.Quantity :=
        ⟨fun h1 => hv (Or.inl h1), lt_of_not_le (fun h1 => hv (Or.inr h1))⟩
      cases hf : env.fault w.calls with
      | some e =>
        rw [ProductGetByID_fault env w a.ProductID e hf] at h
        simp at h
      | none =>
        rw [ProductGetByID_ok env w a.ProductID hf] at h
        intro it hit
        rcases List.mem_cons.mp hit with heq | hin
        · rw [heq]
          exact ha
        · exact ih _ h it hin

theorem reserveItems_any (env : Env) (oid : String) (items : List OrderItem) (w : World) :
    ∃ ms, (OrderService.CreateOrder.reserveItems env oid w items).2.stock_movements
        = w.stock_movements ++ ms
      ∧ ∀ m ∈ ms, ∃ it ∈ items, isReserveFor oid it m := by
  induction items generalizing w with
  | nil => exact ⟨[], by simp [OrderService.CreateOrder.reserveItems], by simp⟩
  | cons it rest ih =>
    unfold OrderService.CreateOrder.reserveItems
    obtain ⟨hfault, hok⟩ := reserveItems_step env oid it w
    cases hf : env.fault w.calls with
    | some e =>
      obtain ⟨w1, hadd, hl, -⟩ := hfault e hf
      rw [hadd]
      exact ⟨[], by simpa using hl, by simp⟩
    | none =>
      obtain ⟨w1, m, hadd, hl, hm, -⟩ := hok hf
      rw [hadd]
      simp only
      obtain ⟨ms, hms, hall⟩ := ih w1
      refine ⟨m :: ms, by rw [hms, hl]; simp, ?_⟩
      intro m2 hm2
      rcases List.mem_cons.mp hm2 with heq | hin
      · exact ⟨it, List.mem_cons_self _ _, heq ▸ hm⟩
      · obtain ⟨it2, hit2, h2⟩ := hall m2 hin
        exact ⟨it2, List.mem_cons_of_mem _ hit2, h2⟩

theorem Create_some_frame (env : Env) (w : World) (o o2 : Order) (w2 : World) (e : Error)
    (hid : o.ID = "") (h : OrderRepositorySQLite.Create env w o = (some e, o2, w2)) :
    sameTables w w2 := by
  cases hf : env.fault w.calls with
  | some e2 =>
    rw [Create_fault env w o hid e2 hf] at h
    simp only [Prod.mk.injEq] at h
    obtain ⟨-, -, h3⟩ := h
    subst h3
    exact ⟨rfl, rfl, rfl, rfl, rfl⟩
  | none =>
    rw [Create_ok env w o hid hf] at h
    simp at h

/-- The outcomes of `CreateOrder` on the tables: either no table has changed,
or the items passed validation, the order is stored with its items and history
and the ledger has gained reservations of its items. -/
theorem CreateOrder_cases (env : Env) (w : World) (c : String) (items : List OrderItem) :
    sameTables w (OrderService.CreateOrder env w c items).2
      ∨ ((OrderService.CreateOrder.checkItems env w items).1 = none
          ∧ ∃ (o : Order) (ms : List StockMovement), o.Items = items
            ∧ (OrderService.CreateOrder env w c items).2.products = w.products
            ∧ (OrderService.CreateOrder env w c items).2.orders = w.orders ++ [orderRowOf o]
            ∧ (OrderService.CreateOrder env w c items).2.order_items
                = w.order_items ++ itemRowsOf o
            ∧ (OrderService.CreateOrder env w c items).2.order_status_history
                = w.order_status_history ++ statusRowsOf o
            ∧ (OrderService.CreateOrder env w c items).2.stock_movements
                = w.stock_movements ++ ms
            ∧ ∀ m ∈ ms, ∃ it ∈ items, isReserveFor o.ID it m) := by
  unfold OrderService.CreateOrder
  by_cases hv : TrimSpace c = "" ∨ items.length = 0
  · rw [if_pos hv]
    exact Or.inl (sameTables_refl w)
  · rw [if_neg hv]
    obtain ⟨c1, c2, c3, c4, c5⟩ := checkItems_frame env items w
    rcases hc : OrderService.CreateOrder.checkItems env w items with ⟨r, w1⟩
    rw [hc] at c1 c2 c3 c4 c5
    simp only at c1 c2 c3 c4 c5
    cases r with
    | some e => exact Or.inl ⟨c1, c2, c3, c4, c5⟩
    | none =>
      simp only
      rcases hcr : OrderRepositorySQLite.Create env (timeNow env w1).2
        (NewOrder (TrimSpace c) items (timeNow env w1).1) with ⟨r2, o, w2⟩
      cases r2 with
      | some e =>
        have hs := Create_some_frame env _ _ o w2 e rfl hcr
        exact Or.inl (sameTables_trans w _ w2 ⟨c1, c2, c3, c4, c5⟩ hs)
      | none =>
        right
        obtain ⟨e1, e2, e3, e4, e5, e6⟩ := Create_inv env (timeNow env w1).2
          (NewOrder (TrimSpace c) items (timeNow env w1).1) o w2 rfl hcr
        have hitems : o.Items = items := by rw [e1]; rfl
        obtain ⟨r1, r2, r3, r4⟩ := reserveItems_frame env o.ID o.Items w2
        obtain ⟨ms, hms, hall⟩ := reserveItems_any env o.ID o.Items w2
        have hall2 : ∀ m ∈ ms, ∃ it ∈ items, isReserveFor o.ID it m := by
          rw [← hitems]
          exact hall
        refine ⟨trivial, o, ms, hitems, ?_⟩
        simp only
        rcases hr : OrderService.CreateOrder.reserveItems env o.ID w2 o.Items with ⟨r5, w3⟩
        rw [hr] at r1 r2 r3 r4 hms
        simp only at r1 r2 r3 r4 hms
        have facts : w3.products = w.products ∧ w3.orders = w.orders ++ [orderRowOf o]
            ∧ w3.order_items = w.order_items ++ itemRowsOf o
            ∧ w3.order_status_history = w.order_status_history ++ statusRowsOf o
            ∧ w3.stock_movements = w.stock_movements ++ ms := by
          rw [r1, r2, r3, r4, hms, e2, e3, e4, e5, e6]
          simp [timeNow, c1, c2, c3, c4, c5]
        cases r5 with
        | some err => exact ⟨facts.1, facts.2.1, facts.2.2.1, facts.2.2.2.1, facts.2.2.2.2, hall2⟩
        | none => exact ⟨facts.1, facts.2.1, facts.2.2.1, facts.2.2.2.1, facts.2.2.2.2, hall2⟩

theorem GetOrder_frame (env : Env) (w : World) (id : String) :
    sameTables w (OrderService.GetOrder env w id).2 := by
  unfold OrderService.GetOrder
  by_cases hid : TrimSpace id = ""
  · rw [if_pos hid]
    exact sameTables_refl w
  · rw [if_neg hid]
    cases hf : env.fault w.calls with
    | some e =>
      rw [GetByID_fault env w _ e hf]
      exact ⟨rfl, rfl, rfl, rfl, rfl⟩
    | none =>
      rw [GetByID_ok env w _ hf]
      cases lookupOrder w (TrimSpace id) <;> exact ⟨rfl, rfl, rfl, rfl, rfl⟩

theorem GetInventory_frame (env : Env) (w : World) :
    sameTables w (WarehouseService.GetInventory env w).2 := by
  unfold WarehouseService.GetInventory WarehouseRepositorySQLite.GetInventory
  cases hf : env.fault w.calls <;> simp [storeCall, hf, sameTables]

theorem ListOrders_frame (env : Env) (w : World) :
    sameTables w (OrderService.ListOrders env w).2 := by
  unfold OrderService.ListOrders OrderRepositorySQLite.GetAll
  cases hf : env.fault w.calls <;> simp [storeCall, hf, sameTables]

theorem UpdateOrderStatus_ledger (env : Env) (w : World) (id s : String) :
    (OrderService.UpdateOrderStatus env w id s).2.stock_movements = w.stock_movements := by
  rcases UpdateOrderStatus_cases env w id s with ⟨-, h⟩ | ⟨order, -, -, -, -, -, h6⟩
  · exact h.2.2.2.2
  · rw [h6]
    rfl

theorem CreateOrder_ledger (env : Env) (w : World) (c : String) (items : List OrderItem) :
    ∃ ms, (OrderService.CreateOrder env w c items).2.stock_movements = w.stock_movements ++ ms
      ∧ ∀ m ∈ ms, 0 < m.Quantity ∧ m.ProductID ≠ "" ∧ m.Type_ = MovementReserve := by
  rcases CreateOrder_cases env w c items with h | ⟨hchk, o, ms, -, -, -, -, -, hms, hall⟩
  · exact ⟨[], by rw [h.2.2.2.2]; simp, by simp⟩
  · refine ⟨ms, hms, fun m hm => ?_⟩
    obtain ⟨it, hit, h1, h2, h3, -⟩ := hall m hm
    obtain ⟨v1, v2⟩ := checkItems_none_valid env items w hchk it hit
    exact ⟨by rw [h3]; exact v2, by rw [h2]; exact v1, h1⟩

theorem step_ledger (env : Env) (w : World) (op : Op) :
    ∃ ms, (step env w op).stock_movements = w.stock_movements ++ ms := by
  cases op with
  | receipt p s q price expiry =>
    rcases Receipt_cases env w p s q price expiry with h | ⟨-, -, m, h, -⟩
    · exact ⟨[], by simp [step, h]⟩
    · exact ⟨[m], by simp [step, h]⟩
  | writeOff p q =>
    rcases WriteOff_cases env w p q with h | ⟨-, -, -, m, h, -⟩
    · exact ⟨[], by simp [step, h]⟩
    · exact ⟨[m], by simp [step, h]⟩
  | reserve p o q =>
    rcases Reserve_cases env w p o q with h | ⟨-, -, -, m, h, -⟩
    · exact ⟨[], by simp [step, h]⟩
    · exact ⟨[m], by simp [step, h]⟩
  | createOrder c items =>
    obtain ⟨ms, h, -⟩ := CreateOrder_ledger env w c items
    exact ⟨ms, by simp [step, h]⟩
  | updateOrderStatus id s =>
    exact ⟨[], by simp [step, UpdateOrderStatus_ledger]⟩

theorem run_ledger (env : Env) (ops : List Op) (w : World) :
    ∃ ms, (run env w ops).stock_movements = w.stock_movements ++ ms := by
  induction ops generalizing w with
  | nil => exact ⟨[], by simp [run]⟩
  | cons op rest ih =>
    obtain ⟨ms1, h1⟩ := step_ledger env w op
    obtain ⟨ms2, h2⟩ := ih (step env w op)
    refine ⟨ms1 ++ ms2, ?_⟩
    simp only [run, List.foldl_cons] at h2 ⊢
    rw [h2, h1, List.append_assoc]

/-! ## Items, ledger entries and their validation -/

/-- C21 as stated fails: `CreateOrder` with an item of price `-5` succeeds and
stores the item with that price. -/
theorem C21_negative_price_persisted :
    (∃ order, (OrderService.CreateOrder quietEnv worldP1 "Acme" [⟨"P1", 1, -5⟩]).1
        = Except.ok order)
      ∧ (OrderService.CreateOrder quietEnv worldP1 "Acme" [⟨"P1", 1, -5⟩]).2.order_items
          = [⟨"o-xx", "P1", 1, -5⟩]
      ∧ ¬ (0 : ℚ) ≤ -5 :=
  ⟨⟨Order.mk "o-xx" "Acme" "new" [⟨"P1", 1, -5⟩] 1 3 [⟨"new", 1⟩], by decide!⟩,
    by decide!, by norm_num⟩

/-- C21, amended: whatever `CreateOrder` returns, the rows it adds to the table
of order items all have a non-empty product id and a quantity above zero (the
price is stored as given). -/
theorem C21_persisted_items_valid (env : Env) (w : World) (c : String)
    (items : List OrderItem) :
    ∃ rows : List OrderItemRow,
      (OrderService.CreateOrder env w c items).2.order_items = w.order_items ++ rows
        ∧ ∀ r ∈ rows, r.product_id ≠ "" ∧ 0 < r.quantity
          ∧ ∃ it ∈ items, r.product_id = it.ProductID ∧ r.quantity = it.Quantity
              ∧ r.price = it.Price := by
  rcases CreateOrder_cases env w c items with h | ⟨hchk, o, ms, hitems, -, -, h3, -, -, -⟩
  · exact ⟨[], by rw [h.2.2.1]; simp, by simp⟩
  · refine ⟨itemRowsOf o, h3, fun r hr => ?_⟩
    unfold itemRowsOf at hr
    rw [hitems] at hr
    obtain ⟨it, hit, hrow⟩ := List.mem_map.mp hr
    obtain ⟨v1, v2⟩ := checkItems_none_valid env items w hchk it hit
    subst hrow
    exact ⟨v1, v2, it, hit, rfl, rfl, rfl⟩

/-- C23: every operation of the two services leaves the ledger as it was or
extends it at the end: `Receipt`, `WriteOff`, `Reserve` and `CreateOrder` give
the old ledger followed by further movements, `GetInventory`,
`UpdateOrderStatus`, `GetOrder` and `ListOrders` give the old ledger; the same
holds after any sequence of the writing operations. -/
theorem C23_ledger_append_only (env : Env) (w : World) (p s o id c st : String)
    (q price : ℚ) (expiry : Option Time) (items : List OrderItem) (ops : List Op) :
    (∃ ms, (WarehouseService.Receipt env w p s q price expiry).2.stock_movements
        = w.stock_movements ++ ms)
      ∧ (∃ ms, (WarehouseService.WriteOff env w p q).2.stock_movements
          = w.stock_movements ++ ms)
      ∧ (∃ ms, (WarehouseService.Reserve env w p o q).2.stock_movements
          = w.stock_movements ++ ms)
      ∧ (WarehouseService.GetInventory env w).2.stock_movements = w.stock_movements
      ∧ (∃ ms, (OrderService.CreateOrder env w c items).2.stock_movements
          = w.stock_movements ++ ms)
      ∧ (OrderService.UpdateOrderStatus env w id st).2.stock_movements = w.stock_movements
      ∧ (OrderService.GetOrder env w id).2.stock_movements = w.stock_movements
      ∧ (OrderService.ListOrders env w).2.stock_movements = w.stock_movements
      ∧ ∃ ms, (run env w ops).stock_movements = w.stock_movements ++ ms :=
  ⟨step_ledger env w (Op.receipt p s q price expiry),
    step_ledger env w (Op.writeOff p q),
    step_ledger env w (Op.reserve p o q),
    (GetInventory_frame env w).2.2.2.2,
    step_ledger env w (Op.createOrder c items),
    UpdateOrderStatus_ledger env w id st,
    (GetOrder_frame env w id).2.2.2.2,
    (ListOrders_frame env w).2.2.2.2,
    run_ledger env ops w⟩

/-- C24: every movement that `Receipt`, `WriteOff`, `Reserve` or `CreateOrder`
appends to the ledger has a quantity above zero and a non-empty product id,
and its type is `receipt`, `write_off`, `reserve` and `reserve` respectively. -/
theorem C24_appended_movements_valid (env : Env) (w : World) (p s o c : String)
    (q price : ℚ) (expiry : Option Time) (items : List OrderItem) :
    (∃ ms, (WarehouseService.Receipt env w p s q price expiry).2.stock_movements
        = w.stock_movements ++ ms
        ∧ ∀ m ∈ ms, 0 < m.Quantity ∧ m.ProductID ≠ "" ∧ m.Type_ = MovementReceipt)
      ∧ (∃ ms, (WarehouseService.WriteOff env w p q).2.stock_movements
          = w.stock_movements ++ ms
          ∧ ∀ m ∈ ms, 0 < m.Quantity ∧ m.ProductID ≠ "" ∧ m.Type_ = MovementWriteOff)
      ∧ (∃ ms, (WarehouseService.Reserve env w p o q).2.stock_movements
          = w.stock_movements ++ ms
          ∧ ∀ m ∈ ms, 0 < m.Quantity ∧ m.ProductID ≠ "" ∧ m.Type_ = MovementReserve)
      ∧ ∃ ms, (OrderService.CreateOrder env w c items).2.stock_movements
          = w.stock_movements ++ ms
          ∧ ∀ m ∈ ms, 0 < m.Quantity ∧ m.ProductID ≠ "" ∧ m.Type_ = MovementReserve := by
  refine ⟨?_, ?_, ?_, CreateOrder_ledger env w c items⟩
  · rcases Receipt_cases env w p s q price expiry with h | ⟨hp, hq, m, h, f1, f2, f3⟩
    · exact ⟨[], by rw [h]; simp, by simp⟩
    · refine ⟨[m], h, fun m2 hm2 => ?_⟩
      rw [List.mem_singleton.mp hm2]
      exact ⟨by rw [f3]; exact hq, by rw [f2]; exact hp, f1⟩
  · rcases WriteOff_cases env w p q with h | ⟨hp, hq, -, m, h, f1, f2, f3⟩
    · exact ⟨[], by rw [h]; simp, by simp⟩
    · refine ⟨[m], h, fun m2 hm2 => ?_⟩
      rw [List.mem_singleton.mp hm2]
      exact ⟨by rw [f3]; exact hq, by rw [f2]; exact hp, f1⟩
  · rcases Reserve_cases env w p o q with h | ⟨hp, hq, -, m, h, f1, f2, f3⟩
    · exact ⟨[], by rw [h]; simp, by simp⟩
    · refine ⟨[m], h, fun m2 hm2 => ?_⟩
      rw [List.mem_singleton.mp hm2]
      exact ⟨by rw [f3]; exact hq, by rw [f2]; exact hp, f1⟩

/-- C21, amended, at a sample request: the item of the order of 10 units of `P1`
is stored with its product id, quantity and price. -/
theorem C21_persisted_items_valid_witness :
    ∃ rows : List OrderItemRow,
      (OrderService.CreateOrder quietEnv worldP1 "Acme" [⟨"P1", 10, 5⟩]).2.order_items
          = worldP1.order_items ++ rows
        ∧ ∀ r ∈ rows, r.product_id ≠ "" ∧ 0 < r.quantity
          ∧ ∃ it ∈ [(⟨"P1", 10, 5⟩ : OrderItem)], r.product_id = it.ProductID
              ∧ r.quantity = it.Quantity ∧ r.price = it.Price :=
  C21_persisted_items_valid quietEnv worldP1 "Acme" [⟨"P1", 10, 5⟩]

/-- C23 at a sample store: after a receipt, a write-off and an order, the
ledger of `worldP1` has only grown at its end. -/
theorem C23_ledger_append_only_witness :
    ∃ ms, (run quietEnv worldP1
        [Op.receipt "P1" "S1" 100 1 none, Op.writeOff "P1" 40,
          Op.createOrder "Acme" [⟨"P1", 10, 5⟩]]).stock_movements
        = worldP1.stock_movements ++ ms :=
  (C23_ledger_append_only quietEnv worldP1 "P1" "S1" "o-1" "o-1" "Acme" "completed" 100 1 none
    [⟨"P1", 10, 5⟩]
    [Op.receipt "P1" "S1" 100 1 none, Op.writeOff "P1" 40,
      Op.createOrder "Acme" [⟨"P1", 10, 5⟩]]).2.2.2.2.2.2.2.2

/-- C24 at a sample call: the movement that `Receipt` of 100 units of `P1`
appends is a receipt of positive quantity for a non-empty product id. -/
theorem C24_appended_movements_valid_witness :
    ∃ ms, (WarehouseService.Receipt quietEnv worldP1 "P1" "S1" 100 1 none).2.stock_movements
        = worldP1.stock_movements ++ ms
      ∧ ∀ m ∈ ms, 0 < m.Quantity ∧ m.ProductID ≠ "" ∧ m.Type_ = MovementReceipt :=
  (C24_appended_movements_valid quietEnv worldP1 "P1" "S1" "o-1" "Acme" 100 1 none
    [⟨"P1", 10, 5⟩]).1

/-! ## The grouped inventory -/

theorem sqlSum_some (xs : List (Option ℚ)) (hne : xs ≠ []) (hall : ∀ x ∈ xs, x ≠ none) :
    sqlSum xs = some ((sqlSum xs).getD 0) := by
  cases xs with
  | nil => exact absurd rfl hne
  | cons x rest =>
    cases x with
    | none => exact absurd rfl (hall none (List.mem_cons_self _ _))
    | some v => simp [sqlSum]

theorem signedQuantity_ne_none (m : StockMovement)
    (h : m.Type_ = MovementReceipt ∨ m.Type_ = MovementWriteOff ∨ m.Type_ = MovementReserve) :
    signedQuantity m ≠ none := by
  unfold signedQuantity
  rcases h with h | h | h <;>
    simp [h, MovementReceipt, MovementWriteOff, MovementReserve]

theorem scanStockItems_ok (rows : List (String × Option ℚ)) (h : ∀ r ∈ rows, r.2 ≠ none) :
    scanStockItems rows = Except.ok (rows.map (fun r => StockItem.mk r.1 (r.2.getD 0))) := by
  induction rows with
  | nil => rfl
  | cons r rest ih =>
    obtain ⟨p, v⟩ := r
    cases v with
    | none => exact absurd rfl (h (p, none) (List.mem_cons_self _ _))
    | some q =>
      simp only [scanStockItems, ih (fun r hr => h r (List.mem_cons_of_mem _ hr))]
      rfl

/-- C25: for a ledger whose movements all have type `receipt`, `write_off` or
`reserve`, and a store that answers, `GetInventory` returns a list of stock
items with pairwise distinct product ids, the product ids being exactly those
that have a movement, and the quantity of each item is what
`GetStockByProduct` returns for its product. -/
theorem C25_GetInventory_groups_stock (env : Env) (w : World)
    (htypes : ∀ m ∈ w.stock_movements,
      m.Type_ = MovementReceipt ∨ m.Type_ = MovementWriteOff ∨ m.Type_ = MovementReserve)
    (hf : env.fault w.calls = none) :
    ∃ items : List StockItem,
      (WarehouseService.GetInventory env w).1 = Except.ok items
        ∧ (items.map (fun it => it.ProductID)).Nodup
        ∧ (∀ p : String, p ∈ items.map (fun it => it.ProductID)
            ↔ ∃ m ∈ w.stock_movements, m.ProductID = p)
        ∧ ∀ it ∈ items,
            (WarehouseRepositorySQLite.GetStockByProduct env w it.ProductID).1
              = Except.ok it.Quantity := by
  have hrows : ∀ r ∈ inventoryQuery w.stock_movements, r.2 ≠ none := by
    intro r hr
    unfold inventoryQuery at hr
    obtain ⟨p, hp, hrp⟩ := List.mem_map.mp hr
    subst hrp
    simp only
    have hpm : ∃ m ∈ w.stock_movements, m.ProductID = p := by
      simpa using List.mem_dedup.mp hp
    obtain ⟨m, hm, hmp⟩ := hpm
    rw [sqlSum_some]
    · simp
    · intro hnil
      have : signedQuantity m ∈ (w.stock_movements.filter (fun m => m.ProductID = p)).map
          signedQuantity :=
        List.mem_map.mpr ⟨m, List.mem_filter.mpr ⟨hm, by simpa using hmp⟩, rfl⟩
      rw [hnil] at this
      simp at this
    · intro x hx
      obtain ⟨m2, hm2, hx2⟩ := List.mem_map.mp hx
      rw [← hx2]
      exact signedQuantity_ne_none m2 (htypes m2 (List.mem_filter.mp hm2).1)
  refine ⟨(inventoryQuery w.stock_movements).map (fun r => StockItem.mk r.1 (r.2.getD 0)),
    ?_, ?_, ?_, ?_⟩
  · unfold WarehouseService.GetInventory WarehouseRepositorySQLite.GetInventory
    simp only [storeCall, hf]
    exact scanStockItems_ok _ hrows
  · unfold inventoryQuery
    simp only [List.map_map]
    have : ((fun it : StockItem => it.ProductID) ∘ (fun r : String × Option ℚ =>
        StockItem.mk r.1 (r.2.getD 0)) ∘ (fun p => (p, sqlSum
          ((w.stock_movements.filter (fun m => m.ProductID = p)).map signedQuantity))))
        = id := by
      funext p
      rfl
    rw [this, List.map_id]
    exact List.nodup_dedup _
  · intro p
    unfold inventoryQuery
    simp only [List.map_map, List.mem_map, Function.comp, List.mem_dedup]
    constructor
    · rintro ⟨a, ⟨m, hm, hma⟩, hap⟩
      exact ⟨m, hm, hma.trans hap⟩
    · rintro ⟨m, hm, hmp⟩
      exact ⟨p, ⟨m, hm, hmp⟩, rfl⟩
  · intro it hit
    obtain ⟨r, hr, hit2⟩ := List.mem_map.mp hit
    unfold inventoryQuery at hr
    obtain ⟨p, -, hrp⟩ := List.mem_map.mp hr
    subst hrp
    subst hit2
    rw [GetStockByProduct_ok env w _ hf]
    rfl

/-- C25 at the sample ledger: `GetInventory` returns one item for `P1` and one
for `P2`, each with the stock of its product. -/
theorem C25_GetInventory_groups_stock_witness :
    (WarehouseService.GetInventory quietEnv
        { emptyWorld with stock_movements := sampleLedger }).1
        = Except.ok [⟨"P2", 7⟩, ⟨"P1", 115 / 2⟩]
      ∧ ∃ items : List StockItem,
          (WarehouseService.GetInventory quietEnv
              { emptyWorld with stock_movements := sampleLedger }).1 = Except.ok items
            ∧ (items.map (fun it => it.ProductID)).Nodup
            ∧ (∀ p : String, p ∈ items.map (fun it => it.ProductID)
                ↔ ∃ m ∈ sampleLedger, m.ProductID = p)
            ∧ ∀ it ∈ items,
                (WarehouseRepositorySQLite.GetStockByProduct quietEnv
                  { emptyWorld with stock_movements := sampleLedger } it.ProductID).1
                  = Except.ok it.Quantity :=
  ⟨by decide!,
    C25_GetInventory_groups_stock quietEnv { emptyWorld with stock_movements := sampleLedger }
      (by decide!) rfl⟩

/-! ## Reads, store failures and the facade invariant -/

theorem lookupOrder_sameTables (w w2 : World) (id : String) (h : sameTables w w2) :
    lookupOrder w2 id = lookupOrder w id := by
  obtain ⟨-, h2, h3, h4, -⟩ := h
  unfold lookupOrder OrderRepositorySQLite.loadItemsAndHistory
  rw [h2, h3, h4]

theorem GetOrder_congr (env env2 : Env) (w w2 : World) (id : String) (hs : sameTables w w2)
    (hf : env2.fault w2.calls = env.fault w.calls) :
    (OrderService.GetOrder env2 w2 id).1 = (OrderService.GetOrder env w id).1 := by
  unfold OrderService.GetOrder
  by_cases hid : TrimSpace id = ""
  · rw [if_pos hid, if_pos hid]
  · rw [if_neg hid, if_neg hid]
    cases hfw : env.fault w.calls with
    | some e =>
      rw [hfw] at hf
      rw [GetByID_fault env w _ e hfw, GetByID_fault env2 w2 _ e hf]
    | none =>
      rw [hfw] at hf
      rw [GetByID_ok env w _ hfw, GetByID_ok env2 w2 _ hf, lookupOrder_sameTables w w2 _ hs]
      cases lookupOrder w (TrimSpace id) <;> rfl

/-- C26: `GetOrder` leaves every table as it was, and a second `GetOrder` with
the same id on a store with the same tables, answered by the store as the first
one was, returns the same result: the same order with the same status, items
and history, or the same error. -/
theorem C26_GetOrder_idempotent (env env2 : Env) (w w2 : World) (id : String)
    (hs : sameTables w w2) (hf : env2.fault w2.calls = env.fault w.calls) :
    sameTables w (OrderService.GetOrder env w id).2
      ∧ (OrderService.GetOrder env2 w2 id).1 = (OrderService.GetOrder env w id).1 :=
  ⟨GetOrder_frame env w id, GetOrder_congr env env2 w w2 id hs hf⟩

/-- C26 at the sample store: `GetOrder("o-xx")` called twice in a row returns the
sample order both times. -/
theorem C26_GetOrder_idempotent_witness :
    (OrderService.GetOrder quietEnv worldOrdered "o-xx").1 = Except.ok sampleOrder
      ∧ (OrderService.GetOrder quietEnv
          (OrderService.GetOrder quietEnv worldOrdered "o-xx").2 "o-xx").1
        = (OrderService.GetOrder quietEnv worldOrdered "o-xx").1 :=
  ⟨by decide!,
    (C26_GetOrder_idempotent quietEnv quietEnv worldOrdered
      (OrderService.GetOrder quietEnv worldOrdered "o-xx").2 "o-xx"
      (GetOrder_frame quietEnv worldOrdered "o-xx") rfl).2⟩

/-- C27: for well-formed input, when the store fails the stock read of
`WriteOff` or `Reserve`, the call returns that error and the ledger is as
before; when the read succeeds with enough stock and the store fails the
append, the call returns that error, and the ledger is as before as well. -/
theorem C27_store_errors_propagated (env : Env) (w : World) (p o : String) (q : ℚ)
    (e : String) (hp : p ≠ "") (ho : o ≠ "") (hq : 0 < q) :
    (env.fault w.calls = some e →
        (WarehouseService.WriteOff env w p q).1 = some (Error.backend e)
          ∧ (WarehouseService.WriteOff env w p q).2.stock_movements = w.stock_movements
          ∧ (WarehouseService.Reserve env w p o q).1 = some (Error.backend e)
          ∧ (WarehouseService.Reserve env w p o q).2.stock_movements = w.stock_movements)
      ∧ (env.fault w.calls = none → q ≤ inventoryOf w.stock_movements p →
          env.fault (w.calls + 1) = some e →
          (WarehouseService.WriteOff env w p q).1 = some (Error.backend e)
            ∧ (WarehouseService.WriteOff env w p q).2.stock_movements = w.stock_movements
            ∧ (WarehouseService.Reserve env w p o q).1 = some (Error.backend e)
            ∧ (WarehouseService.Reserve env w p o q).2.stock_movements = w.stock_movements) := by
  have hv1 : ¬ (p = "" ∨ q ≤ 0) := by
    rintro (h | h)
    · exact hp h
    · exact absurd hq (not_lt.mpr h)
  have hv2 : ¬ (p = "" ∨ o = "" ∨ q ≤ 0) := by
    rintro (h | h | h)
    · exact hp h
    · exact ho h
    · exact absurd hq (not_lt.mpr h)
  refine ⟨fun hf => ?_, fun hf hs hf2 => ?_⟩
  · refine ⟨?_, ?_, ?_, ?_⟩
    · unfold WarehouseService.WriteOff
      rw [if_neg hv1, GetStockByProduct_fault env w p e hf]
    · unfold WarehouseService.WriteOff
      rw [if_neg hv1, GetStockByProduct_fault env w p e hf]
    · unfold WarehouseService.Reserve
      rw [if_neg hv2, GetStockByProduct_fault env w p e hf]
    · unfold WarehouseService.Reserve
      rw [if_neg hv2, GetStockByProduct_fault env w p e hf]
  · rw [← stockQuery_eq_inventoryOf] at hs
    obtain ⟨w1, t1, hl1, hc1, hrun1⟩ := WriteOff_run env w p q hp hq hs hf
    obtain ⟨w2, t2, hl2, hc2, hrun2⟩ := Reserve_run env w p o q hp ho hq hs hf
    rw [hrun1, hrun2]
    have g1 := AddMovement_fault env w1
      { ID := "", Type_ := MovementWriteOff, ProductID := p, SupplierID := "", OrderID := "",
        Quantity := q, Price := 0, ExpiryDate := none, CreatedAt := t1 } e (by rw [hc1]; exact hf2)
    have g2 := AddMovement_fault env w2
      { ID := "", Type_ := MovementReserve, ProductID := p, SupplierID := "", OrderID := o,
        Quantity := q, Price := 0, ExpiryDate := none, CreatedAt := t2 } e (by rw [hc2]; exact hf2)
    exact ⟨g1.1, by rw [g1.2, hl1], g2.1, by rw [g2.2, hl2]⟩

/-- C27 at sample calls on a store with 100 units of `P1`: the read fails in
the first pair of calls, the append in the second. -/
theorem C27_store_errors_propagated_witness :
    (WarehouseService.WriteOff (faultAtEnv 2)
        (run quietEnv worldP1 [Op.receipt "P1" "S1" 100 1 none]) "P1" 40).1
        = some (Error.backend "context deadline exceeded")
      ∧ (WarehouseService.Reserve (faultAtEnv 3)
          (run quietEnv worldP1 [Op.receipt "P1" "S1" 100 1 none]) "P1" "o-1" 40).1
        = some (Error.backend "context deadline exceeded") :=
  ⟨((C27_store_errors_propagated (faultAtEnv 2)
      (run quietEnv worldP1 [Op.receipt "P1" "S1" 100 1 none]) "P1" "o-1" 40
      "context deadline exceeded" (by decide) (by decide) (by norm_num)).1 (by decide!)).1,
    ((C27_store_errors_propagated (faultAtEnv 3)
      (run quietEnv worldP1 [Op.receipt "P1" "S1" 100 1 none]) "P1" "o-1" 40
      "context deadline exceeded" (by decide) (by decide) (by norm_num)).2
      (by decide!) (by decide!) (by decide!)).2.2.1⟩

theorem facade_step_nonneg (env : Env) (w : World) (op : Op) (hop : op.isFacade = true)
    (h : ∀ p, 0 ≤ stockQuery w.stock_movements p) :
    ∀ p, 0 ≤ stockQuery (step env w op).stock_movements p := by
  intro p2
  cases op with
  | receipt p s q price expiry =>
    rcases Receipt_cases env w p s q price expiry with h1 | ⟨-, hq, m, h1, f1, f2, f3⟩
    · simp only [step, h1]
      exact h p2
    · simp only [step, h1, stockQuery_snoc]
      have hm : signedOrZero m = q := by
        simp [signedOrZero, signedQuantity, f1, f3, MovementReceipt]
      have := h p2
      by_cases hp : m.ProductID = p2
      · simp only [hp, if_true, hm]
        linarith
      · simp only [hp, if_false]
        linarith
  | writeOff p q =>
    rcases WriteOff_cases env w p q with h1 | ⟨-, hq, hs, m, h1, f1, f2, f3⟩
    · simp only [step, h1]
      exact h p2
    · simp only [step, h1, stockQuery_snoc]
      have hm : signedOrZero m = -q := by
        simp [signedOrZero, signedQuantity, f1, f3, MovementWriteOff]
      have := h p2
      by_cases hp : m.ProductID = p2
      · have hpp : p = p2 := f2.symm.trans hp
        subst hpp
        simp only [hp, if_true, hm]
        linarith
      · simp only [hp, if_false]
        linarith
  | reserve p o q =>
    rcases Reserve_cases env w p o q with h1 | ⟨-, hq, hs, m, h1, f1, f2, f3⟩
    · simp only [step, h1]
      exact h p2
    · simp only [step, h1, stockQuery_snoc]
      have hm : signedOrZero m = -q := by
        simp [signedOrZero, signedQuantity, f1, f3, MovementReserve]
      have := h p2
      by_cases hp : m.ProductID = p2
      · have hpp : p = p2 := f2.symm.trans hp
        subst hpp
        simp only [hp, if_true, hm]
        linarith
      · simp only [hp, if_false]
        linarith
  | createOrder c items => simp [Op.isFacade] at hop
  | updateOrderStatus id s => simp [Op.isFacade] at hop

theorem facade_run_nonneg (env : Env) (ops : List Op) (w : World)
    (hops : ∀ op ∈ ops, op.isFacade = true)
    (h : ∀ p, 0 ≤ stockQuery w.stock_movements p) :
    ∀ p, 0 ≤ stockQuery (run env w ops).stock_movements p := by
  induction ops generalizing w with
  | nil => simpa [run] using h
  | cons op rest ih =>
    have h1 := facade_step_nonneg env w op (hops op (List.mem_cons_self _ _)) h
    have h2 := ih (step env w op) (fun op2 h2 => hops op2 (List.mem_cons_of_mem _ h2)) h1
    simpa [run] using h2

/-- C28: starting from an empty ledger, after every sequence of `Receipt`,
`WriteOff` and `Reserve` calls made one after the other, whatever the store
and the clock do, the inventory of every product is at least zero. -/
theorem C28_facade_keeps_stock_nonnegative (env : Env) (w : World) (ops : List Op)
    (hempty : w.stock_movements = [])
    (hops : ∀ op ∈ ops, op.isFacade = true) :
    ∀ p : String, 0 ≤ inventoryOf (run env w ops).stock_movements p := by
  intro p
  rw [← stockQuery_eq_inventoryOf]
  exact facade_run_nonneg env ops w hops (fun p2 => by rw [hempty, stockQuery_nil]) p

/-- C28 at the scenario of the specification: receipt of 100, write-off of 40,
refused write-off of 100, reservation of 60; no inventory is negative. -/
theorem C28_facade_keeps_stock_nonnegative_witness :
    inventoryOf (run quietEnv worldP1
        [Op.receipt "P1" "S1" 100 1 none, Op.writeOff "P1" 40, Op.writeOff "P1" 100,
          Op.reserve "P1" "o-1" 60]).stock_movements "P1" = 0
      ∧ ∀ p : String, 0 ≤ inventoryOf (run quietEnv worldP1
        [Op.receipt "P1" "S1" 100 1 none, Op.writeOff "P1" 40, Op.writeOff "P1" 100,
          Op.reserve "P1" "o-1" 60]).stock_movements p :=
  ⟨by decide!,
    C28_facade_keeps_stock_nonnegative quietEnv worldP1
      [Op.receipt "P1" "S1" 100 1 none, Op.writeOff "P1" 40, Op.writeOff "P1" 100,
        Op.reserve "P1" "o-1" 60] rfl (by decide)⟩

/-! ## The shape of the status history -/

theorem AddMovement_ticks_le (env : Env) (w : World) (m : StockMovement) :
    w.ticks ≤ (WarehouseRepositorySQLite.AddMovement env w m).2.ticks := by
  unfold WarehouseRepositorySQLite.AddMovement
  by_cases h1 : m.ID = "" <;> cases h : env.fault w.calls <;>
    simp [h1, timeNow, storeCall, h] <;> omega

theorem reserveItems_ticks_le (env : Env) (oid : String) (items : List OrderItem) (w : World) :
    w.ticks ≤ (OrderService.CreateOrder.reserveItems env oid w items).2.ticks := by
  induction items generalizing w with
  | nil => simp [OrderService.CreateOrder.reserveItems]
  | cons it rest ih =>
    unfold OrderService.CreateOrder.reserveItems
    have h1 := AddMovement_ticks_le env (timeNow env w).2
      { ID := "", Type_ := MovementReserve, ProductID := it.ProductID, SupplierID := "",
        OrderID := oid, Quantity := it.Quantity, Price := 0, ExpiryDate := none,
        CreatedAt := (timeNow env w).1 }
    have h0 : (timeNow env w).2.ticks = w.ticks + 1 := rfl
    rcases hadd : WarehouseRepositorySQLite.AddMovement env (timeNow env w).2
      { ID := "", Type_ := MovementReserve, ProductID := it.ProductID, SupplierID := "",
        OrderID := oid, Quantity := it.Quantity, Price := 0, ExpiryDate := none,
        CreatedAt := (timeNow env w).1 } with ⟨r, w1⟩
    rw [hadd] at h1
    simp only at h1
    cases r with
    | some e =>
      show w.ticks ≤ w1.ticks
      omega
    | none =>
      have := ih w1
      show w.ticks ≤ (OrderService.CreateOrder.reserveItems env oid w1 rest).2.ticks
      omega

theorem Create_ticks_le (env : Env) (w : World) (o : Order) :
    w.ticks ≤ (OrderRepositorySQLite.Create env w o).2.2.ticks := by
  unfold OrderRepositorySQLite.Create
  by_cases h1 : o.ID = "" <;> cases h : env.fault w.calls <;>
    simp [h1, timeNow, storeCall, h] <;> omega

theorem CreateOrder_ok_ticks_le (env : Env) (w : World) (c : String) (items : List OrderItem)
    (order : Order) (h : (OrderService.CreateOrder env w c items).1 = Except.ok order) :
    w.ticks ≤ (OrderService.CreateOrder env w c items).2.ticks := by
  obtain ⟨w1, w2, -, hc, hcr, -, hw⟩ := CreateOrder_ok_inv env w c items order h
  have ct := checkItems_ticks env items w
  rw [hc] at ct
  simp only at ct
  have h2 := Create_ticks_le env (timeNow env w1).2
    (NewOrder (TrimSpace c) items (timeNow env w1).1)
  rw [hcr] at h2
  simp only at h2
  have h0 : (timeNow env w1).2.ticks = w1.ticks + 1 := rfl
  have h3 := reserveItems_ticks_le env order.ID order.Items w2
  rw [hw]
  omega

theorem Update_ticks (env : Env) (w : World) (o : Order) :
    (OrderRepositorySQLite.Update env w o).2.2.ticks = w.ticks + 1 := by
  unfold OrderRepositorySQLite.Update
  cases h : env.fault w.calls with
  | some e => simp [timeNow, storeCall, h]
  | none =>
    simp only [timeNow, storeCall, h]
    split <;> rfl

theorem UpdateOrderStatus_ticks_le (env : Env) (w : World) (id s : String) :
    w.ticks ≤ (OrderService.UpdateOrderStatus env w id s).2.ticks := by
  unfold OrderService.UpdateOrderStatus
  by_cases hid : TrimSpace id = ""
  · rw [if_pos hid]
  · rw [if_neg hid]
    cases hf : env.fault w.calls with
    | some e =>
      rw [GetByID_fault env w _ e hf]
    | none =>
      rw [GetByID_ok env w _ hf]
      cases lookupOrder w (TrimSpace id) with
      | none => exact Nat.le_refl _
      | some order =>
        simp only
        by_cases hst : order.Status = OrderStatusNew ∨ order.Status = OrderStatusReserved
        · rw [if_pos hst]
          have hu := Update_ticks env (timeNow env { w with calls := w.calls + 1 }).2
            { order with
              Status := s
              UpdatedAt := (timeNow env { w with calls := w.calls + 1 }).1
              StatusHist := order.StatusHist ++
                [{ Status := s, ChangedAt := (timeNow env { w with calls := w.calls + 1 }).1 }] }
          have h0 : (timeNow env { w with calls := w.calls + 1 }).2.ticks = w.ticks + 1 := rfl
          rcases hr : OrderRepositorySQLite.Update env
            (timeNow env { w with calls := w.calls + 1 }).2
            { order with
              Status := s
              UpdatedAt := (timeNow env { w with calls := w.calls + 1 }).1
              StatusHist := order.StatusHist ++
                [{ Status := s, ChangedAt := (timeNow env { w with calls := w.calls + 1 }).1 }] }
            with ⟨r, o1, w2⟩
          rw [hr] at hu
          simp only at hu
          cases r with
          | some e =>
            show w.ticks ≤ w2.ticks
            omega
          | none =>
            show w.ticks ≤ w2.ticks
            omega
        · rw [if_neg hst]

theorem updateAll_historyShape (env : Env) (hmono : ∀ a b, a ≤ b → env.clock a ≤ env.clock b)
    (id oid : String) (hid : TrimSpace id = oid) (ss : List String) :
    ∀ (w : World) (k : Nat), historyShape env oid w k →
      historyShape env oid (updateAll env id w ss).2 (k + (updateAll env id w ss).1) := by
  induction ss with
  | nil =>
    intro w k h
    exact h
  | cons s rest ih =>
    intro w k h
    obtain ⟨o, hl, hhead, hlast, hlen, hle⟩ := h
    have htl := UpdateOrderStatus_ticks_le env w id s
    rcases UpdateOrderStatus_cases env w id s with ⟨⟨e, he⟩, hsame⟩ | ⟨o2, -, -, -, h4, -, h6⟩
    · have hstep : historyShape env oid (OrderService.UpdateOrderStatus env w id s).2 k := by
        refine ⟨o, ?_, hhead, hlast, hlen, fun x hx => ?_⟩
        · rw [lookupOrder_sameTables w _ oid hsame]
          exact hl
        · exact Nat.le_trans (hle x hx) (hmono _ _ htl)
      have := ih _ _ hstep
      show historyShape env oid (updateAll env id (OrderService.UpdateOrderStatus env w id s).2 rest).2
        (k + ((match (OrderService.UpdateOrderStatus env w id s).1 with
            | Except.ok _ => 1
            | Except.error _ => 0)
          + (updateAll env id (OrderService.UpdateOrderStatus env w id s).2 rest).1))
      rw [he]
      simpa using this
    · rw [hid, hl] at h4
      simp only [Option.some.injEq] at h4
      subst h4
      have hne : o.StatusHist ≠ [] := by
        intro hnil
        rw [hnil] at hlen
        simp only [List.length_nil] at hlen
        omega
      have hstep : historyShape env oid (OrderService.UpdateOrderStatus env w id s).2 (k + 1) := by
        rw [h6]
        refine ⟨updatedOrder env w o s, lookupOrder_afterUpdate env w oid s o hl hle, ?_, ?_, ?_, ?_⟩
        · show (o.StatusHist ++ [StatusEntry.mk s (env.clock w.ticks)]).head?.map
            (fun h => h.Status) = some OrderStatusNew
          rw [List.head?_append_of_ne_nil _ hne]
          exact hhead
        · show (o.StatusHist ++ [StatusEntry.mk s (env.clock w.ticks)]).getLast?.map
            (fun h => h.Status) = some s
          simp
        · show (o.StatusHist ++ [StatusEntry.mk s (env.clock w.ticks)]).length = 1 + (k + 1)
          rw [List.length_append, hlen]
          rfl
        · intro x hx
          have hx2 : x ∈ o.StatusHist ++ [StatusEntry.mk s (env.clock w.ticks)] := hx
          have hc : env.clock w.ticks ≤ env.clock (w.ticks + 2) := hmono _ _ (Nat.le_add_right _ _)
          rcases List.mem_append.mp hx2 with hx3 | hx3
          · exact Nat.le_trans (hle x hx3) hc
          · rw [List.mem_singleton] at hx3
            rw [hx3]
            exact hc
      have := ih _ _ hstep
      show historyShape env oid (updateAll env id (OrderService.UpdateOrderStatus env w id s).2 rest).2
        (k + ((match (OrderService.UpdateOrderStatus env w id s).1 with
            | Except.ok _ => 1
            | Except.error _ => 0)
          + (updateAll env id (OrderService.UpdateOrderStatus env w id s).2 rest).1))
      rw [h6] at this ⊢
      simpa [Nat.add_assoc] using this

/-- C29 as stated fails: when the clock reading of an update is earlier than
the creation entry, the order read after one successful `UpdateOrderStatus`
has the current status `reserved`, while its history starts with the entry
`reserved` and ends with the entry `new`; the order returned by a second
successful update starts with `reserved` as well. -/
theorem C29_history_shape_broken_by_clock :
    (OrderService.CreateOrder backClockEnv worldP1 "Acme" [⟨"P1", 10, 5⟩]).1
        = Except.ok { ID := "o-a", Customer := "Acme", Status := "new",
                      Items := [⟨"P1", 10, 5⟩], CreatedAt := 100, UpdatedAt := 98,
                      StatusHist := [⟨"new", 100⟩] }
      ∧ updateAll backClockEnv "o-a" worldBackClock ["reserved"]
        = (1, (OrderService.UpdateOrderStatus backClockEnv worldBackClock "o-a" "reserved").2)
      ∧ (OrderService.GetOrder backClockEnv
          (updateAll backClockEnv "o-a" worldBackClock ["reserved"]).2 "o-a").1
        = Except.ok { ID := "o-a", Customer := "Acme", Status := "reserved",
                      Items := [⟨"P1", 10, 5⟩], CreatedAt := 100, UpdatedAt := 93,
                      StatusHist := [⟨"reserved", 94⟩, ⟨"new", 100⟩] }
      ∧ (OrderService.UpdateOrderStatus backClockEnv
          (updateAll backClockEnv "o-a" worldBackClock ["reserved"]).2 "o-a" "completed").1
        = Except.ok { ID := "o-a", Customer := "Acme", Status := "completed",
                      Items := [⟨"P1", 10, 5⟩], CreatedAt := 100, UpdatedAt := 91,
                      StatusHist := [⟨"reserved", 94⟩, ⟨"new", 100⟩, ⟨"completed", 92⟩] } := by
  decide!

/-! ## The role middleware -/

theorem checkRoles_mem (r : Request) (role : String) (roles : List String)
    (h : role ∈ roles) : RoleMiddleware.checkRoles r role roles = [Effect.callNext r] := by
  induction roles with
  | nil => cases h
  | cons a rest ih =>
    unfold RoleMiddleware.checkRoles
    by_cases ha : role = a
    · rw [if_pos ha]
    · rw [if_neg ha]
      rcases List.mem_cons.mp h with h1 | h1
      · exact absurd h1 ha
      · exact ih h1

theorem checkRoles_not_mem (r : Request) (role : String) (roles : List String)
    (h : role ∉ roles) : RoleMiddleware.checkRoles r role roles = forbidden "access denied" := by
  induction roles with
  | nil => rfl
  | cons a rest ih =>
    unfold RoleMiddleware.checkRoles
    have ha : role ≠ a := fun e => h (e ▸ List.mem_cons_self _ _)
    rw [if_neg ha]
    exact ih (fun hm => h (List.mem_cons_of_mem _ hm))

theorem forbidden_no_callNext (msg : String) (q : Request) :
    Effect.callNext q ∉ forbidden msg := by
  simp [forbidden]

/-- C30: for an `OPTIONS` request `RoleMiddleware` calls the wrapped handler,
whatever the role; for any other request it calls the wrapped handler, once and
with the request, when the context carries a non-empty string role that is one
of `allowedRoles`, and otherwise it answers `403 Forbidden` without calling the
handler; so for a request other than `OPTIONS` the handler is called if and
only if the context carries such a role. -/
theorem C30_RoleMiddleware_restricts_by_role (allowedRoles : List String) (r : Request) :
    (r.Method = MethodOptions → RoleMiddleware allowedRoles r = [Effect.callNext r])
      ∧ (r.Method ≠ MethodOptions →
          ((∃ role, r.Role = CtxValue.str role ∧ role ≠ "" ∧ role ∈ allowedRoles) →
              RoleMiddleware allowedRoles r = [Effect.callNext r])
            ∧ ((¬ ∃ role, r.Role = CtxValue.str role ∧ role ≠ "" ∧ role ∈ allowedRoles) →
                RoleMiddleware allowedRoles r = forbidden "access denied"
                  ∧ Effect.writeHeader StatusForbidden ∈ RoleMiddleware allowedRoles r
                  ∧ ∀ q, Effect.callNext q ∉ RoleMiddleware allowedRoles r)
            ∧ ((∃ q, Effect.callNext q ∈ RoleMiddleware allowedRoles r)
                ↔ ∃ role, r.Role = CtxValue.str role ∧ role ≠ "" ∧ role ∈ allowedRoles)) := by
  have hyes : r.Method ≠ MethodOptions →
      (∃ role, r.Role = CtxValue.str role ∧ role ≠ "" ∧ role ∈ allowedRoles) →
      RoleMiddleware allowedRoles r = [Effect.callNext r] := by
    rintro hm ⟨role, hr, hne, hmem⟩
    unfold RoleMiddleware
    rw [if_neg hm, hr]
    simp only
    rw [if_neg hne]
    exact checkRoles_mem r role allowedRoles hmem
  have hno : r.Method ≠ MethodOptions →
      (¬ ∃ role, r.Role = CtxValue.str role ∧ role ≠ "" ∧ role ∈ allowedRoles) →
      RoleMiddleware allowedRoles r = forbidden "access denied" := by
    intro hm hn
    unfold RoleMiddleware
    rw [if_neg hm]
    cases hr : r.Role with
    | absent => rfl
    | other => rfl
    | str role =>
      simp only
      by_cases hne : role = ""
      · rw [if_pos hne]
      · rw [if_neg hne]
        exact checkRoles_not_mem r role allowedRoles (fun hmem => hn ⟨role, hr, hne, hmem⟩)
  refine ⟨fun hm => ?_, fun hm => ⟨hyes hm, fun hn => ?_, ?_, ?_⟩⟩
  · unfold RoleMiddleware
    rw [if_pos hm]
  · rw [hno hm hn]
    exact ⟨rfl, by simp [forbidden], fun q => forbidden_no_callNext _ q⟩
  · rintro ⟨q, hq⟩
    by_contra hn
    rw [hno hm hn] at hq
    exact forbidden_no_callNext _ q hq
  · intro h
    exact ⟨r, by rw [hyes hm h]; exact List.mem_singleton.mpr rfl⟩

/-- C30 at three requests guarded by the roles `admin` and `manager`: a `GET`
of a manager reaches the handler, a `GET` of a storekeeper is answered `403`,
and an `OPTIONS` request without a role reaches the handler. -/
theorem C30_RoleMiddleware_restricts_by_role_witness :
    RoleMiddleware ["admin", "manager"] ⟨"GET", CtxValue.str "manager"⟩
        = [Effect.callNext ⟨"GET", CtxValue.str "manager"⟩]
      ∧ RoleMiddleware ["admin", "manager"] ⟨"GET", CtxValue.str "storekeeper"⟩
        = forbidden "access denied"
      ∧ RoleMiddleware ["admin", "manager"] ⟨"OPTIONS", CtxValue.absent⟩
        = [Effect.callNext ⟨"OPTIONS", CtxValue.absent⟩] :=
  ⟨((C30_RoleMiddleware_restricts_by_role ["admin", "manager"]
        ⟨"GET", CtxValue.str "manager"⟩).2 (by decide)).1
      ⟨"manager", rfl, by decide, by decide⟩,
    (((C30_RoleMiddleware_restricts_by_role ["admin", "manager"]
        ⟨"GET", CtxValue.str "storekeeper"⟩).2 (by decide)).2.1
      (by
        rintro ⟨role, hr, -, hmem⟩
        have hrole : role = "storekeeper" := by
          injection hr with h
          exact h.symm
        rw [hrole] at hmem
        revert hmem
        decide)).1,
    (C30_RoleMiddleware_restricts_by_role ["admin", "manager"]
      ⟨"OPTIONS", CtxValue.absent⟩).1 rfl⟩

/-! ## Lemmas on the foreign keys -/

theorem order_id_ne_empty (s : String) : "o-" ++ s ≠ "" := by
  intro h
  have h2 := congrArg String.length h
  simp only [String.length_append] at h2
  have h3 : ("o-" : String).length = 2 := by decide
  have h4 : ("" : String).length = 0 := by decide
  omega

theorem foreignKeysHold_movement (suppliers : List String) (w : World)
    (h : foreignKeysHold suppliers w = true) (m : StockMovement) (hm : m ∈ w.stock_movements) :
    (∃ p ∈ w.products, p.ID = m.ProductID) ∧ m.SupplierID ∈ suppliers
      ∧ ∃ r ∈ w.orders, r.id = m.OrderID := by
  simp only [foreignKeysHold, Bool.and_eq_true, List.all_eq_true] at h
  have h1 := h.1 m hm
  simp only [movementKeysHold, Bool.and_eq_true, List.any_eq_true, decide_eq_true_eq] at h1
  obtain ⟨a, ⟨s, hs, hse⟩, c⟩ := h1
  exact ⟨a, hse ▸ hs, c⟩

theorem foreignKeysHold_item (suppliers : List String) (w : World)
    (h : foreignKeysHold suppliers w = true) (r : OrderItemRow) (hr : r ∈ w.order_items) :
    ∃ p ∈ w.products, p.ID = r.product_id := by
  simp only [foreignKeysHold, Bool.and_eq_true, List.all_eq_true] at h
  have h1 := h.2.1 r hr
  simp only [orderItemKeysHold, Bool.and_eq_true, List.any_eq_true, decide_eq_true_eq] at h1
  exact h1.2

/-- The outcomes of `AddMovement`: an error and the ledger as before, or no
error and the movement appended with its type, ids and quantity as given. -/
theorem AddMovement_outcome (env : Env) (w : World) (m : StockMovement) :
    ((∃ e, env.fault w.calls = some e
          ∧ (WarehouseRepositorySQLite.AddMovement env w m).1 = some (Error.backend e))
        ∧ (WarehouseRepositorySQLite.AddMovement env w m).2.stock_movements = w.stock_movements)
      ∨ (env.fault w.calls = none ∧ (WarehouseRepositorySQLite.AddMovement env w m).1 = none
        ∧ ∃ m2 : StockMovement,
            (WarehouseRepositorySQLite.AddMovement env w m).2.stock_movements
                = w.stock_movements ++ [m2]
              ∧ m2.Type_ = m.Type_ ∧ m2.ProductID = m.ProductID ∧ m2.SupplierID = m.SupplierID
              ∧ m2.OrderID = m.OrderID ∧ m2.Quantity = m.Quantity) := by
  cases hf : env.fault w.calls with
  | some e =>
    obtain ⟨h1, h2⟩ := AddMovement_fault env w m e hf
    exact Or.inl ⟨⟨e, rfl, h1⟩, h2⟩
  | none =>
    obtain ⟨h1, m2, h2, f1, f2, f3, f4, f5, -, -⟩ := AddMovement_append env w m hf
    exact Or.inr ⟨rfl, h1, m2, h2, f1, f2, f3, f4, f5⟩

/-- The outcomes of `Receipt`: an error and the ledger as before, or no error
and one movement appended for the product, with the supplier as given and no
order; the other tables are as before in both. -/
theorem Receipt_outcome (env : Env) (w : World) (p s : String) (q price : ℚ)
    (expiry : Option Time) :
    ((WarehouseService.Receipt env w p s q price expiry).2.products = w.products
        ∧ (WarehouseService.Receipt env w p s q price expiry).2.orders = w.orders)
      ∧ (((WarehouseService.Receipt env w p s q price expiry).1 ≠ none
          ∧ (WarehouseService.Receipt env w p s q price expiry).2.stock_movements
              = w.stock_movements)
        ∨ ((WarehouseService.Receipt env w p s q price expiry).1 = none
          ∧ ∃ m : StockMovement,
              (WarehouseService.Receipt env w p s q price expiry).2.stock_movements
                  = w.stock_movements ++ [m]
                ∧ m.ProductID = p ∧ m.SupplierID = s ∧ m.OrderID = "")) := by
  unfold WarehouseService.Receipt
  by_cases hv : p = "" ∨ q ≤ 0
  · rw [if_pos hv]
    exact ⟨⟨rfl, rfl⟩, Or.inl ⟨by simp, rfl⟩⟩
  · rw [if_neg hv]
    cases hf : env.fault w.calls with
    | some e =>
      rw [ProductGetByID_fault env w p e hf]
      exact ⟨⟨rfl, rfl⟩, Or.inl ⟨by simp, rfl⟩⟩
    | none =>
      rw [ProductGetByID_ok env w p hf]
      simp only
      obtain ⟨f1, f2, -, -, -⟩ := AddMovement_frame env
        (timeNow env { w with calls := w.calls + 1 }).2
        { ID := "", Type_ := MovementReceipt, ProductID := p, SupplierID := s, OrderID := "",
          Quantity := q, Price := price, ExpiryDate := expiry,
          CreatedAt := (timeNow env { w with calls := w.calls + 1 }).1 }
      refine ⟨⟨f1, f2⟩, ?_⟩
      rcases AddMovement_outcome env (timeNow env { w with calls := w.calls + 1 }).2
        { ID := "", Type_ := MovementReceipt, ProductID := p, SupplierID := s, OrderID := "",
          Quantity := q, Price := price, ExpiryDate := expiry,
          CreatedAt := (timeNow env { w with calls := w.calls + 1 }).1 }
        with ⟨⟨e, -, h1⟩, h2⟩ | ⟨-, h1, m2, h2, -, g2, g3, g4, -⟩
      · exact Or.inl ⟨by rw [h1]; simp, h2⟩
      · exact Or.inr ⟨h1, m2, h2, g2, g3, g4⟩

/-- What `WriteOff` leaves behind: the orders as before, and the ledger as
before or with one movement appended that names no supplier. -/
theorem WriteOff_keys (env : Env) (w : World) (p : String) (q : ℚ) :
    (WarehouseService.WriteOff env w p q).2.orders = w.orders
      ∧ ∃ ms, (WarehouseService.WriteOff env w p q).2.stock_movements = w.stock_movements ++ ms
        ∧ ∀ m ∈ ms, m.SupplierID = "" := by
  unfold WarehouseService.WriteOff
  by_cases hv : p = "" ∨ q ≤ 0
  · rw [if_pos hv]
    exact ⟨rfl, [], by simp, by simp⟩
  · rw [if_neg hv]
    cases hf : env.fault w.calls with
    | some e =>
      rw [GetStockByProduct_fault env w p e hf]
      exact ⟨rfl, [], by simp, by simp⟩
    | none =>
      rw [GetStockByProduct_ok env w p hf]
      simp only
      by_cases hs : stockQuery w.stock_movements p < q
      · rw [if_pos hs]
        exact ⟨rfl, [], by simp, by simp⟩
      · rw [if_neg hs]
        obtain ⟨-, f2, -, -, -⟩ := AddMovement_frame env
          (timeNow env { w with calls := w.calls + 1 }).2
          { ID := "", Type_ := MovementWriteOff, ProductID := p, SupplierID := "", OrderID := "",
            Quantity := q, Price := 0, ExpiryDate := none,
            CreatedAt := (timeNow env { w with calls := w.calls + 1 }).1 }
        refine ⟨f2, ?_⟩
        rcases AddMovement_outcome env (timeNow env { w with calls := w.calls + 1 }).2
          { ID := "", Type_ := MovementWriteOff, ProductID := p, SupplierID := "", OrderID := "",
            Quantity := q, Price := 0, ExpiryDate := none,
            CreatedAt := (timeNow env { w with calls := w.calls + 1 }).1 }
          with ⟨-, h2⟩ | ⟨-, -, m2, h2, -, -, g3, -, -⟩
        · exact ⟨[], by rw [h2]; exact (List.append_nil _).symm, by simp⟩
        · exact ⟨[m2], h2, fun m hm => by rw [List.mem_singleton.mp hm]; exact g3⟩

/-- What `Reserve` leaves behind: the orders as before, and the ledger as
before or with one movement appended that names no supplier. -/
theorem Reserve_keys (env : Env) (w : World) (p o : String) (q : ℚ) :
    (WarehouseService.Reserve env w p o q).2.orders = w.orders
      ∧ ∃ ms, (WarehouseService.Reserve env w p o q).2.stock_movements = w.stock_movements ++ ms
        ∧ ∀ m ∈ ms, m.SupplierID = "" := by
  unfold WarehouseService.Reserve
  by_cases hv : p = "" ∨ o = "" ∨ q ≤ 0
  · rw [if_pos hv]
    exact ⟨rfl, [], by simp, by simp⟩
  · rw [if_neg hv]
    cases hf : env.fault w.calls with
    | some e =>
      rw [GetStockByProduct_fault env w p e hf]
      exact ⟨rfl, [], by simp, by simp⟩
    | none =>
      rw [GetStockByProduct_ok env w p hf]
      simp only
      by_cases hs : stockQuery w.stock_movements p < q
      · rw [if_pos hs]
        exact ⟨rfl, [], by simp, by simp⟩
      · rw [if_neg hs]
        obtain ⟨-, f2, -, -, -⟩ := AddMovement_frame env
          (timeNow env { w with calls := w.calls + 1 }).2
          { ID := "", Type_ := MovementReserve, ProductID := p, SupplierID := "", OrderID := o,
            Quantity := q, Price := 0, ExpiryDate := none,
            CreatedAt := (timeNow env { w with calls := w.calls + 1 }).1 }
        refine ⟨f2, ?_⟩
        rcases AddMovement_outcome env (timeNow env { w with calls := w.calls + 1 }).2
          { ID := "", Type_ := MovementReserve, ProductID := p, SupplierID := "", OrderID := o,
            Quantity := q, Price := 0, ExpiryDate := none,
            CreatedAt := (timeNow env { w with calls := w.calls + 1 }).1 }
          with ⟨-, h2⟩ | ⟨-, -, m2, h2, -, -, g3, -, -⟩
        · exact ⟨[], by rw [h2]; exact (List.append_nil _).symm, by simp⟩
        · exact ⟨[m2], h2, fun m hm => by rw [List.mem_singleton.mp hm]; exact g3⟩

theorem reserveItems_supplier (env : Env) (oid : String) (items : List OrderItem) (w : World) :
    ∃ ms, (OrderService.CreateOrder.reserveItems env oid w items).2.stock_movements
        = w.stock_movements ++ ms
      ∧ ∀ m ∈ ms, m.SupplierID = "" := by
  induction items generalizing w with
  | nil => exact ⟨[], by simp [OrderService.CreateOrder.reserveItems], by simp⟩
  | cons it rest ih =>
    unfold OrderService.CreateOrder.reserveItems
    have hout := AddMovement_outcome env (timeNow env w).2
      { ID := "", Type_ := MovementReserve, ProductID := it.ProductID, SupplierID := "",
        OrderID := oid, Quantity := it.Quantity, Price := 0, ExpiryDate := none,
        CreatedAt := (timeNow env w).1 }
    rcases hadd : WarehouseRepositorySQLite.AddMovement env (timeNow env w).2
      { ID := "", Type_ := MovementReserve, ProductID := it.ProductID, SupplierID := "",
        OrderID := oid, Quantity := it.Quantity, Price := 0, ExpiryDate := none,
        CreatedAt := (timeNow env w).1 } with ⟨r, w1⟩
    rw [hadd] at hout
    simp only at hout
    rcases hout with ⟨⟨e, -, h1⟩, h2⟩ | ⟨-, h1, m2, h2, -, -, g3, -, -⟩
    · rw [h1]
      exact ⟨[], by simpa using h2, by simp⟩
    · rw [h1]
      simp only
      obtain ⟨ms, hms, hall⟩ := ih w1
      refine ⟨m2 :: ms, ?_, ?_⟩
      · rw [hms, h2]
        have h0 : (timeNow env w).2.stock_movements = w.stock_movements := rfl
        rw [h0]
        simp
      · intro m hm
        rcases List.mem_cons.mp hm with heq | hin
        · rw [heq]
          exact g3
        · exact hall m hin

/-- What `CreateOrder` leaves behind: every movement it appends names no
supplier, and either no table has changed, or the order `newOrderOf` is stored
with its items and its history. -/
theorem CreateOrder_tables (env : Env) (w : World) (c : String) (items : List OrderItem) :
    (∃ ms, (OrderService.CreateOrder env w c items).2.stock_movements = w.stock_movements ++ ms
        ∧ ∀ m ∈ ms, m.SupplierID = "")
      ∧ (sameTables w (OrderService.CreateOrder env w c items).2
        ∨ ((OrderService.CreateOrder env w c items).2.products = w.products
          ∧ (OrderService.CreateOrder env w c items).2.orders
              = w.orders ++ [orderRowOf (newOrderOf env w c items)]
          ∧ (OrderService.CreateOrder env w c items).2.order_items
              = w.order_items ++ itemRowsOf (newOrderOf env w c items)
          ∧ (OrderService.CreateOrder env w c items).2.order_status_history
              = w.order_status_history ++ statusRowsOf (newOrderOf env w c items)
          ∧ w.ticks ≤ (OrderService.CreateOrder env w c items).2.ticks)) := by
  unfold OrderService.CreateOrder
  by_cases hv : TrimSpace c = "" ∨ items.length = 0
  · rw [if_pos hv]
    exact ⟨⟨[], by simp, by simp⟩, Or.inl (sameTables_refl w)⟩
  · rw [if_neg hv]
    obtain ⟨c1, c2, c3, c4, c5⟩ := checkItems_frame env items w
    have ct := checkItems_ticks env items w
    rcases hc : OrderService.CreateOrder.checkItems env w items with ⟨r, w1⟩
    rw [hc] at c1 c2 c3 c4 c5 ct
    simp only at c1 c2 c3 c4 c5 ct
    cases r with
    | some e =>
      exact ⟨⟨[], by simpa using c5, by simp⟩, Or.inl ⟨c1, c2, c3, c4, c5⟩⟩
    | none =>
      simp only
      have htk := Create_ticks_le env (timeNow env w1).2
        (NewOrder (TrimSpace c) items (timeNow env w1).1)
      rcases hcr : OrderRepositorySQLite.Create env (timeNow env w1).2
        (NewOrder (TrimSpace c) items (timeNow env w1).1) with ⟨r2, o, w2⟩
      rw [hcr] at htk
      simp only at htk
      have h0 : (timeNow env w1).2.ticks = w1.ticks + 1 := rfl
      cases r2 with
      | some e =>
        have hs := Create_some_frame env _ _ o w2 e rfl hcr
        have hs2 := sameTables_trans w _ w2 ⟨c1, c2, c3, c4, c5⟩ hs
        exact ⟨⟨[], by simpa using hs2.2.2.2.2, by simp⟩, Or.inl hs2⟩
      | none =>
        obtain ⟨e1, e2, e3, e4, e5, e6⟩ := Create_inv env (timeNow env w1).2
          (NewOrder (TrimSpace c) items (timeNow env w1).1) o w2 rfl hcr
        have ho : o = newOrderOf env w c items := by
          rw [e1]
          simp only [timeNow, ct, createdOrder, newOrderOf]
        obtain ⟨r1, r2, r3, r4⟩ := reserveItems_frame env o.ID o.Items w2
        obtain ⟨ms, hms, hall⟩ := reserveItems_supplier env o.ID o.Items w2
        have hrt := reserveItems_ticks_le env o.ID o.Items w2
        simp only
        rcases hr : OrderService.CreateOrder.reserveItems env o.ID w2 o.Items with ⟨r5, w3⟩
        rw [hr] at r1 r2 r3 r4 hms hrt
        simp only at r1 r2 r3 r4 hms hrt
        have facts : w3.stock_movements = w.stock_movements ++ ms
            ∧ w3.products = w.products
            ∧ w3.orders = w.orders ++ [orderRowOf (newOrderOf env w c items)]
            ∧ w3.order_items = w.order_items ++ itemRowsOf (newOrderOf env w c items)
            ∧ w3.order_status_history
                = w.order_status_history ++ statusRowsOf (newOrderOf env w c items)
            ∧ w.ticks ≤ w3.ticks := by
          rw [← ho, r1, r2, r3, r4, hms, e2, e3, e4, e5, e6]
          simp only [timeNow, c1, c2, c3, c4, c5]
          exact ⟨trivial, trivial, trivial, trivial, trivial, by omega⟩
        cases r5 with
        | some err => exact ⟨⟨ms, facts.1, hall⟩, Or.inr facts.2⟩
        | none => exact ⟨⟨ms, facts.1, hall⟩, Or.inr facts.2⟩

theorem UpdateOrderStatus_orders_ids (env : Env) (w : World) (id s : String) :
    ∀ r ∈ (OrderService.UpdateOrderStatus env w id s).2.orders, ∃ r0 ∈ w.orders, r.id = r0.id := by
  intro r hr
  rcases UpdateOrderStatus_cases env w id s with ⟨-, h⟩ | ⟨order, -, -, -, -, -, h6⟩
  · rw [h.2.1] at hr
    exact ⟨r, hr, rfl⟩
  · rw [h6] at hr
    obtain ⟨r0, hr0, hmap⟩ := List.mem_map.mp hr
    refine ⟨r0, hr0, ?_⟩
    rw [← hmap]
    by_cases hb : r0.id = order.ID
    · rw [if_pos hb]
    · rw [if_neg hb]

/-- What one call of the API leaves behind: every movement it appends names no
supplier or no order, and no order gets the empty id. -/
theorem step_keys (env : Env) (w : World) (op : Op) :
    (∃ ms, (step env w op).stock_movements = w.stock_movements ++ ms
        ∧ ∀ m ∈ ms, m.SupplierID = "" ∨ m.OrderID = "")
      ∧ ((∀ r ∈ w.orders, r.id ≠ "") → ∀ r ∈ (step env w op).orders, r.id ≠ "") := by
  cases op with
  | receipt p s q price expiry =>
    obtain ⟨⟨-, ho⟩, h⟩ := Receipt_outcome env w p s q price expiry
    refine ⟨?_, fun hord r hr => hord r (by rw [← ho]; exact hr)⟩
    rcases h with ⟨-, h2⟩ | ⟨-, m, h2, -, -, g⟩
    · exact ⟨[], by rw [← List.append_nil w.stock_movements] at h2; exact h2, by simp⟩
    · exact ⟨[m], h2, fun m2 hm2 => by rw [List.mem_singleton.mp hm2]; exact Or.inr g⟩
  | writeOff p q =>
    obtain ⟨ho, ms, h2, hall⟩ := WriteOff_keys env w p q
    exact ⟨⟨ms, h2, fun m hm => Or.inl (hall m hm)⟩,
      fun hord r hr => hord r (by rw [← ho]; exact hr)⟩
  | reserve p o q =>
    obtain ⟨ho, ms, h2, hall⟩ := Reserve_keys env w p o q
    exact ⟨⟨ms, h2, fun m hm => Or.inl (hall m hm)⟩,
      fun hord r hr => hord r (by rw [← ho]; exact hr)⟩
  | createOrder c items =>
    obtain ⟨⟨ms, h2, hall⟩, h⟩ := CreateOrder_tables env w c items
    refine ⟨⟨ms, h2, fun m hm => Or.inl (hall m hm)⟩, fun hord r hr => ?_⟩
    rcases h with hs | ⟨-, ho, -⟩
    · exact hord r (by rw [← hs.2.1]; exact hr)
    · have hr2 : r ∈ w.orders ++ [orderRowOf (newOrderOf env w c items)] := by
        rw [← ho]
        exact hr
      rcases List.mem_append.mp hr2 with h1 | h1
      · exact hord r h1
      · rw [List.mem_singleton.mp h1]
        exact order_id_ne_empty _
  | updateOrderStatus id s =>
    refine ⟨⟨[], ?_, by simp⟩, fun hord r hr => ?_⟩
    · rw [List.append_nil]
      exact UpdateOrderStatus_ledger env w id s
    · obtain ⟨r0, hr0, hid⟩ := UpdateOrderStatus_orders_ids env w id s r hr
      rw [hid]
      exact hord r0 hr0

theorem run_keys (env : Env) (ops : List Op) :
    ∀ w : World, (∀ r ∈ w.orders, r.id ≠ "") →
      (∃ ms, (run env w ops).stock_movements = w.stock_movements ++ ms
          ∧ ∀ m ∈ ms, m.SupplierID = "" ∨ m.OrderID = "")
        ∧ ∀ r ∈ (run env w ops).orders, r.id ≠ "" := by
  induction ops with
  | nil =>
    intro w hord
    exact ⟨⟨[], by simp [run], by simp⟩, hord⟩
  | cons op rest ih =>
    intro w hord
    obtain ⟨⟨ms1, h1, hall1⟩, hord1⟩ := step_keys env w op
    obtain ⟨⟨ms2, h2, hall2⟩, hord2⟩ := ih (step env w op) (hord1 hord)
    have hrun : run env w (op :: rest) = run env (step env w op) rest := rfl
    rw [hrun]
    refine ⟨⟨ms1 ++ ms2, by rw [h2, h1, List.append_assoc], fun m hm => ?_⟩, hord2⟩
    rcases List.mem_append.mp hm with h | h
    · exact hall1 m h
    · exact hall2 m h

/-! ## The running program: stores that satisfy the foreign keys -/

/-- C4: starting from an empty ledger, in a database with no supplier and no
order of empty id, after every sequence of `Receipt`, `WriteOff`, `Reserve`,
`CreateOrder` and `UpdateOrderStatus` calls made one after the other that
leaves a store satisfying the foreign keys, the ledger is still empty and the
inventory of every product is at least zero: every movement the services build
carries the empty supplier id or the empty order id, which has no parent row. -/
theorem C4_inventory_never_negative (env : Env) (suppliers : List String) (w : World)
    (ops : List Op)
    (hempty : w.stock_movements = [])
    (hsup : "" ∉ suppliers)
    (hord : ∀ r ∈ w.orders, r.id ≠ "")
    (hkeys : foreignKeysHold suppliers (run env w ops) = true) :
    (run env w ops).stock_movements = []
      ∧ ∀ p : String, 0 ≤ inventoryOf (run env w ops).stock_movements p := by
  obtain ⟨⟨ms, hms, hall⟩, hord2⟩ := run_keys env ops w hord
  have hnil : (run env w ops).stock_movements = [] := by
    rw [List.eq_nil_iff_forall_not_mem]
    intro m hm
    obtain ⟨-, hs, r, hr, hrid⟩ := foreignKeysHold_movement suppliers _ hkeys m hm
    have hm2 : m ∈ ms := by
      rw [hms, hempty, List.nil_append] at hm
      exact hm
    rcases hall m hm2 with h | h
    · rw [h] at hs
      exact hsup hs
    · rw [h] at hrid
      exact hord2 r hr hrid
  refine ⟨hnil, fun p => ?_⟩
  rw [hnil, ← stockQuery_eq_inventoryOf, stockQuery_nil]

/-- C4 at a run on a store that enforces its keys: the INSERT of the receipt (call 1) and the
INSERT of the reservation of the order (call 5) are refused for their empty
order id and supplier id, the write-off finds no stock; the order is stored
and the ledger is empty. -/
theorem C4_inventory_never_negative_witness :
    foreignKeysHold ["S1"] (run (keyRefusingEnv [1, 5]) worldP1
        [Op.receipt "P1" "S1" 100 1 none, Op.writeOff "P1" 40,
          Op.createOrder "Acme" [⟨"P1", 10, 5⟩]]) = true
      ∧ (run (keyRefusingEnv [1, 5]) worldP1
          [Op.receipt "P1" "S1" 100 1 none, Op.writeOff "P1" 40,
            Op.createOrder "Acme" [⟨"P1", 10, 5⟩]]).orders.length = 1
      ∧ (run (keyRefusingEnv [1, 5]) worldP1
          [Op.receipt "P1" "S1" 100 1 none, Op.writeOff "P1" 40,
            Op.createOrder "Acme" [⟨"P1", 10, 5⟩]]).stock_movements = []
      ∧ ∀ p : String, 0 ≤ inventoryOf (run (keyRefusingEnv [1, 5]) worldP1
          [Op.receipt "P1" "S1" 100 1 none, Op.writeOff "P1" 40,
            Op.createOrder "Acme" [⟨"P1", 10, 5⟩]]).stock_movements p :=
  ⟨by decide!, by decide!,
    C4_inventory_never_negative (keyRefusingEnv [1, 5]) ["S1"] worldP1
      [Op.receipt "P1" "S1" 100 1 none, Op.writeOff "P1" 40,
        Op.createOrder "Acme" [⟨"P1", 10, 5⟩]]
      rfl (by decide) (fun r hr => by cases hr) (by decide!)⟩

/-- C6: for a product id with no row in the product store, whenever `Receipt`
leaves a store that satisfies the foreign keys, it has returned an error and
the ledger is as before: the lookup of the product does not reject the call
(a missing row is no error), the INSERT of the movement is what the engine
refuses. -/
theorem C6_Receipt_unknown_product_rejected (env : Env) (suppliers : List String) (w : World)
    (p s : String) (q price : ℚ) (expiry : Option Time)
    (habsent : ∀ x ∈ w.products, x.ID ≠ p)
    (hkeys : foreignKeysHold suppliers
      (WarehouseService.Receipt env w p s q price expiry).2 = true) :
    (WarehouseService.Receipt env w p s q price expiry).1 ≠ none
      ∧ (WarehouseService.Receipt env w p s q price expiry).2.stock_movements
          = w.stock_movements := by
  obtain ⟨⟨hp, -⟩, h⟩ := Receipt_outcome env w p s q price expiry
  rcases h with h | ⟨-, m, h2, g1, -, -⟩
  · exact h
  · exfalso
    obtain ⟨⟨x, hx, hxid⟩, -, -⟩ := foreignKeysHold_movement suppliers _ hkeys m
      (by rw [h2]; exact List.mem_append_right _ (List.mem_singleton.mpr rfl))
    rw [hp] at hx
    rw [g1] at hxid
    exact habsent x hx hxid

/-- C6 at the product id `ghost` on the empty database: the lookup is answered,
the INSERT (call 1) is refused, `Receipt` returns that error and the ledger
stays empty. -/
theorem C6_Receipt_unknown_product_rejected_witness :
    (ProductRepositorySQLite.GetByID (keyRefusingEnv [1]) emptyWorld "ghost").1 = Except.ok none
      ∧ (WarehouseService.Receipt (keyRefusingEnv [1]) emptyWorld "ghost" "S1" 5 1 none).1
          = some (Error.backend "FOREIGN KEY constraint failed")
      ∧ (WarehouseService.Receipt (keyRefusingEnv [1]) emptyWorld "ghost" "S1" 5 1 none).1 ≠ none
      ∧ (WarehouseService.Receipt (keyRefusingEnv [1]) emptyWorld "ghost" "S1" 5 1
          none).2.stock_movements = emptyWorld.stock_movements :=
  ⟨by decide!, by decide!,
    C6_Receipt_unknown_product_rejected (keyRefusingEnv [1]) ["S1"] emptyWorld "ghost" "S1" 5 1
      none (fun x hx => by cases hx) (by decide!)⟩

/-- C10: for a request in which some item names a product id with no row in
the product store, whenever `CreateOrder` leaves a store that satisfies the
foreign keys, it has returned an error and every table is as before: no order,
no item, no history entry and no movement has been stored.  The lookup of the
products does not reject the request (a missing row is no error), the INSERT
of the item is what the engine refuses. -/
theorem C10_CreateOrder_unknown_product_rejected (env : Env) (suppliers : List String)
    (w : World) (c : String) (items : List OrderItem)
    (habsent : ∃ it ∈ items, ∀ x ∈ w.products, x.ID ≠ it.ProductID)
    (hkeys : foreignKeysHold suppliers (OrderService.CreateOrder env w c items).2 = true) :
    (∃ e, (OrderService.CreateOrder env w c items).1 = Except.error e)
      ∧ sameTables w (OrderService.CreateOrder env w c items).2 := by
  obtain ⟨it, hit, hnone⟩ := habsent
  have hsame : sameTables w (OrderService.CreateOrder env w c items).2 := by
    rcases CreateOrder_cases env w c items with h | ⟨-, o, ms, hitems, hp, -, hi, -, -, -⟩
    · exact h
    · exfalso
      have hrow : OrderItemRow.mk o.ID it.ProductID it.Quantity it.Price
          ∈ (OrderService.CreateOrder env w c items).2.order_items := by
        rw [hi]
        apply List.mem_append_right
        unfold itemRowsOf
        rw [hitems]
        exact List.mem_map.mpr ⟨it, hit, rfl⟩
      obtain ⟨x, hx, hxid⟩ := foreignKeysHold_item suppliers _ hkeys _ hrow
      rw [hp] at hx
      exact hnone x hx hxid
  refine ⟨?_, hsame⟩
  cases hres : (OrderService.CreateOrder env w c items).1 with
  | error e => exact ⟨e, rfl⟩
  | ok order =>
    exfalso
    obtain ⟨-, -, e3, -⟩ := CreateOrder_ok_facts env w c items order hres
    rw [hsame.2.1] at e3
    have hlen := congrArg List.length e3
    simp at hlen

/-- C10 at an order for the product id `ghost` on the empty database: the
lookup is answered, the transaction of `Create` (call 1) is refused,
`CreateOrder` returns that error and no table has a row. -/
theorem C10_CreateOrder_unknown_product_rejected_witness :
    (OrderService.CreateOrder (keyRefusingEnv [1]) emptyWorld "Acme" [⟨"ghost", 2, 5⟩]).1
        = Except.error (Error.backend "FOREIGN KEY constraint failed")
      ∧ (∃ e, (OrderService.CreateOrder (keyRefusingEnv [1]) emptyWorld "Acme"
          [⟨"ghost", 2, 5⟩]).1 = Except.error e)
      ∧ sameTables emptyWorld
          (OrderService.CreateOrder (keyRefusingEnv [1]) emptyWorld "Acme" [⟨"ghost", 2, 5⟩]).2 :=
  ⟨by decide!,
    C10_CreateOrder_unknown_product_rejected (keyRefusingEnv [1]) [] emptyWorld "Acme"
      [⟨"ghost", 2, 5⟩] ⟨⟨"ghost", 2, 5⟩, by simp, fun x hx => by cases hx⟩ (by decide!)⟩

theorem movementKeysHold_congr (suppliers : List String) (w w2 : World)
    (hp : w2.products = w.products) (ho : w2.orders = w.orders) :
    movementKeysHold suppliers w2 = movementKeysHold suppliers w := by
  funext m
  simp only [movementKeysHold, hp, ho]

theorem orderItemKeysHold_congr (w w2 : World)
    (hp : w2.products = w.products) (ho : w2.orders = w.orders) :
    orderItemKeysHold w2 = orderItemKeysHold w := by
  funext r
  simp only [orderItemKeysHold, hp, ho]

/-- A store that satisfies the foreign keys still does after one movement whose
keys have parent rows is appended to the ledger. -/
theorem foreignKeysHold_snoc (suppliers : List String) (w w2 : World) (m2 : StockMovement)
    (hp : w2.products = w.products) (ho : w2.orders = w.orders)
    (hi : w2.order_items = w.order_items)
    (hh : w2.order_status_history = w.order_status_history)
    (hl : w2.stock_movements = w.stock_movements ++ [m2])
    (hw : foreignKeysHold suppliers w = true) (hm : movementKeysHold suppliers w m2 = true) :
    foreignKeysHold suppliers w2 = true := by
  unfold foreignKeysHold at hw ⊢
  rw [movementKeysHold_congr suppliers w w2 hp ho, orderItemKeysHold_congr w w2 hp ho,
    hi, hh, hl, ho]
  simp only [Bool.and_eq_true] at hw ⊢
  refine ⟨?_, hw.2⟩
  rw [List.all_append, Bool.and_eq_true]
  exact ⟨hw.1, by simp [hm]⟩

/-- C22 as stated fails: in a store that satisfies the foreign keys,
`AddMovement` of a movement with the quantity `-5`, whose product, supplier and
order exist, returns no error and stores the movement with that quantity; the
store still satisfies the foreign keys. -/
theorem C22_AddMovement_accepts_nonpositive :
    foreignKeysHold ["S1"] worldKeyed = true
      ∧ movementKeysHold ["S1"] worldKeyed negativeMovement = true
      ∧ negativeMovement.Quantity ≤ 0
      ∧ (WarehouseRepositorySQLite.AddMovement quietEnv worldKeyed negativeMovement).1 = none
      ∧ (WarehouseRepositorySQLite.AddMovement quietEnv worldKeyed
          negativeMovement).2.stock_movements
        = [{ ID := "w-x", Type_ := "reserve", ProductID := "P1", SupplierID := "S1",
             OrderID := "o-1", Quantity := -5, Price := 0, ExpiryDate := none, CreatedAt := 2 }]
      ∧ foreignKeysHold ["S1"]
          (WarehouseRepositorySQLite.AddMovement quietEnv worldKeyed negativeMovement).2
        = true := by
  decide!

/-- C22, amended: `AddMovement` does not look at the quantity or the product
id.  In a store that satisfies the foreign keys, a movement whose product,
supplier and order have parent rows is appended with its type, product id and
quantity as given, whatever the quantity, when the engine completes the call,
and the store still satisfies the foreign keys; when the engine fails the call
its error is returned and the ledger is as before; and a movement whose product
id has no row in the product store (the empty id among them) is refused by
the engine: whenever the call leaves a store that satisfies the foreign keys,
it has returned the error of the engine and the ledger is as before. -/
theorem C22_AddMovement_no_validation (env : Env) (suppliers : List String) (w : World)
    (m : StockMovement) :
    (foreignKeysHold suppliers w = true → movementKeysHold suppliers w m = true →
        env.fault w.calls = none →
        (WarehouseRepositorySQLite.AddMovement env w m).1 = none
          ∧ (∃ m2 : StockMovement,
              (WarehouseRepositorySQLite.AddMovement env w m).2.stock_movements
                  = w.stock_movements ++ [m2]
                ∧ m2.Type_ = m.Type_ ∧ m2.ProductID = m.ProductID ∧ m2.Quantity = m.Quantity)
          ∧ foreignKeysHold suppliers (WarehouseRepositorySQLite.AddMovement env w m).2 = true)
      ∧ (∀ e, env.fault w.calls = some e →
        (WarehouseRepositorySQLite.AddMovement env w m).1 = some (Error.backend e)
          ∧ (WarehouseRepositorySQLite.AddMovement env w m).2.stock_movements
              = w.stock_movements)
      ∧ ((∀ x ∈ w.products, x.ID ≠ m.ProductID) →
        foreignKeysHold suppliers (WarehouseRepositorySQLite.AddMovement env w m).2 = true →
        (∃ e, (WarehouseRepositorySQLite.AddMovement env w m).1 = some (Error.backend e))
          ∧ (WarehouseRepositorySQLite.AddMovement env w m).2.stock_movements
              = w.stock_movements) := by
  obtain ⟨f1, f2, f3, f4, -⟩ := AddMovement_frame env w m
  refine ⟨fun hw hm hf => ?_, fun e hf => AddMovement_fault env w m e hf, fun habs hk => ?_⟩
  · rcases AddMovement_outcome env w m with ⟨⟨e, he, -⟩, -⟩ | ⟨-, h1, m2, h2, g1, g2, g3, g4, g5⟩
    · rw [hf] at he
      cases he
    · refine ⟨h1, ⟨m2, h2, g1, g2, g5⟩, ?_⟩
      apply foreignKeysHold_snoc suppliers w _ m2 f1 f2 f3 f4 h2 hw
      unfold movementKeysHold at hm ⊢
      rw [g2, g3, g4]
      exact hm
  · rcases AddMovement_outcome env w m with ⟨⟨e, -, he⟩, h2⟩ | ⟨-, -, m2, h2, -, g2, -, -, -⟩
    · exact ⟨⟨e, he⟩, h2⟩
    · exfalso
      obtain ⟨⟨x, hx, hxid⟩, -, -⟩ := foreignKeysHold_movement suppliers _ hk m2
        (by rw [h2]; exact List.mem_append_right _ (List.mem_singleton.mpr rfl))
      rw [f1] at hx
      rw [g2] at hxid
      exact habs x hx hxid

/-- C22, amended, at two movements on the store `worldKeyed` with the supplier
`S1`: the movement of quantity `-5` with its three parents is appended, and a
movement with an empty product id, whose INSERT the engine refuses, gives the
error of the engine and leaves the ledger empty. -/
theorem C22_AddMovement_no_validation_witness :
    ((WarehouseRepositorySQLite.AddMovement quietEnv worldKeyed negativeMovement).1 = none
        ∧ (∃ m2 : StockMovement,
            (WarehouseRepositorySQLite.AddMovement quietEnv worldKeyed
                negativeMovement).2.stock_movements = worldKeyed.stock_movements ++ [m2]
              ∧ m2.Type_ = negativeMovement.Type_ ∧ m2.ProductID = negativeMovement.ProductID
              ∧ m2.Quantity = negativeMovement.Quantity)
        ∧ foreignKeysHold ["S1"]
            (WarehouseRepositorySQLite.AddMovement quietEnv worldKeyed negativeMovement).2
          = true)
      ∧ ((∃ e, (WarehouseRepositorySQLite.AddMovement (keyRefusingEnv [0]) worldKeyed
            { negativeMovement with ProductID := "", Quantity := 5 }).1
            = some (Error.backend e))
        ∧ (WarehouseRepositorySQLite.AddMovement (keyRefusingEnv [0]) worldKeyed
            { negativeMovement with ProductID := "", Quantity := 5 }).2.stock_movements
          = worldKeyed.stock_movements) :=
  ⟨(C22_AddMovement_no_validation quietEnv ["S1"] worldKeyed negativeMovement).1
      (by decide!) (by decide!) rfl,
    (C22_AddMovement_no_validation (keyRefusingEnv [0]) ["S1"] worldKeyed
      { negativeMovement with ProductID := "", Quantity := 5 }).2.2
      (by decide) (by decide!)⟩

/-! ## Status updates read back, for every clock -/

/-- The order read back after a successful status update, for every clock: the
order the update returned, with the history in the order of `changed_at`. -/
theorem lookupOrder_afterUpdate_any (env : Env) (w : World) (id s : String) (order : Order)
    (hl : lookupOrder w id = some order) :
    ∃ hist : List StatusEntry,
      lookupOrder (afterUpdate env w order s) id
          = some { updatedOrder env w order s with StatusHist := hist }
        ∧ hist.Perm (order.StatusHist ++ [StatusEntry.mk s (env.clock w.ticks)])
        ∧ hist.Sorted (fun a b : StatusEntry => a.ChangedAt ≤ b.ChangedAt) := by
  obtain ⟨r, hfind, hrid, -, hord⟩ := lookupOrder_some w id order hl
  have hoid : order.ID = r.id := by rw [hord]; rfl
  have hcust : order.Customer = r.customer := by rw [hord]; rfl
  have hcre : order.CreatedAt = r.created_at := by rw [hord]; rfl
  have hitems : order.Items = (w.order_items.filter (fun x => x.order_id = r.id)).map
      (fun x => OrderItem.mk x.product_id x.quantity x.price) := by rw [hord]; rfl
  have hhist : order.StatusHist
      = List.insertionSort (fun a b : StatusEntry => a.ChangedAt ≤ b.ChangedAt)
          ((w.order_status_history.filter (fun x => x.order_id = r.id)).map
            (fun x => StatusEntry.mk x.status x.changed_at)) := by rw [hord]; rfl
  haveI : IsTotal StatusEntry (fun a b : StatusEntry => a.ChangedAt ≤ b.ChangedAt) :=
    ⟨fun a b => Nat.le_total a.ChangedAt b.ChangedAt⟩
  haveI : IsTrans StatusEntry (fun a b : StatusEntry => a.ChangedAt ≤ b.ChangedAt) :=
    ⟨fun _ _ _ h1 h2 => Nat.le_trans h1 h2⟩
  refine ⟨List.insertionSort (fun a b : StatusEntry => a.ChangedAt ≤ b.ChangedAt)
      ((w.order_status_history.filter (fun x => x.order_id = r.id)).map
          (fun x => StatusEntry.mk x.status x.changed_at)
        ++ [StatusEntry.mk s (env.clock w.ticks)]), ?_, ?_, List.sorted_insertionSort _ _⟩
  · unfold lookupOrder
    rw [find?_afterUpdate, hfind]
    simp only [Option.map_some', hoid, if_true, OrderRepositorySQLite.loadItemsAndHistory]
    have hf1 : (afterUpdate env w order s).order_items = w.order_items := rfl
    have hf2 : (afterUpdate env w order s).order_status_history
        = w.order_status_history ++ [StatusRow.mk r.id s (env.clock w.ticks)] := by
      unfold afterUpdate
      rw [hoid]
    rw [hf1, hf2, List.filter_append]
    have hsing : [StatusRow.mk r.id s (env.clock w.ticks)].filter (fun x => x.order_id = r.id)
        = [StatusRow.mk r.id s (env.clock w.ticks)] := by simp
    rw [hsing, List.map_append, List.map_singleton, ← hitems]
    unfold updatedOrder
    simp only [hcre, hoid]
  · rw [hhist]
    exact (List.perm_insertionSort _ _).trans
      (List.Perm.append_right _ (List.perm_insertionSort _ _).symm)

/-- C17, amended: for an order that the store returns with status `new` or
`reserved`, every requested status and a store that does not fail,
`UpdateOrderStatus` succeeds and returns the order with the requested status
and with the loaded history followed by exactly one entry of that status; for
every clock, a subsequent `GetOrder` returns the order with the requested
status, all other fields as returned, and a history in the order of
`changed_at` that consists of the entries of the returned history; when the
clock reading of the update is not earlier than the entries already recorded,
it is the returned order itself. -/
theorem C17_UpdateOrderStatus_success (env : Env) (w : World) (id s : String) (order : Order)
    (hid : TrimSpace id ≠ "") (hf : ∀ n, env.fault n = none)
    (hload : (OrderRepositorySQLite.GetByID env w (TrimSpace id)).1 = Except.ok (some order))
    (hst : order.Status = OrderStatusNew ∨ order.Status = OrderStatusReserved) :
    ∃ updated stored : Order,
      (OrderService.UpdateOrderStatus env w id s).1 = Except.ok updated
        ∧ updated.Status = s
        ∧ updated.StatusHist = order.StatusHist ++ [StatusEntry.mk s (env.clock w.ticks)]
        ∧ (OrderService.GetOrder env (OrderService.UpdateOrderStatus env w id s).2 id).1
            = Except.ok stored
        ∧ stored.Status = s
        ∧ stored = { updated with StatusHist := stored.StatusHist }
        ∧ stored.StatusHist.Perm updated.StatusHist
        ∧ stored.StatusHist.length = order.StatusHist.length + 1
        ∧ stored.StatusHist.Sorted (fun a b : StatusEntry => a.ChangedAt ≤ b.ChangedAt)
        ∧ ((∀ h ∈ order.StatusHist, h.ChangedAt ≤ env.clock w.ticks) → stored = updated) := by
  rw [GetByID_ok env w _ (hf _)] at hload
  simp only [Except.ok.injEq] at hload
  rcases UpdateOrderStatus_cases env w id s with ⟨⟨e, he⟩, -⟩ | ⟨o2, -, -, -, h4, -, h6⟩
  · exfalso
    unfold OrderService.UpdateOrderStatus at he
    rw [if_neg hid, GetByID_ok env w _ (hf _), hload] at he
    simp only at he
    rw [if_pos hst] at he
    obtain ⟨r, -, -, hrmem, hord⟩ := lookupOrder_some w (TrimSpace id) order hload
    have hoid : order.ID = r.id := by rw [hord]; rfl
    rw [Update_ok env (timeNow env { w with calls := w.calls + 1 }).2
      { order with
        Status := s
        UpdatedAt := (timeNow env { w with calls := w.calls + 1 }).1
        StatusHist := order.StatusHist ++
          [{ Status := s, ChangedAt := (timeNow env { w with calls := w.calls + 1 }).1 }] }
      (StatusEntry.mk s (env.clock w.ticks)) (hf _)
      ⟨r, hrmem, hoid.symm⟩ (by simp [timeNow])] at he
    simp at he
  · rw [hload] at h4
    simp only [Option.some.injEq] at h4
    subst h4
    obtain ⟨hist, hlook, hperm, hsorted⟩ :=
      lookupOrder_afterUpdate_any env w (TrimSpace id) s order hload
    have hget : (OrderService.GetOrder env (OrderService.UpdateOrderStatus env w id s).2 id).1
        = Except.ok { updatedOrder env w order s with StatusHist := hist } := by
      rw [h6]
      unfold OrderService.GetOrder
      rw [if_neg hid, GetByID_ok env _ _ (hf _), hlook]
    refine ⟨updatedOrder env w order s, { updatedOrder env w order s with StatusHist := hist },
      by rw [h6], rfl, rfl, hget, rfl, rfl, hperm, ?_, hsorted, fun hmono => ?_⟩
    · have := hperm.length_eq
      simpa using this
    · have h2 := lookupOrder_afterUpdate env w (TrimSpace id) s order hload hmono
      rw [hlook] at h2
      exact Option.some.inj h2

/-- C17, amended, at the scenario of the specification: the `new` order `o-xx`
is set to `completed`, and `GetOrder` then returns it with the history `new`,
`completed`. -/
theorem C17_UpdateOrderStatus_success_witness :
    (OrderRepositorySQLite.GetByID quietEnv worldOrdered (TrimSpace "o-xx")).1
        = Except.ok (some sampleOrder)
      ∧ ∃ updated stored : Order,
          (OrderService.UpdateOrderStatus quietEnv worldOrdered "o-xx" "completed").1
              = Except.ok updated
            ∧ updated.Status = "completed"
            ∧ updated.StatusHist = [⟨"new", 1⟩, ⟨"completed", 7⟩]
            ∧ (OrderService.GetOrder quietEnv
                (OrderService.UpdateOrderStatus quietEnv worldOrdered "o-xx" "completed").2
                "o-xx").1 = Except.ok stored
            ∧ stored.Status = "completed"
            ∧ stored.StatusHist.Perm updated.StatusHist
            ∧ stored.StatusHist.length = 2
            ∧ stored = updated :=
  ⟨by decide!,
    (C17_UpdateOrderStatus_success quietEnv worldOrdered "o-xx" "completed" sampleOrder
      (by decide) (fun _ => rfl) (by decide!) (Or.inl rfl)).elim
      (fun u hu => hu.elim (fun st h =>
        ⟨u, st, h.1, h.2.1, h.2.2.1, h.2.2.2.1, h.2.2.2.2.1, h.2.2.2.2.2.2.1,
          h.2.2.2.2.2.2.2.1, h.2.2.2.2.2.2.2.2.2 (by decide!)⟩))⟩

/-! ## The status history of a stored order, for every clock -/

/-- The order read back from a store to which `Create` has added the rows of
an order with a fresh id and a history of one entry. -/
theorem lookupOrder_appended (w w2 : World) (o : Order) (e : StatusEntry)
    (ho : w2.orders = w.orders ++ [orderRowOf o])
    (hi : w2.order_items = w.order_items ++ itemRowsOf o)
    (hh : w2.order_status_history = w.order_status_history ++ statusRowsOf o)
    (hfresh1 : ∀ r ∈ w.orders, r.id ≠ o.ID)
    (hfresh2 : ∀ r ∈ w.order_items, r.order_id ≠ o.ID)
    (hfresh3 : ∀ r ∈ w.order_status_history, r.order_id ≠ o.ID)
    (hsingle : o.StatusHist = [e]) :
    lookupOrder w2 o.ID = some o := by
  unfold lookupOrder
  have hfind : w2.orders.find? (fun r => r.id = o.ID) = some (orderRowOf o) := by
    rw [ho, List.find?_append]
    have hnone : w.orders.find? (fun r => r.id = o.ID) = none := by
      rw [List.find?_eq_none]
      intro r hr
      simpa using hfresh1 r hr
    rw [hnone]
    simp [orderRowOf]
  rw [hfind]
  simp only [Option.map_some', OrderRepositorySQLite.loadItemsAndHistory, orderRowOf]
  have hitems : (w2.order_items.filter (fun r => r.order_id = o.ID)).map
      (fun r => OrderItem.mk r.product_id r.quantity r.price) = o.Items := by
    rw [hi, List.filter_append]
    have hnil : w.order_items.filter (fun r => r.order_id = o.ID) = [] := by
      rw [List.filter_eq_nil_iff]
      intro r hr
      simpa using hfresh2 r hr
    rw [hnil, List.nil_append]
    exact filter_itemRowsOf o
  have hhist : (w2.order_status_history.filter (fun r => r.order_id = o.ID)).map
      (fun r => StatusEntry.mk r.status r.changed_at) = o.StatusHist := by
    rw [hh, List.filter_append]
    have hnil : w.order_status_history.filter (fun r => r.order_id = o.ID) = [] := by
      rw [List.filter_eq_nil_iff]
      intro r hr
      simpa using hfresh3 r hr
    rw [hnil, List.nil_append]
    exact filter_statusRowsOf o
  rw [hitems, hhist, hsingle]
  simp only [List.insertionSort, List.orderedInsert]
  rw [← hsingle]

theorem updateAll_historyCount (env : Env) (id oid : String) (hid : TrimSpace id = oid)
    (ss : List String) :
    ∀ (w : World) (k : Nat), historyCount oid w k →
      historyCount oid (updateAll env id w ss).2 (k + (updateAll env id w ss).1) := by
  induction ss with
  | nil =>
    intro w k h
    exact h
  | cons s rest ih =>
    intro w k h
    have h0 := h
    obtain ⟨o, hl, hlen, ⟨a, ha, hanew⟩, -⟩ := h
    rcases UpdateOrderStatus_cases env w id s with ⟨⟨e, he⟩, hsame⟩ | ⟨o2, -, -, -, h4, -, h6⟩
    · have hstep : historyCount oid (OrderService.UpdateOrderStatus env w id s).2 k := by
        rw [historyCount, lookupOrder_sameTables w _ oid hsame]
        exact h0
      have := ih _ _ hstep
      show historyCount oid (updateAll env id (OrderService.UpdateOrderStatus env w id s).2 rest).2
        (k + ((match (OrderService.UpdateOrderStatus env w id s).1 with
            | Except.ok _ => 1
            | Except.error _ => 0)
          + (updateAll env id (OrderService.UpdateOrderStatus env w id s).2 rest).1))
      rw [he]
      simpa using this
    · rw [hid, hl] at h4
      simp only [Option.some.injEq] at h4
      subst h4
      obtain ⟨hist, hlook, hperm, -⟩ := lookupOrder_afterUpdate_any env w oid s o hl
      have hstep : historyCount oid (OrderService.UpdateOrderStatus env w id s).2 (k + 1) := by
        rw [h6]
        refine ⟨_, hlook, ?_, ⟨a, ?_, hanew⟩, ⟨StatusEntry.mk s (env.clock w.ticks), ?_, rfl⟩⟩
        · show hist.length = 1 + (k + 1)
          rw [hperm.length_eq, List.length_append, hlen]
          rfl
        · exact hperm.mem_iff.mpr (List.mem_append_left _ ha)
        · exact hperm.mem_iff.mpr (List.mem_append_right _ (List.mem_singleton.mpr rfl))
      have := ih _ _ hstep
      show historyCount oid (updateAll env id (OrderService.UpdateOrderStatus env w id s).2 rest).2
        (k + ((match (OrderService.UpdateOrderStatus env w id s).1 with
            | Except.ok _ => 1
            | Except.error _ => 0)
          + (updateAll env id (OrderService.UpdateOrderStatus env w id s).2 rest).1))
      rw [h6] at this ⊢
      simpa [Nat.add_assoc] using this

/-- C29, amended: for every order that `CreateOrder` has stored, whether the
call then returned it or failed on a reservation, with an order id not yet
used in the store (the primary key), and every sequence of `UpdateOrderStatus`
calls on that order, the order that the store then returns has, for every
clock, a non-empty history whose length is one plus the number of calls that
succeeded, with an entry of status `new` and an entry of the current status of
the order; with a clock that never runs backwards its first entry has status
`new` and its last entry has the current status. -/
theorem C29_history_shape (env : Env) (w : World) (c : String) (items : List OrderItem)
    (row : OrderRow) (id : String) (ss : List String)
    (hrow : (OrderService.CreateOrder env w c items).2.orders = w.orders ++ [row])
    (hfresh1 : ∀ r ∈ w.orders, r.id ≠ row.id)
    (hfresh2 : ∀ r ∈ w.order_items, r.order_id ≠ row.id)
    (hfresh3 : ∀ r ∈ w.order_status_history, r.order_id ≠ row.id)
    (hid : TrimSpace id = row.id)
    (hread : env.fault
      (updateAll env id (OrderService.CreateOrder env w c items).2 ss).2.calls = none) :
    ∃ o : Order,
      (OrderRepositorySQLite.GetByID env
          (updateAll env id (OrderService.CreateOrder env w c items).2 ss).2 row.id).1
          = Except.ok (some o)
        ∧ o.StatusHist ≠ []
        ∧ o.StatusHist.length
            = 1 + (updateAll env id (OrderService.CreateOrder env w c items).2 ss).1
        ∧ (∃ h ∈ o.StatusHist, h.Status = OrderStatusNew)
        ∧ (∃ h ∈ o.StatusHist, h.Status = o.Status)
        ∧ ((∀ a b, a ≤ b → env.clock a ≤ env.clock b) →
            o.StatusHist.head?.map (fun h => h.Status) = some OrderStatusNew
              ∧ o.StatusHist.getLast?.map (fun h => h.Status) = some o.Status) := by
  obtain ⟨-, hcases⟩ := CreateOrder_tables env w c items
  rcases hcases with hs | ⟨-, ho, hi, hh, hticks⟩
  · exfalso
    rw [hs.2.1] at hrow
    have hlen := congrArg List.length hrow
    simp at hlen
  · have hroweq : row = orderRowOf (newOrderOf env w c items) := by
      rw [ho] at hrow
      have := List.append_cancel_left hrow
      simpa using this.symm
    have hoid : (newOrderOf env w c items).ID = row.id := by rw [hroweq]; rfl
    rw [← hoid] at hfresh1 hfresh2 hfresh3 hid ⊢
    have hl : lookupOrder (OrderService.CreateOrder env w c items).2
        (newOrderOf env w c items).ID = some (newOrderOf env w c items) :=
      lookupOrder_appended w _ (newOrderOf env w c items)
        (StatusEntry.mk OrderStatusNew (env.clock w.ticks)) ho hi hh hfresh1 hfresh2 hfresh3 rfl
    have hbase : historyCount (newOrderOf env w c items).ID
        (OrderService.CreateOrder env w c items).2 0 :=
      ⟨_, hl, rfl, ⟨StatusEntry.mk OrderStatusNew (env.clock w.ticks),
        List.mem_singleton.mpr rfl, rfl⟩,
        ⟨StatusEntry.mk OrderStatusNew (env.clock w.ticks), List.mem_singleton.mpr rfl, rfl⟩⟩
    obtain ⟨o, h1, h2, h3, h4⟩ :=
      updateAll_historyCount env id _ hid ss _ _ hbase
    refine ⟨o, ?_, ?_, ?_, h3, h4, fun hmono => ?_⟩
    · rw [GetByID_ok env _ _ hread, h1]
    · intro hnil
      rw [hnil] at h2
      simp only [List.length_nil] at h2
      omega
    · rw [h2, Nat.zero_add]
    · have hshape : historyShape env (newOrderOf env w c items).ID
          (OrderService.CreateOrder env w c items).2 0 := by
        refine ⟨_, hl, rfl, rfl, rfl, fun x hx => ?_⟩
        have hx2 : x ∈ [StatusEntry.mk OrderStatusNew (env.clock w.ticks)] := hx
        rw [List.mem_singleton] at hx2
        rw [hx2]
        exact hmono _ _ hticks
      obtain ⟨o2, g1, g2, g3, -, -⟩ :=
        updateAll_historyShape env hmono id _ hid ss _ _ hshape
      rw [h1] at g1
      have : o = o2 := Option.some.inj g1
      subst this
      exact ⟨g2, g3⟩

/-- C29, amended, at an order whose creation failed: the INSERT of the
reservation (call 2) is refused, `CreateOrder` returns the error and the order
`o-xx` is stored; it is then set to `reserved`, to `completed`, and a third
update is refused; the stored history has three entries, the first `new`, the
last the current status. -/
theorem C29_history_shape_witness :
    (OrderService.CreateOrder (keyRefusingEnv [2]) worldP1 "Acme" [⟨"P1", 10, 5⟩]).1
        = Except.error (Error.backend "FOREIGN KEY constraint failed")
      ∧ (updateAll (keyRefusingEnv [2]) "o-xx"
          (OrderService.CreateOrder (keyRefusingEnv [2]) worldP1 "Acme" [⟨"P1", 10, 5⟩]).2
          ["reserved", "completed", "new"]).1 = 2
      ∧ ∃ o : Order,
          (OrderRepositorySQLite.GetByID (keyRefusingEnv [2])
            (updateAll (keyRefusingEnv [2]) "o-xx"
              (OrderService.CreateOrder (keyRefusingEnv [2]) worldP1 "Acme" [⟨"P1", 10, 5⟩]).2
              ["reserved", "completed", "new"]).2 "o-xx").1 = Except.ok (some o)
            ∧ o.StatusHist ≠ []
            ∧ o.StatusHist.length
                = 1 + (updateAll (keyRefusingEnv [2]) "o-xx"
                    (OrderService.CreateOrder (keyRefusingEnv [2]) worldP1 "Acme"
                      [⟨"P1", 10, 5⟩]).2
                    ["reserved", "completed", "new"]).1
            ∧ o.StatusHist.head?.map (fun h => h.Status) = some OrderStatusNew
            ∧ o.StatusHist.getLast?.map (fun h => h.Status) = some o.Status :=
  ⟨by decide!, by decide!,
    (C29_history_shape (keyRefusingEnv [2]) worldP1 "Acme" [⟨"P1", 10, 5⟩]
      (OrderRow.mk "o-xx" "Acme" "new" 1 3) "o-xx" ["reserved", "completed", "new"]
      (by decide!) (fun r hr => by cases hr) (fun r hr => by cases hr)
      (fun r hr => by cases hr) (by decide) (by decide!)).elim
      (fun o h => ⟨o, h.1, h.2.1, h.2.2.1,
        (h.2.2.2.2.2 (fun _ _ hab => Nat.succ_le_succ hab)).1,
        (h.2.2.2.2.2 (fun _ _ hab => Nat.succ_le_succ hab)).2⟩)⟩

end Warehouse
